import Mathlib

/-!
# Verification of the upload validation pipeline (`fileProcessor.js`)

Shallow embedding of `FileProcessor.validateRow` and `FileProcessor.validateData`
from `src/backend/services/fileProcessor.js`, together with the JavaScript
built-ins they call (`parseInt`, `parseFloat`, `String.prototype.trim`,
`toUpperCase`, `toLowerCase`, `toString`, truthiness).

Conventions of the embedding:

* A JavaScript Number is `JSNumber`: `NaN`, the two infinities, or a finite value kept
  as the rational it is.  The operations that make a Number out of a text or out of
  other Numbers (`parseFloat`, the arithmetic operators) give the IEEE-754 double
  nearest to the exact result (`roundToDouble`: round to nearest, ties to even, overflow
  to an infinity), and `Number::toString` prints the shortest decimal that reads back
  as the same double.  `-0` is identified with `0` (the code never distinguishes them).
* A raw row is a plain object whose own properties hold primitive values; it is an
  association list from column names to `JSValue`.  A method called on the row is looked
  up among these own properties first, and in `Object.prototype` when the row has no
  own property of that name.
* A thrown `Error` is the `error` side of `Except`; the message text is given by a
  `message` function on the error value.
* `console.warn` output does not influence any returned value and is kept only where
  the source accumulates it (`errors` in `validateData`).
-/

namespace FileProcessor

/-! ## JavaScript values -/

/-- A JavaScript Number: `NaN`, `±Infinity`, or a finite value (exact rational). -/
inductive JSNumber where
  | nan
  | infinity (negative : Bool)
  | finite (value : ℚ)
  deriving DecidableEq

/-- The primitive values a parsed CSV / spreadsheet cell can hold. -/
inductive JSValue where
  | undefined
  | null
  | bool (b : Bool)
  | number (n : JSNumber)
  | string (s : String)
  deriving DecidableEq

/-- JavaScript `isNaN` on a Number. -/
def JSNumber.isNaN : JSNumber → Bool
  | .nan => true
  | _ => false

/-! ## Characters and strings -/

/-- The characters matched by `WhiteSpace` and `LineTerminator` of ECMAScript: what
`trim` strips and what `parseInt` / `parseFloat` skip at the start. -/
def isWhiteSpace (c : Char) : Bool :=
  let n := c.toNat
  n == 0x09 || n == 0x0A || n == 0x0B || n == 0x0C || n == 0x0D || n == 0x20 ||
  n == 0xA0 || n == 0x1680 || (0x2000 ≤ n && n ≤ 0x200A) || n == 0x2028 ||
  n == 0x2029 || n == 0x202F || n == 0x205F || n == 0x3000 || n == 0xFEFF

/-- Drop leading white space. -/
def trimStart (cs : List Char) : List Char :=
  cs.dropWhile isWhiteSpace

/-- Drop trailing white space. -/
def trimEnd (cs : List Char) : List Char :=
  (cs.reverse.dropWhile isWhiteSpace).reverse

/-- `String.prototype.trim`. -/
def trim (s : String) : String :=
  String.mk (trimEnd (trimStart s.data))

/-- Upper-case one character.  Only `a`..`z` are mapped: no other character has an
upper-case form containing `Q` or a digit, so membership in `Q1`..`Q4` is unaffected. -/
def upperChar (c : Char) : Char :=
  if 97 ≤ c.toNat ∧ c.toNat ≤ 122 then Char.ofNat (c.toNat - 32) else c

/-- Lower-case one character.  Only `A`..`Z` are mapped: no other character has a
lower-case form made of letters of `green`, `amber` or `red`. -/
def lowerChar (c : Char) : Char :=
  if 65 ≤ c.toNat ∧ c.toNat ≤ 90 then Char.ofNat (c.toNat + 32) else c

/-- `String.prototype.toUpperCase` (on the Latin letters, see `upperChar`). -/
def toUpperCase (s : String) : String :=
  String.mk (s.data.map upperChar)

/-- `String.prototype.toLowerCase` (on the Latin letters, see `lowerChar`). -/
def toLowerCase (s : String) : String :=
  String.mk (s.data.map lowerChar)

/-! ## Digits -/

/-- Value of a character as a digit in the given radix, if it is one. -/
def digitValue (radix : Nat) (c : Char) : Option Nat :=
  let n := c.toNat
  let v : Option Nat :=
    if 48 ≤ n ∧ n ≤ 57 then some (n - 48)
    else if 97 ≤ n ∧ n ≤ 122 then some (n - 87)
    else if 65 ≤ n ∧ n ≤ 90 then some (n - 55)
    else none
  match v with
  | some d => if d < radix then some d else none
  | none => none

/-- Split off the longest leading run of digits of the radix: their values, and the
rest of the text. -/
def splitDigits (radix : Nat) : List Char → List Nat × List Char
  | [] => ([], [])
  | c :: cs =>
    match digitValue radix c with
    | some d => (d :: (splitDigits radix cs).1, (splitDigits radix cs).2)
    | none => ([], c :: cs)

/-- The number written by a list of digits, most significant first. -/
def digitsToNat (radix : Nat) (ds : List Nat) : Nat :=
  ds.foldl (fun acc d => acc * radix + d) 0

/-- Decimal digits of a natural number, least significant first; `fuel` bounds the
number of digits produced. -/
def natDigitsRev : Nat → Nat → List Char
  | 0, _ => []
  | fuel + 1, n =>
    if n < 10 then [Char.ofNat (48 + n)]
    else Char.ofNat (48 + n % 10) :: natDigitsRev fuel (n / 10)

/-- Decimal digits of a natural number, most significant first (`0` gives `0`). -/
def natDigits (n : Nat) : List Char :=
  (natDigitsRev (n + 1) n).reverse

/-- Split an optional leading sign off a text: whether it is `-`, and the rest. -/
def splitSign : List Char → Bool × List Char
  | '-' :: rest => (true, rest)
  | '+' :: rest => (false, rest)
  | cs => (false, cs)

/-- The value `m * 10 ^ e` as a rational. -/
def scale10 (m : Int) (e : Int) : ℚ :=
  if 0 ≤ e then ((m * 10 ^ e.toNat : Int) : ℚ) else mkRat m (10 ^ (-e).toNat)

/-- Attach a sign to a magnitude. -/
def applySign (negative : Bool) (n : Nat) : Int :=
  if negative then -(n : Int) else (n : Int)

/-! ## IEEE-754 doubles -/

/-- The value `m * 2 ^ e` as a rational. -/
def scale2 (m : Int) (e : Int) : ℚ :=
  if 0 ≤ e then ((m * 2 ^ e.toNat : Int) : ℚ) else mkRat m (2 ^ (-e).toNat)

/-- The number of binary digits of a natural number (0 for 0); `fuel` bounds the
number of digits counted. -/
def bitLength : Nat → Nat → Nat
  | 0, _ => 0
  | fuel + 1, n => if n = 0 then 0 else bitLength fuel (n / 2) + 1

/-- The binary exponent of a positive rational `num / den`: the `k` with
`2 ^ k ≤ num / den < 2 ^ (k + 1)`. -/
def binaryExponent (num den : Nat) : Int :=
  let k : Int := (bitLength num num : Int) - (bitLength den den : Int)
  if (if 0 ≤ k then decide (num < den * 2 ^ k.toNat)
      else decide (num * 2 ^ (-k).toNat < den)) then k - 1
  else k

/-- The quotient `num / den` rounded to the nearest integer, a tie to the even one. -/
def roundHalfEven (num den : Nat) : Nat :=
  let floor := num / den
  let rest := num % den
  if den < 2 * rest ∨ (2 * rest = den ∧ floor % 2 = 1) then floor + 1 else floor

/-- The exponent of the unit in the last place of the double nearest to the positive
rational `num / den`: 52 binary places below the leading digit, and `-1074` for the
subnormal values. -/
def doubleExponent (num den : Nat) : Int :=
  max (binaryExponent num den - 52) (-1074)

/-- The positive rational `num / den` in units of `2 ^ e`, rounded to the nearest
integer, a tie to the even one. -/
def roundedMantissa (num den : Nat) (e : Int) : Nat :=
  if 0 ≤ e then roundHalfEven num (den * 2 ^ e.toNat)
  else roundHalfEven (num * 2 ^ (-e).toNat) den

/-- The Number value for a rational: the IEEE-754 binary64 value nearest to it (round to
nearest, ties to even).  A double is `m * 2 ^ e` with `m < 2 ^ 53` and
`-1074 ≤ e ≤ 971`; the unit `2 ^ e` in the last place is that of the binade of the
value, and `2 ^ (-1074)` for the subnormal values.  What rounds to `2 ^ 1024` or beyond
is an infinity, what rounds to nothing is 0. -/
def roundToDouble (q : ℚ) : JSNumber :=
  if q.num = 0 then .finite 0
  else
    let e := doubleExponent q.num.natAbs q.den
    let m := roundedMantissa q.num.natAbs q.den e
    if 971 < e ∨ (e = 971 ∧ 2 ^ 53 ≤ m) then .infinity (decide (q.num < 0))
    else .finite (scale2 (applySign (decide (q.num < 0)) m) e)

/-- Specification side: the doubles, that is the rationals `m * 2 ^ e` with
`|m| < 2 ^ 53` and `-1074 ≤ e ≤ 971`, the finite values of IEEE-754 binary64. -/
def IsDouble (x : ℚ) : Prop :=
  ∃ m e : Int, m.natAbs < 2 ^ 53 ∧ -1074 ≤ e ∧ e ≤ 971 ∧ x = (m : ℚ) * (2 : ℚ) ^ e

/-! ## `parseInt` and `parseFloat` on text -/

/-- Split a hexadecimal marker `0x` / `0X` off a text: the radix to use, and the rest. -/
def splitRadix : List Char → Nat × List Char
  | '0' :: 'x' :: rest => (16, rest)
  | '0' :: 'X' :: rest => (16, rest)
  | cs => (10, cs)

/-- `parseInt(text)` with no radix argument: skip leading white space, read a sign, an
optional `0x`, then the longest run of digits; `none` is `NaN`. -/
def parseIntText (s : String) : Option Int :=
  let signed := splitSign (trimStart s.data)
  let based := splitRadix signed.2
  let digits := (splitDigits based.1 based.2).1
  if digits.isEmpty then none
  else some (applySign signed.1 (digitsToNat based.1 digits))

/-- The exponent part of a decimal literal (`e`, optional sign, digits), `0` when the
text does not continue with a complete exponent part. -/
def parseExponent : List Char → Int
  | c :: rest =>
    if c = 'e' ∨ c = 'E' then
      let signed := splitSign rest
      let digits := (splitDigits 10 signed.2).1
      if digits.isEmpty then 0 else applySign signed.1 (digitsToNat 10 digits)
    else 0
  | [] => 0

/-- The fraction part that follows the integer digits: its digits, and the rest of the
text (nothing is consumed when the text does not continue with a `.`). -/
def splitFraction : List Char → List Nat × List Char
  | '.' :: rest => splitDigits 10 rest
  | cs => ([], cs)

/-- `parseFloat(text)`: skip leading white space, then take the longest prefix that is a
`StrDecimalLiteral` (sign, `Infinity` or digits with optional fraction and exponent);
`NaN` when there is none, and otherwise the double nearest to the decimal read. -/
def parseFloatText (s : String) : JSNumber :=
  let signed := splitSign (trimStart s.data)
  if "Infinity".data.isPrefixOf signed.2 then .infinity signed.1
  else
    let whole := splitDigits 10 signed.2
    let frac := splitFraction whole.2
    if whole.1.isEmpty && frac.1.isEmpty then .nan
    else
      let ex := parseExponent frac.2
      roundToDouble (scale10 (applySign signed.1 (digitsToNat 10 (whole.1 ++ frac.1)))
        (ex - frac.1.length))

/-! ## `Number.prototype.toString` -/

/-- Remove trailing `0` characters. -/
def stripTrailingZeros (cs : List Char) : List Char :=
  (cs.reverse.dropWhile (· == '0')).reverse

/-- The digits-and-exponent layout of `Number::toString` for a positive value written
`0.s × 10 ^ n`, `s` being its significant digits. -/
def formatDecimal (s : List Char) (n : Int) : List Char :=
  let k : Int := s.length
  if k ≤ n ∧ n ≤ 21 then s ++ List.replicate (n - k).toNat '0'
  else if 0 < n ∧ n ≤ 21 then s.take n.toNat ++ '.' :: s.drop n.toNat
  else if -6 < n ∧ n ≤ 0 then '0' :: '.' :: (List.replicate (-n).toNat '0' ++ s)
  else
    let e := n - 1
    let expo := 'e' :: (if 0 ≤ e then '+' else '-') :: natDigits e.natAbs
    if s.length = 1 then s ++ expo
    else s.take 1 ++ '.' :: (s.drop 1 ++ expo)

/-- The least `k` (searched upwards from `k`, at most `fuel` steps) with
`den ≤ num * 10 ^ k`. -/
def leadingShift (num den : Nat) : Nat → Nat → Nat
  | 0, k => k
  | fuel + 1, k => if den ≤ num * 10 ^ k then k else leadingShift num den fuel (k + 1)

/-- The decimal exponent `e` of a positive rational: `10 ^ e ≤ num / den < 10 ^ (e + 1)`. -/
def decimalExponent (num den : Nat) : Int :=
  if den ≤ num then ((natDigits (num / den)).length : Int) - 1
  else -((leadingShift num den (natDigits den).length 1 : Nat) : Int)

/-- The number `num / den * 10 ^ shift`, rounded down to an integer. -/
def scaledFloor (num den : Nat) (shift : Int) : Nat :=
  if 0 ≤ shift then num * 10 ^ shift.toNat / den
  else num / (den * 10 ^ (-shift).toNat)

/-- Whether the decimal `s * 10 ^ e` is closer to `num / den` than `(s - 1) * 10 ^ e`
is, `s - 1` being `num / den * 10 ^ (-e)` rounded down; on a tie the even one of the two
counts as closer. -/
def upperIsCloser (num den s : Nat) (e : Int) : Bool :=
  let twice : Nat := 2 * s - 1
  if 0 ≤ e then
    decide (twice * 10 ^ e.toNat * den < 2 * num) ||
      (decide (twice * 10 ^ e.toNat * den = 2 * num) && decide (s % 2 = 0))
  else
    decide (twice * den < 2 * num * 10 ^ (-e).toNat) ||
      (decide (twice * den = 2 * num * 10 ^ (-e).toNat) && decide (s % 2 = 0))

/-- The digits of `Number::toString` for the positive double `x = num / den` whose
decimal point stands at `n` (`10 ^ (n - 1) ≤ x < 10 ^ n`): the integer `s` and the
exponent `e` of the decimal `s * 10 ^ e` with the fewest digits `k` (tried upwards from
`k`, `fuel` times) that reads back as `x`, the one closest to `x` when two do. -/
def shortestDecimal (num den : Nat) (x : JSNumber) (n : Int) : Nat → Nat → Nat × Int
  | 0, k => (scaledFloor num den (k - n), n - k)
  | fuel + 1, k =>
    let e : Int := n - k
    let lower := scaledFloor num den (k - n)
    let lowerFits := decide (roundToDouble (scale10 lower e) = x)
    let upperFits := decide (roundToDouble (scale10 (lower + 1) e) = x)
    if lowerFits && upperFits then
      (if upperIsCloser num den (lower + 1) e then (lower + 1, e) else (lower, e))
    else if lowerFits then (lower, e)
    else if upperFits then (lower + 1, e)
    else shortestDecimal num den x n fuel (k + 1)

/-- `Number::toString` of a positive double `num / den`: its shortest digits (17 always
suffice), laid out by `formatDecimal`. -/
def positiveToChars (num den : Nat) : List Char :=
  let shortest := shortestDecimal num den (.finite (mkRat num den))
    (decimalExponent num den + 1) 17 1
  let all := natDigits shortest.1
  formatDecimal (stripTrailingZeros all) ((all.length : Int) + shortest.2)

/-- `Number::toString` (radix 10).  A finite value is printed as the double nearest to
it is: it is a double already when it comes from `roundToDouble`. -/
def numberToString : JSNumber → String
  | .nan => "NaN"
  | .infinity false => "Infinity"
  | .infinity true => "-Infinity"
  | .finite q =>
    if q.num = 0 then "0"
    else
      match roundToDouble q with
      | .finite x =>
        if x.num = 0 then "0"
        else if x.num < 0 then String.mk ('-' :: positiveToChars x.num.natAbs x.den)
        else String.mk (positiveToChars x.num.natAbs x.den)
      | .infinity false => "Infinity"
      | .infinity true => "-Infinity"
      | .nan => "NaN"

/-! ## Conversions and truthiness of values -/

/-- The abstract operation `ToString` on a primitive value: what `parseInt`,
`parseFloat` and template literals apply to their argument. -/
def toStringJS : JSValue → String
  | .undefined => "undefined"
  | .null => "null"
  | .bool true => "true"
  | .bool false => "false"
  | .number n => numberToString n
  | .string s => s

/-- The method call `value.toString()`: `none` stands for the `TypeError` thrown when
the receiver is `null` or `undefined`. -/
def callToString : JSValue → Option String
  | .undefined => none
  | .null => none
  | v => some (toStringJS v)

/-- JavaScript truthiness (`ToBoolean`). -/
def truthy : JSValue → Bool
  | .undefined => false
  | .null => false
  | .bool b => b
  | .number .nan => false
  | .number (.infinity _) => true
  | .number (.finite q) => decide (q.num ≠ 0)
  | .string s => decide (s ≠ "")

/-- Global `parseInt(value)`: `ToString`, then `parseIntText`; `none` is `NaN`. -/
def parseInt (v : JSValue) : Option Int :=
  parseIntText (toStringJS v)

/-- Global `parseFloat(value)`: `ToString`, then `parseFloatText`. -/
def parseFloat (v : JSValue) : JSNumber :=
  parseFloatText (toStringJS v)

/-! ## Raw rows -/

/-- A raw row as produced by the CSV / spreadsheet parsers: own properties, by name. -/
abbrev RawRow := List (String × JSValue)

/-- `Object.prototype.hasOwnProperty` applied to a row: whether the row has an own
property (a column) of the given name. -/
def RawRow.hasOwnProperty (row : RawRow) (col : String) : Bool :=
  (row.lookup col).isSome

/-- Property read `row[col]`: `undefined` when the row has no such property. -/
def RawRow.get (row : RawRow) (col : String) : JSValue :=
  (row.lookup col).getD .undefined

/-- The `requiredColumns` of the `FileProcessor` constructor. -/
def requiredColumns : List String :=
  ["quarter", "year", "metric_name", "metric_value"]

/-- The value of `!row.hasOwnProperty(col) || row[col] === undefined || row[col] === ''`
when `row.hasOwnProperty` is the method inherited from `Object.prototype`. -/
def isMissingColumn (row : RawRow) (col : String) : Bool :=
  !row.hasOwnProperty col || decide (row.get col = .undefined) ||
    decide (row.get col = .string "")

/-- The quarter labels accepted by `validateRow`. -/
def validQuarters : List String := ["Q1", "Q2", "Q3", "Q4"]

/-- The `validStatuses` of `validateRow`. -/
def validStatuses : List String := ["green", "amber", "red"]

/-! ## `validateRow` -/

/-- The errors `validateRow` can throw.  The four `invalid…` errors carry the raw cell
that is quoted in the message; `typeError` is the `TypeError` of calling `toString` on
`null`, with the column whose cell was the receiver; `notAFunction` is the `TypeError`
of calling a property that holds a cell, with the text of the callee. -/
inductive RowError where
  | missingColumns (cols : List String)
  | invalidQuarter (raw : JSValue)
  | invalidYear (raw : JSValue)
  | invalidMetricValue (raw : JSValue)
  | invalidTargetValue (raw : JSValue)
  | typeError (column : String) (receiver : JSValue)
  | notAFunction (callee : String)
  deriving DecidableEq

/-- The `message` of a thrown error. -/
def RowError.message : RowError → String
  | .missingColumns cols => "Missing required columns: " ++ ", ".intercalate cols
  | .invalidQuarter raw =>
    "Invalid quarter format: " ++ toStringJS raw ++ ". Must be Q1, Q2, Q3, or Q4"
  | .invalidYear raw => "Invalid year: " ++ toStringJS raw ++ ". Must be between 2020-2030"
  | .invalidMetricValue raw =>
    "Invalid metric value: " ++ toStringJS raw ++ ". Must be a number"
  | .invalidTargetValue raw =>
    "Invalid target value: " ++ toStringJS raw ++ ". Must be a number"
  | .typeError _ receiver =>
    "Cannot read properties of " ++ toStringJS receiver ++ " (reading \x27toString\x27)"
  | .notAFunction callee => callee ++ " is not a function"

/-- The object returned by `validateRow`; `none` is `null`. -/
structure ValidatedRow where
  quarter : String
  year : Int
  metric_name : String
  metric_value : JSNumber
  metric_unit : Option String
  category : Option String
  description : Option String
  target_value : Option JSNumber
  status : Option String
  deriving DecidableEq

/-- An optional text column: `row[col] ? row[col].toString().trim() : null`. -/
def optionalText (v : JSValue) : Option String :=
  if truthy v then some (trim (toStringJS v)) else none

/-- The status block of `validateRow`: the normalised tag when it is a valid status,
`null` otherwise (an invalid tag is only reported by `console.warn`). -/
def normalizeStatus (v : JSValue) : Option String :=
  if truthy v && decide (v ≠ .string "") then
    let statusValue := toLowerCase (trim (toStringJS v))
    if validStatuses.contains statusValue then some statusValue else none
  else none

/-- The callback of the filter of lines 96-98, applied to one required column.  The call
`row.hasOwnProperty(col)` takes its callee from the row: when the row has an own column
named `hasOwnProperty`, the callee is that cell, a primitive value, and the call throws
the `TypeError` `row.hasOwnProperty is not a function`; otherwise the callee is the
method of `Object.prototype`. -/
def missingColumnTest (row : RawRow) (col : String) : Except RowError Bool :=
  if row.hasOwnProperty "hasOwnProperty" then .error (.notAFunction "row.hasOwnProperty")
  else .ok (isMissingColumn row col)

/-- `array.filter(callback)` for a callback that can throw: the columns are tested in
order, and the first throw ends the loop. -/
def filterColumns (callback : String → Except RowError Bool) :
    List String → Except RowError (List String)
  | [] => .ok []
  | col :: rest =>
    match callback col with
    | .error e => .error e
    | .ok keep =>
      match filterColumns callback rest with
      | .error e => .error e
      | .ok kept => .ok (if keep then col :: kept else kept)

/-- Lines 95-102, "Check required columns": throw when the list of missing required
columns is not empty. -/
def checkRequiredColumns (row : RawRow) : Except RowError Unit :=
  match filterColumns (missingColumnTest row) requiredColumns with
  | .error e => .error e
  | .ok missingColumns =>
    if missingColumns.length > 0 then .error (.missingColumns missingColumns)
    else .ok ()

/-- Lines 104-108, "Validate quarter format": the upper-cased quarter text, which must
be one of `Q1`..`Q4`. -/
def checkQuarter (row : RawRow) : Except RowError String :=
  match callToString (row.get "quarter") with
  | none => .error (.typeError "quarter" (row.get "quarter"))
  | some quarterText =>
    let quarter := toUpperCase quarterText
    if !validQuarters.contains quarter then .error (.invalidQuarter (row.get "quarter"))
    else .ok quarter

/-- Lines 110-114, "Validate year": `parseInt(row.year)`, rejected when it is `NaN`,
below 2020 or above 2030. -/
def checkYear (row : RawRow) : Except RowError Int :=
  match parseInt (row.get "year") with
  | none => .error (.invalidYear (row.get "year"))
  | some year =>
    if year < 2020 ∨ year > 2030 then .error (.invalidYear (row.get "year"))
    else .ok year

/-- Lines 116-120, "Validate metric value": `parseFloat(row.metric_value)`, rejected
when it is `NaN`. -/
def checkMetricValue (row : RawRow) : Except RowError JSNumber :=
  let metricValue := parseFloat (row.get "metric_value")
  if metricValue.isNaN then .error (.invalidMetricValue (row.get "metric_value"))
  else .ok metricValue

/-- Lines 122-129, "Validate target value if provided": `null` when the cell is falsy,
the parsed number otherwise, an error when that number is `NaN`. -/
def checkTargetValue (row : RawRow) : Except RowError (Option JSNumber) :=
  if truthy (row.get "target_value") && decide (row.get "target_value" ≠ .string "") then
    let targetValue := parseFloat (row.get "target_value")
    if targetValue.isNaN then .error (.invalidTargetValue (row.get "target_value"))
    else .ok (some targetValue)
  else .ok none

/-- Line 146: `row.metric_name.toString().trim()`. -/
def metricNameText (row : RawRow) : Except RowError String :=
  match callToString (row.get "metric_name") with
  | none => .error (.typeError "metric_name" (row.get "metric_name"))
  | some text => .ok (trim text)

/-- `FileProcessor.validateRow(row, rowNumber)`, lines 94-154: the checks in source
order, then the returned object. -/
def validateRow (row : RawRow) (_rowNumber : Nat) : Except RowError ValidatedRow := do
  checkRequiredColumns row
  let quarter ← checkQuarter row
  let year ← checkYear row
  let metricValue ← checkMetricValue row
  let targetValue ← checkTargetValue row
  let status := normalizeStatus (row.get "status")
  let metricName ← metricNameText row
  return {
    quarter := quarter
    year := year
    metric_name := metricName
    metric_value := metricValue
    metric_unit := optionalText (row.get "metric_unit")
    category := optionalText (row.get "category")
    description := optionalText (row.get "description")
    target_value := targetValue
    status := status }

/-! ## `validateData` -/

/-- The errors `validateData` throws itself. -/
inductive DataError where
  | noData
  | noValidRows
  deriving DecidableEq

/-- The `message` of a `validateData` error. -/
def DataError.message : DataError → String
  | .noData => "No data found in file"
  | .noValidRows => "No valid data rows found"

/-- The argument of `validateData`: an array of raw rows, or any other value. -/
inductive RawData where
  | nonArray (v : JSValue)
  | array (rows : List RawRow)

/-- The two accumulators of the `forEach` loop of `validateData`. -/
structure RowLoop where
  validatedData : List ValidatedRow
  errors : List String

/-- The `data.forEach((row, index) => ...)` loop of `validateData`, from position
`index` on.  A returned row object is always truthy, so every returned row is pushed;
a thrown error is caught and recorded. -/
def forEachRow (rowValidator : RawRow → Nat → Except RowError ValidatedRow) :
    List RawRow → Nat → RowLoop → RowLoop
  | [], _, acc => acc
  | row :: rest, index, acc =>
    match rowValidator row (index + 1) with
    | .ok validatedRow =>
      forEachRow rowValidator rest (index + 1)
        { acc with validatedData := acc.validatedData ++ [validatedRow] }
    | .error e =>
      forEachRow rowValidator rest (index + 1)
        { acc with
          errors := acc.errors ++
            ["Row " ++ String.mk (natDigits (index + 1)) ++ ": " ++ e.message] }

/-- The body of `validateData`, with the method `this.validateRow` it calls as an
argument. -/
def validateDataWith (rowValidator : RawRow → Nat → Except RowError ValidatedRow) :
    RawData → Except DataError (List ValidatedRow)
  | .nonArray _ => .error .noData
  | .array rows =>
    if rows.length = 0 then .error .noData
    else
      let acc := forEachRow rowValidator rows 0 { validatedData := [], errors := [] }
      if acc.validatedData.length = 0 then .error .noValidRows
      else .ok acc.validatedData

/-- `FileProcessor.validateData(data)`, lines 64-92. -/
def validateData (data : RawData) : Except DataError (List ValidatedRow) :=
  validateDataWith validateRow data

/-- The list handed to `console.warn('Validation warnings:', errors)` by
`validateData` (empty when nothing is logged). -/
def validationWarnings (data : RawData) : List String :=
  match data with
  | .nonArray _ => []
  | .array rows =>
    if rows.length = 0 then []
    else (forEachRow validateRow rows 0 { validatedData := [], errors := [] }).errors

/-! ## Specification-side notions -/

/-- A required field is missing from a row when it is absent, `undefined`, or the empty
string (the wording of the specification). -/
def FieldMissing (row : RawRow) (col : String) : Prop :=
  row.lookup col = none ∨ row.lookup col = some .undefined ∨
    row.lookup col = some (.string "")

/-- A row is accepted when `validateRow` returns a record for it. -/
def Accepted (row : RawRow) : Prop :=
  ∃ r, ∀ rowNumber, validateRow row rowNumber = .ok r

/-- The record `validateRow` returns for a row, `none` when it throws. -/
def acceptedRecord (row : RawRow) : Option ValidatedRow :=
  match validateRow row 0 with
  | .ok r => some r
  | .error _ => none

/-- A run of `validateRow` fails the quarter check when the error it throws comes from
the quarter block (lines 104-108): the invalid-quarter error, or the `TypeError` of
calling `toString` on a `null` quarter. -/
def FailsQuarterCheck (res : Except RowError ValidatedRow) : Prop :=
  (∃ raw, res = .error (.invalidQuarter raw)) ∨
    ∃ v, res = .error (.typeError "quarter" v)

/-- A decimal digit. -/
def isDecimalDigit (c : Char) : Bool :=
  decide (48 ≤ c.toNat ∧ c.toNat ≤ 57)

/-- A text starts with a numeral when, after leading white space and an optional sign,
it goes on with `Infinity`, with a digit, or with a point followed by a digit. -/
def StartsWithNumeral (s : String) : Prop :=
  ['I', 'n', 'f', 'i', 'n', 'i', 't', 'y'].isPrefixOf (splitSign (trimStart s.data)).2 = true ∨
    (∃ c rest, (splitSign (trimStart s.data)).2 = c :: rest ∧ isDecimalDigit c = true) ∨
    ∃ c rest, (splitSign (trimStart s.data)).2 = '.' :: c :: rest ∧ isDecimalDigit c = true

/-- A plain decimal numeral, as a CSV cell holds it: an optional minus sign, the digits
before the point, and the digits after the point (none when there is no point). -/
structure Numeral where
  negative : Bool
  whole : List (Fin 10)
  frac : List (Fin 10)

/-- The character of a decimal digit. -/
def digitChar (d : Fin 10) : Char := Char.ofNat (48 + d.val)

/-- The text of a numeral: sign, digits, and the fraction when there is one. -/
def Numeral.text (n : Numeral) : String :=
  String.mk ((if n.negative then ['-'] else []) ++
    (n.whole.map digitChar ++ (if n.frac.isEmpty then [] else '.' :: n.frac.map digitChar)))

/-- The natural number written by a list of decimal digits, by place value. -/
def digitsValue : List (Fin 10) → Nat
  | [] => 0
  | d :: ds => d.val * 10 ^ ds.length + digitsValue ds

/-- The number a numeral denotes. -/
def Numeral.value (n : Numeral) : ℚ :=
  (if n.negative then -1 else 1) *
    ((digitsValue n.whole : ℚ) + (digitsValue n.frac : ℚ) / 10 ^ n.frac.length)

/-! ## Sample rows -/

/-- A sample CSV row: all four required fields valid, and a target value that is not a
number. -/
def rowWithBadTarget : RawRow :=
  [("quarter", .string "Q1"), ("year", .string "2025"), ("metric_name", .string "NRR"),
    ("metric_value", .string "105"), ("target_value", .string "abc")]

/-- A sample spreadsheet row whose metric name cell holds `null` (a `#NULL!` cell). -/
def rowWithNullName : RawRow :=
  [("quarter", .string "Q1"), ("year", .number (.finite 2025)), ("metric_name", .null),
    ("metric_value", .number (.finite 105))]

/-- A sample row whose metric value is a number followed by other text. -/
def rowWithTrailingText : RawRow :=
  [("quarter", .string "Q1"), ("year", .string "2025"), ("metric_name", .string "NRR"),
    ("metric_value", .string "12abc")]

/-- A sample row whose metric value is an integer numeral that no double holds. -/
def rowWithLongInteger : RawRow :=
  [("quarter", .string "Q1"), ("year", .string "2025"), ("metric_name", .string "NRR"),
    ("metric_value", .string "9007199254740993")]

/-- A sample row whose metric value is a decimal fraction that no double holds. -/
def rowWithTenth : RawRow :=
  [("quarter", .string "Q1"), ("year", .string "2025"), ("metric_name", .string "NRR"),
    ("metric_value", .string "0.1")]

/-- A sample spreadsheet row (numeric cells), without a target value. -/
def rowWithoutTarget : RawRow :=
  [("quarter", .string "Q1"), ("year", .number (.finite 2025)),
    ("metric_name", .string "Churn"), ("metric_value", .number (.finite 5))]

/-- A sample CSV row whose metric name is made of spaces. -/
def rowWithBlankName : RawRow :=
  [("quarter", .string "Q1"), ("year", .string "2025"), ("metric_name", .string "   "),
    ("metric_value", .string "5")]

/-- A sample CSV row that is accepted, with untidy quarter, name and status. -/
def sampleRow : RawRow :=
  [("quarter", .string "q3"), ("year", .string "2025"), ("metric_name", .string " NRR "),
    ("metric_value", .string "105"), ("target_value", .string "110"),
    ("status", .string " Green ")]

/-- The row `sampleRow` without its status column. -/
def sampleRowNoStatus : RawRow :=
  [("quarter", .string "q3"), ("year", .string "2025"), ("metric_name", .string " NRR "),
    ("metric_value", .string "105"), ("target_value", .string "110")]

/-- The first row of the template that `generateTemplate` produces. -/
def templateRow : RawRow :=
  [("quarter", .string "Q1"), ("year", .string "2024"),
    ("metric_name", .string "Total ARR"), ("metric_value", .string "6520000"),
    ("metric_unit", .string "USD"), ("category", .string "Growth & Retention"),
    ("description", .string "Annual Recurring Revenue"),
    ("target_value", .string "7100000"), ("status", .string "amber")]

/-- A sample CSV row with nothing but a year, which is out of range. -/
def rowWithYearOnly : RawRow :=
  [("year", .string "2031")]

/-- A sample CSV row with a column named `hasOwnProperty` and, of the required
columns, a year only. -/
def shadowedRowWithYearOnly : RawRow :=
  [("hasOwnProperty", .string "x"), ("year", .string "2031")]

/-- The row `rowWithLateYear` with one more column, named `hasOwnProperty`. -/
def shadowedRowWithLateYear : RawRow :=
  [("hasOwnProperty", .string "x"), ("quarter", .string "Q2"), ("year", .string "2031"),
    ("metric_name", .string "CAC"), ("metric_value", .string "2340")]

/-- A complete sample CSV row whose quarter is `Q5`. -/
def rowWithBadQuarter : RawRow :=
  [("quarter", .string "Q5"), ("year", .string "2025"), ("metric_name", .string "NRR"),
    ("metric_value", .string "5")]

/-- The row `rowWithBadQuarter` with one more column, named `hasOwnProperty`. -/
def shadowedRowWithBadQuarter : RawRow :=
  [("hasOwnProperty", .string "x"), ("quarter", .string "Q5"), ("year", .string "2025"),
    ("metric_name", .string "NRR"), ("metric_value", .string "5")]

/-- A complete and valid sample CSV row with one more column, named `hasOwnProperty`. -/
def shadowedValidRow : RawRow :=
  [("hasOwnProperty", .string "x"), ("quarter", .string "Q1"), ("year", .string "2025"),
    ("metric_name", .string "NRR"), ("metric_value", .string "5")]

/-- A sample CSV row with a year just above the accepted range. -/
def rowWithLateYear : RawRow :=
  [("quarter", .string "Q2"), ("year", .string "2031"), ("metric_name", .string "CAC"),
    ("metric_value", .string "2340")]

end FileProcessor

/-!
# Verification of the data layer (`database.js`) and of the routes that use it

Shallow embedding of `DatabaseService` from `src/backend/services/database.js` and of
the route handlers of `dataRoutes.js`, `uploadRoutes.js` and `hubspotRoutes.js` that
read and write the metric store.

Conventions of the embedding:

* The SQLite database is a record of its tables, each a list of rows in rowid order.
  A column holds a `SqlValue` (`NULL`, an integer, a real or a text), as SQLite's
  dynamic typing allows; values go through the parameter binding of the `sqlite3`
  driver and through the type affinity of the column they are stored in.
* A promise that resolves is the `ok` side of `Except`, one that rejects the `error`
  side; the operations run one after the other.
* `CURRENT_TIMESTAMP` is an argument (`now`) of the operations that write.
* `ORDER BY` is a stable sort of the rows in rowid order; no theorem depends on the
  order SQLite gives to rows with equal sort keys.
-/

namespace DatabaseService

open FileProcessor

/-! ## JavaScript operators used by the data layer -/

/-- Strict equality `===` on primitive values. -/
def strictEquals (a b : JSValue) : Bool :=
  match a, b with
  | .number .nan, _ => false
  | _, .number .nan => false
  | x, y => decide (x = y)

/-- The exponent part of a numeric literal and the text after it; nothing is consumed
when the text does not continue with a complete exponent part. -/
def splitExponent : List Char → Int × List Char
  | c :: rest =>
    if c = 'e' ∨ c = 'E' then
      let signed := splitSign rest
      let digits := splitDigits 10 signed.2
      if digits.1.isEmpty then (0, c :: rest)
      else (applySign signed.1 (digitsToNat 10 digits.1), digits.2)
    else (0, c :: rest)
  | [] => (0, [])

/-- The digits of a `0x`, `0o` or `0b` literal: all of the text must be digits. -/
def radixLiteral (radix : Nat) (cs : List Char) : JSNumber :=
  let digits := splitDigits radix cs
  if digits.1.isEmpty || !digits.2.isEmpty then .nan
  else roundToDouble (digitsToNat radix digits.1)

/-- The body of a `StrDecimalLiteral` that must span the whole text. -/
def decimalLiteral (cs : List Char) : JSNumber :=
  let signed := splitSign cs
  if signed.2 = ['I', 'n', 'f', 'i', 'n', 'i', 't', 'y'] then .infinity signed.1
  else
    let whole := splitDigits 10 signed.2
    let frac := splitFraction whole.2
    let ex := splitExponent frac.2
    if (whole.1.isEmpty && frac.1.isEmpty) || !ex.2.isEmpty then .nan
    else
      roundToDouble (scale10 (applySign signed.1 (digitsToNat 10 (whole.1 ++ frac.1)))
        (ex.1 - frac.1.length))

/-- `StringToNumber`: the whole trimmed text must be a numeric literal; the empty text
is 0. -/
def stringToNumber (s : String) : JSNumber :=
  match trimEnd (trimStart s.data) with
  | [] => .finite 0
  | '0' :: 'x' :: rest => radixLiteral 16 rest
  | '0' :: 'X' :: rest => radixLiteral 16 rest
  | '0' :: 'o' :: rest => radixLiteral 8 rest
  | '0' :: 'O' :: rest => radixLiteral 8 rest
  | '0' :: 'b' :: rest => radixLiteral 2 rest
  | '0' :: 'B' :: rest => radixLiteral 2 rest
  | cs => decimalLiteral cs

/-- The abstract operation `ToNumber` on a primitive value. -/
def toNumber : JSValue → JSNumber
  | .undefined => .nan
  | .null => .finite 0
  | .bool true => .finite 1
  | .bool false => .finite 0
  | .number n => n
  | .string s => stringToNumber s

/-- The difference of two rationals, computed on numerators and denominators. -/
def ratSub (a b : ℚ) : ℚ :=
  mkRat (a.num * b.den - b.num * a.den) (a.den * b.den)

/-- The product of two rationals, computed on numerators and denominators. -/
def ratMul (a b : ℚ) : ℚ :=
  mkRat (a.num * b.num) (a.den * b.den)

/-- The quotient of two rationals, computed on numerators and denominators. -/
def ratDiv (a b : ℚ) : ℚ :=
  Rat.divInt (a.num * b.den) (a.den * b.num)

/-- The exact difference of two Numbers, before it is rounded. -/
def exactSub : JSNumber → JSNumber → JSNumber
  | .nan, _ => .nan
  | _, .nan => .nan
  | .infinity a, .infinity b => if a = b then .nan else .infinity a
  | .infinity a, .finite _ => .infinity a
  | .finite _, .infinity b => .infinity (!b)
  | .finite x, .finite y => .finite (ratSub x y)

/-- The exact product of two Numbers, before it is rounded. -/
def exactMul : JSNumber → JSNumber → JSNumber
  | .nan, _ => .nan
  | _, .nan => .nan
  | .infinity a, .infinity b => .infinity (a != b)
  | .infinity a, .finite y => if y.num = 0 then .nan else .infinity (a != decide (y.num < 0))
  | .finite x, .infinity b => if x.num = 0 then .nan else .infinity (b != decide (x.num < 0))
  | .finite x, .finite y => .finite (ratMul x y)

/-- The exact quotient of two Numbers, before it is rounded; a zero divisor is `+0`, so
that a finite value divided by zero is an infinity and `0 / 0` is `NaN`. -/
def exactDiv : JSNumber → JSNumber → JSNumber
  | .nan, _ => .nan
  | _, .nan => .nan
  | .infinity _, .infinity _ => .nan
  | .infinity a, .finite y => .infinity (a != decide (y.num < 0))
  | .finite _, .infinity _ => .finite 0
  | .finite x, .finite y =>
    if y.num = 0 then (if x.num = 0 then .nan else .infinity (decide (x.num < 0)))
    else .finite (ratDiv x y)

/-- The Number for the exact result of an operation: a finite result is rounded to the
nearest double. -/
def roundNumber : JSNumber → JSNumber
  | .finite q => roundToDouble q
  | n => n

/-- Number subtraction (`Number::subtract`): the exact difference, rounded. -/
def numberSub (a b : JSNumber) : JSNumber :=
  roundNumber (exactSub a b)

/-- Number multiplication (`Number::multiply`): the exact product, rounded. -/
def numberMul (a b : JSNumber) : JSNumber :=
  roundNumber (exactMul a b)

/-- Number division (`Number::divide`): the exact quotient, rounded. -/
def numberDiv (a b : JSNumber) : JSNumber :=
  roundNumber (exactDiv a b)

/-- The binary operator `a - b` on values. -/
def jsSubtract (a b : JSValue) : JSNumber :=
  numberSub (toNumber a) (toNumber b)

/-- The binary operator `a / b` on values. -/
def jsDivide (a b : JSValue) : JSNumber :=
  numberDiv (toNumber a) (toNumber b)

/-- The binary operator `a * b` on values. -/
def jsMultiply (a b : JSValue) : JSNumber :=
  numberMul (toNumber a) (toNumber b)

/-! ## SQLite values -/

/-- A value in a SQLite column or bound to a statement parameter (blobs are not used
by the program).  A `real` is never `NaN`: SQLite turns `NaN` into `NULL`. -/
inductive SqlValue where
  | null
  | integer (i : Int)
  | real (x : JSNumber)
  | text (s : String)
  deriving DecidableEq

/-- How the `sqlite3` driver binds a JavaScript value to a `?` parameter: strings as
text, numbers that equal their 32-bit integer value as integers and other numbers as
reals, booleans as 0 / 1, `null` as `NULL`; `undefined` leaves the parameter unbound,
which SQLite reads as `NULL`. -/
def bindParameter : JSValue → SqlValue
  | .undefined => .null
  | .null => .null
  | .bool b => .integer (if b then 1 else 0)
  | .number .nan => .null
  | .number (.infinity negative) => .real (.infinity negative)
  | .number (.finite q) =>
    if q.den = 1 ∧ -2147483648 ≤ q.num ∧ q.num ≤ 2147483647 then .integer q.num
    else .real (.finite q)
  | .string s => .text s

/-- How the driver hands a column value to JavaScript. -/
def readColumn : SqlValue → JSValue
  | .null => .null
  | .integer i => .number (.finite i)
  | .real x => .number x
  | .text s => .string s

/-- The text of an integer, as SQLite writes it. -/
def sqlIntegerText (i : Int) : String :=
  String.mk ((if i < 0 then ['-'] else []) ++ natDigits i.natAbs)

/-- The number `num / den * 10 ^ shift` rounded to the nearest integer. -/
def scaledRound (num den : Nat) (shift : Int) : Nat :=
  if 0 ≤ shift then (2 * num * 10 ^ shift.toNat + den) / (2 * den)
  else (2 * num + den * 10 ^ (-shift).toNat) / (2 * den * 10 ^ (-shift).toNat)

/-- Two decimal digits at least, as in the exponent of a printed real. -/
def exponentDigits (n : Nat) : List Char :=
  if n < 10 then '0' :: natDigits n else natDigits n

/-- The `%!.15g` layout of SQLite for a positive real with significant digits `digits`
and decimal exponent `e`. -/
def formatReal (digits : List Char) (e : Int) : List Char :=
  if e < -4 ∨ 15 ≤ e then
    digits.take 1 ++ '.' :: ((if (digits.drop 1).isEmpty then ['0'] else digits.drop 1) ++
      'e' :: (if e < 0 then '-' else '+') :: exponentDigits e.natAbs)
  else if 0 ≤ e then
    let whole := (digits ++ List.replicate (e.toNat + 1 - digits.length) '0').take (e.toNat + 1)
    let frac := digits.drop (e.toNat + 1)
    whole ++ '.' :: (if frac.isEmpty then ['0'] else frac)
  else '0' :: '.' :: (List.replicate ((-e).toNat - 1) '0' ++ digits)

/-- The text of a positive real: 15 significant digits. -/
def positiveRealText (num den : Nat) : List Char :=
  let e := decimalExponent num den
  let m := scaledRound num den (14 - e)
  if 10 ^ 15 ≤ m then formatReal (stripTrailingZeros (natDigits (m / 10))) (e + 1)
  else formatReal (stripTrailingZeros (natDigits m)) e

/-- The text form SQLite gives to a real (`%!.15g`). -/
def sqlRealText : JSNumber → String
  | .nan => ""
  | .infinity false => "Inf"
  | .infinity true => "-Inf"
  | .finite q =>
    if q.num = 0 then "0.0"
    else if q.num < 0 then String.mk ('-' :: positiveRealText q.num.natAbs q.den)
    else String.mk (positiveRealText q.num.natAbs q.den)

/-- The white space SQLite skips around a numeric text. -/
def isSqlSpace (c : Char) : Bool :=
  c.toNat == 32 || (9 ≤ c.toNat && c.toNat ≤ 13)

/-- The number a text denotes when all of it, white space aside, is a well-formed
integer or real literal. -/
def sqlNumericText (s : String) : Option ℚ :=
  let signed := splitSign (s.data.dropWhile isSqlSpace)
  let whole := splitDigits 10 signed.2
  let frac := splitFraction whole.2
  let ex := splitExponent frac.2
  if (whole.1.isEmpty && frac.1.isEmpty) || !(ex.2.dropWhile isSqlSpace).isEmpty then none
  else
    some (scale10 (applySign signed.1 (digitsToNat 10 (whole.1 ++ frac.1)))
      (ex.1 - frac.1.length))

/-- A number as SQLite stores it under numeric affinity: an integer when it is one
that fits 64 bits, a real otherwise. -/
def numericValue (q : ℚ) : SqlValue :=
  if q.den = 1 ∧ -9223372036854775808 ≤ q.num ∧ q.num ≤ 9223372036854775807 then
    .integer q.num
  else .real (.finite q)

/-- The type affinities of the columns of the schema. -/
inductive Affinity where
  | text
  | integer
  | numeric
  | real

/-- The conversion a column affinity applies to a value stored in the column. -/
def Affinity.apply : Affinity → SqlValue → SqlValue
  | .text, .integer i => .text (sqlIntegerText i)
  | .text, .real x => .text (sqlRealText x)
  | .text, v => v
  | .real, .text s =>
    match sqlNumericText s with
    | some q => .real (.finite q)
    | none => .text s
  | .real, .integer i => .real (.finite i)
  | .real, v => v
  | _, .text s =>
    match sqlNumericText s with
    | some q => numericValue q
    | none => .text s
  | _, .real (.finite q) => numericValue q
  | _, v => v

/-! ## Comparison of SQLite values -/

/-- The storage-class rank of a value in SQLite's sort order: `NULL`, then numbers
(with the infinities around the finite ones), then text. -/
def sortRank : SqlValue → Nat
  | .null => 0
  | .real .nan => 0
  | .real (.infinity true) => 1
  | .integer _ => 2
  | .real (.finite _) => 2
  | .real (.infinity false) => 3
  | .text _ => 4

/-- The finite number a value holds, 0 when it holds none. -/
def sortNumber : SqlValue → ℚ
  | .integer i => i
  | .real (.finite q) => q
  | _ => 0

/-- The text a value holds, empty when it holds none. -/
def sortText : SqlValue → String
  | .text s => s
  | _ => ""

/-- Three-way comparison of two rationals, by cross multiplication. -/
def ratCompare (a b : ℚ) : Ordering :=
  compare (a.num * b.den) (b.num * a.den)

/-- Comparison of the numbers two values hold. -/
def compareNumber (a b : SqlValue) : Ordering :=
  ratCompare (sortNumber a) (sortNumber b)

/-- SQLite's comparison of two values for sorting: by storage class, numbers by value,
texts byte-wise (the `BINARY` collation). -/
def sqlCompare : SqlValue → SqlValue → Ordering :=
  compareLex (compareOn sortRank) (compareLex compareNumber (compareOn sortText))

/-- The SQL operator `=` as a `WHERE` clause reads it: true only when neither side is
`NULL` and the two compare equal. -/
def sqlEquals (a b : SqlValue) : Bool :=
  match a, b with
  | .null, _ => false
  | _, .null => false
  | x, y => decide (sqlCompare x y = .eq)

/-- The comparison `column = ?`: the affinity of the column is applied to the bound
parameter, then the values are compared. -/
def columnEquals (affinity : Affinity) (column parameter : SqlValue) : Bool :=
  sqlEquals column (affinity.apply parameter)

/-- The SQL operator `||`: both sides as text, `NULL` when either is `NULL`. -/
def sqlConcat (a b : SqlValue) : SqlValue :=
  match Affinity.text.apply a, Affinity.text.apply b with
  | .text x, .text y => .text (x ++ y)
  | _, _ => .null

/-- The sort key `CASE quarter WHEN 'Q1' THEN 1 ... WHEN 'Q4' THEN 4 END`. -/
def quarterRank (quarter : SqlValue) : SqlValue :=
  if sqlEquals quarter (.text "Q1") then .integer 1
  else if sqlEquals quarter (.text "Q2") then .integer 2
  else if sqlEquals quarter (.text "Q3") then .integer 3
  else if sqlEquals quarter (.text "Q4") then .integer 4
  else .null

/-- `ORDER BY` with the given comparison: the rows, least first, rows that compare
equal in their original order. -/
def orderBy {α : Type} (cmp : α → α → Ordering) (rows : List α) : List α :=
  rows.insertionSort (fun a b => cmp a b ≠ .gt)

/-- `LIMIT n`: a negative limit is no limit. -/
def limitRows {α : Type} (n : Int) (rows : List α) : List α :=
  if n < 0 then rows else rows.take n.toNat

/-- The sort order of SQLite values is the order `compare` uses on them. -/
instance : Ord SqlValue := ⟨sqlCompare⟩

/-! ## The database -/

/-- A row of the table `files`. -/
structure FileRecord where
  id : Int
  filename : SqlValue
  original_name : SqlValue
  file_type : SqlValue
  upload_date : SqlValue
  file_size : SqlValue
  status : SqlValue
  deriving DecidableEq

/-- A row of the table `quarterly_data`. -/
structure MetricRecord where
  id : Int
  file_id : SqlValue
  quarter : SqlValue
  year : SqlValue
  metric_name : SqlValue
  metric_value : SqlValue
  metric_unit : SqlValue
  category : SqlValue
  target_value : SqlValue
  status : SqlValue
  created_at : SqlValue
  deriving DecidableEq

/-- A row of the table `dashboard_config`. -/
structure ConfigRecord where
  id : Int
  config_name : SqlValue
  config_data : SqlValue
  created_at : SqlValue
  updated_at : SqlValue
  deriving DecidableEq

/-- The database: the rows of each table in rowid order, and the `AUTOINCREMENT`
counter of each table (the largest rowid it ever handed out). -/
structure Database where
  files : List FileRecord
  quarterly_data : List MetricRecord
  dashboard_config : List ConfigRecord
  filesSequence : Int
  quarterlyDataSequence : Int
  dashboardConfigSequence : Int

/-- The empty database that `createTables` sets up. -/
def Database.empty : Database :=
  { files := [], quarterly_data := [], dashboard_config := [],
    filesSequence := 0, quarterlyDataSequence := 0, dashboardConfigSequence := 0 }

/-- The errors with which a statement of the program can fail. -/
inductive StorageError where
  | notNull (table column : String)
  deriving DecidableEq

/-- The `message` of a storage error. -/
def StorageError.message : StorageError → String
  | .notNull table column =>
    "SQLITE_CONSTRAINT: NOT NULL constraint failed: " ++ table ++ "." ++ column

/-- The rowid an `AUTOINCREMENT` table gives to a new row: one more than the largest
rowid ever used. -/
def nextRowId (sequence : Int) (ids : List Int) : Int :=
  ids.foldl max sequence + 1

/-- A `NOT NULL` column check. -/
def requireNotNull (table column : String) (v : SqlValue) : Except StorageError Unit :=
  if v = .null then .error (.notNull table column) else .ok ()

/-- `saveFileMetadata(filename, originalName, fileType, fileSize)`, lines 88-100:
insert one row into `files`; resolves with the new rowid. -/
def saveFileMetadata (db : Database) (now : String)
    (filename originalName fileType fileSize : JSValue) :
    Except StorageError (Database × Int) := do
  let record : FileRecord :=
    { id := nextRowId db.filesSequence (db.files.map (·.id))
      filename := Affinity.text.apply (bindParameter filename)
      original_name := Affinity.text.apply (bindParameter originalName)
      file_type := Affinity.text.apply (bindParameter fileType)
      upload_date := Affinity.numeric.apply (.text now)
      file_size := Affinity.integer.apply (bindParameter fileSize)
      status := .text "uploaded" }
  requireNotNull "files" "filename" record.filename
  requireNotNull "files" "original_name" record.original_name
  requireNotNull "files" "file_type" record.file_type
  return ({ db with files := db.files ++ [record], filesSequence := record.id }, record.id)

/-- `getFiles()`, lines 102-113: `SELECT * FROM files ORDER BY upload_date DESC`. -/
def getFiles (db : Database) : List FileRecord :=
  orderBy (flip (compareOn FileRecord.upload_date)) db.files

/-- `saveQuarterlyData(fileId, quarter, year, metricName, metricValue, metricUnit,
category, targetValue, status)`, lines 116-130: insert one row into `quarterly_data`;
resolves with the new rowid.  An argument that is left out is `undefined`. -/
def saveQuarterlyData (db : Database) (now : String)
    (fileId quarter year metricName metricValue metricUnit category targetValue
      status : JSValue) : Except StorageError (Database × Int) := do
  let record : MetricRecord :=
    { id := nextRowId db.quarterlyDataSequence (db.quarterly_data.map (·.id))
      file_id := Affinity.integer.apply (bindParameter fileId)
      quarter := Affinity.text.apply (bindParameter quarter)
      year := Affinity.integer.apply (bindParameter year)
      metric_name := Affinity.text.apply (bindParameter metricName)
      metric_value := Affinity.real.apply (bindParameter metricValue)
      metric_unit := Affinity.text.apply (bindParameter metricUnit)
      category := Affinity.text.apply (bindParameter category)
      target_value := Affinity.real.apply (bindParameter targetValue)
      status := Affinity.text.apply (bindParameter status)
      created_at := Affinity.numeric.apply (.text now) }
  requireNotNull "quarterly_data" "quarter" record.quarter
  requireNotNull "quarterly_data" "year" record.year
  requireNotNull "quarterly_data" "metric_name" record.metric_name
  return ({ db with
    quarterly_data := db.quarterly_data ++ [record]
    quarterlyDataSequence := record.id }, record.id)

/-- The order `ORDER BY year DESC, quarter DESC, metric_name`. -/
def compareQuarterly : MetricRecord → MetricRecord → Ordering :=
  compareLex (flip (compareOn MetricRecord.year))
    (compareLex (flip (compareOn MetricRecord.quarter)) (compareOn MetricRecord.metric_name))

/-- The order `ORDER BY year DESC, CASE quarter WHEN 'Q1' THEN 1 ... END DESC`. -/
def compareFiscal : MetricRecord → MetricRecord → Ordering :=
  compareLex (flip (compareOn MetricRecord.year))
    (flip (compareOn (fun r : MetricRecord => quarterRank r.quarter)))

/-- `getQuarterlyData(quarter, year)`, lines 132-158: the `WHERE` clause depends on
which of the two arguments are truthy. -/
def getQuarterlyData (db : Database) (quarter year : JSValue) : List MetricRecord :=
  let rows :=
    if truthy quarter && truthy year then
      db.quarterly_data.filter (fun r =>
        columnEquals .text r.quarter (bindParameter quarter) &&
          columnEquals .integer r.year (bindParameter year))
    else if truthy quarter then
      db.quarterly_data.filter (fun r => columnEquals .text r.quarter (bindParameter quarter))
    else if truthy year then
      db.quarterly_data.filter (fun r => columnEquals .integer r.year (bindParameter year))
    else db.quarterly_data
  orderBy compareQuarterly rows

/-- A row of the result of the comparison query, as JavaScript reads it. -/
structure ComparisonRow where
  quarter : JSValue
  year : JSValue
  metric_name : JSValue
  metric_value : JSValue
  metric_unit : JSValue
  category : JSValue
  deriving DecidableEq

/-- The columns `quarter, year, metric_name, metric_value, metric_unit, category` of a
stored record. -/
def MetricRecord.toComparisonRow (r : MetricRecord) : ComparisonRow :=
  { quarter := readColumn r.quarter
    year := readColumn r.year
    metric_name := readColumn r.metric_name
    metric_value := readColumn r.metric_value
    metric_unit := readColumn r.metric_unit
    category := readColumn r.category }

/-- `SELECT DISTINCT`: the first of every group of rows that are the same. -/
def distinctRows {α : Type} (same : α → α → Bool) : List α → List α
  | [] => []
  | a :: rest => a :: (distinctRows same rest).filter (fun b => !same a b)

/-- Two rows of `SELECT DISTINCT quarter, year` are the same when both columns compare
equal. -/
def samePeriod (a b : SqlValue × SqlValue) : Bool :=
  decide (sqlCompare a.1 b.1 = .eq) && decide (sqlCompare a.2 b.2 = .eq)

/-- The order `ORDER BY year DESC, quarter DESC` on rows `(quarter, year)`. -/
def comparePeriod : SqlValue × SqlValue → SqlValue × SqlValue → Ordering :=
  compareLex (flip (compareOn (fun p : SqlValue × SqlValue => p.2)))
    (flip (compareOn (fun p : SqlValue × SqlValue => p.1)))

/-- The rows of `SELECT DISTINCT quarter, year FROM quarterly_data ORDER BY year DESC,
quarter DESC LIMIT 4`, as pairs `(quarter, year)`. -/
def latestPeriods (db : Database) : List (SqlValue × SqlValue) :=
  limitRows 4 (orderBy comparePeriod
    (distinctRows samePeriod (db.quarterly_data.map (fun r => (r.quarter, r.year)))))

/-- The key that JavaScript builds for a row `(quarter, year)`: the template literal
`year-quarter`. -/
def periodKey (p : SqlValue × SqlValue) : String :=
  toStringJS (readColumn p.2) ++ "-" ++ toStringJS (readColumn p.1)

/-- The key SQL builds for a stored record: `year || '-' || quarter`. -/
def sqlPeriodKey (r : MetricRecord) : SqlValue :=
  sqlConcat (sqlConcat r.year (.text "-")) r.quarter

/-- The test `(year || '-' || quarter) IN (?, ..., ?)` with the given texts bound. -/
def periodKeyIn (quarters : List String) (r : MetricRecord) : Bool :=
  quarters.any (fun key => sqlEquals (sqlPeriodKey r) (.text key))

/-- `getMetricsComparison(quarters)`, lines 160-190.  With an empty list the method
calls itself with the keys of the latest periods; `fuel` bounds the depth of these
calls, and `none` stands for a promise that is not settled within that depth. -/
def getMetricsComparison : Nat → Database → List String → Option (List ComparisonRow)
  | 0, _, _ => none
  | fuel + 1, db, quarters =>
    if quarters.length = 0 then
      getMetricsComparison fuel db ((latestPeriods db).map periodKey)
    else
      some ((orderBy compareQuarterly (db.quarterly_data.filter (periodKeyIn quarters))).map
        MetricRecord.toComparisonRow)

/-! ## Dashboard configurations -/

/-- The functions `JSON.stringify` and `JSON.parse` of the runtime, for a type of
configuration values: `stringify` gives a string (or `undefined`), `parse` a value or a
`SyntaxError`. -/
structure JsonCodec (Value : Type) where
  stringify : Value → JSValue
  parse : String → Except String Value

/-- `saveDashboardConfig(configName, configData)`, lines 193-205: `INSERT OR REPLACE`
removes the rows that have the same `config_name` and inserts the new row. -/
def saveDashboardConfig {Value : Type} (json : JsonCodec Value) (db : Database)
    (now : String) (configName : JSValue) (configData : Value) :
    Except StorageError (Database × Int) := do
  let record : ConfigRecord :=
    { id := nextRowId db.dashboardConfigSequence (db.dashboard_config.map (·.id))
      config_name := Affinity.text.apply (bindParameter configName)
      config_data := Affinity.text.apply (bindParameter (json.stringify configData))
      created_at := Affinity.numeric.apply (.text now)
      updated_at := Affinity.numeric.apply (.text now) }
  requireNotNull "dashboard_config" "config_name" record.config_name
  requireNotNull "dashboard_config" "config_data" record.config_data
  return ({ db with
    dashboard_config :=
      db.dashboard_config.filter (fun r => !sqlEquals r.config_name record.config_name) ++
        [record]
    dashboardConfigSequence := record.id }, record.id)

/-- `getDashboardConfig(configName)`, lines 207-218: the parsed `config_data` of the
first row with that name, `null` (`none`) when there is no such row. -/
def getDashboardConfig {Value : Type} (json : JsonCodec Value) (db : Database)
    (configName : JSValue) : Except String (Option Value) :=
  match db.dashboard_config.find?
      (fun r => columnEquals .text r.config_name (bindParameter configName)) with
  | none => .ok none
  | some row =>
    match json.parse (toStringJS (readColumn row.config_data)) with
    | .ok value => .ok (some value)
    | .error e => .error e

/-! ## Quarter-over-quarter comparison and trend -/

/-- A row of the quarter-over-quarter query, as JavaScript reads it. -/
structure QoqRow where
  quarter : JSValue
  year : JSValue
  metric_value : JSValue
  metric_unit : JSValue
  target_value : JSValue
  status : JSValue
  deriving DecidableEq

/-- The columns the quarter-over-quarter query selects from a stored record. -/
def MetricRecord.toQoqRow (r : MetricRecord) : QoqRow :=
  { quarter := readColumn r.quarter
    year := readColumn r.year
    metric_value := readColumn r.metric_value
    metric_unit := readColumn r.metric_unit
    target_value := readColumn r.target_value
    status := readColumn r.status }

/-- The object `getQuarterOverQuarterComparison` resolves with; `none` is `null`. -/
structure QoqComparison where
  current : Option QoqRow
  previous : Option QoqRow
  change : Option JSNumber
  changePercent : Option JSNumber
  deriving DecidableEq

/-- The `prevQuarter` of `getQuarterOverQuarterComparison`. -/
def prevQuarterOf (currentQuarter : JSValue) : JSValue :=
  if strictEquals currentQuarter (.string "Q1") then .string "Q4"
  else if strictEquals currentQuarter (.string "Q2") then .string "Q1"
  else if strictEquals currentQuarter (.string "Q3") then .string "Q2"
  else .string "Q3"

/-- The `prevYear` of `getQuarterOverQuarterComparison`: `currentYear - 1` for `Q1`.  A
year is an integer, and an integer minus 1 is an integer again, which is a double as
long as it is below `2 ^ 53` in absolute value: the difference is taken as it is. -/
def prevYearOf (currentQuarter currentYear : JSValue) : JSValue :=
  if strictEquals currentQuarter (.string "Q1") then
    .number (exactSub (toNumber currentYear) (.finite 1))
  else currentYear

/-- The rows of the query of `getQuarterOverQuarterComparison`: the records of the
metric for the current or the previous period, latest first. -/
def qoqRecords (db : Database) (metricName currentQuarter currentYear : JSValue) :
    List MetricRecord :=
  orderBy compareFiscal (db.quarterly_data.filter (fun r =>
    columnEquals .text r.metric_name (bindParameter metricName) &&
      ((columnEquals .text r.quarter (bindParameter currentQuarter) &&
          columnEquals .integer r.year (bindParameter currentYear)) ||
        (columnEquals .text r.quarter (bindParameter (prevQuarterOf currentQuarter)) &&
          columnEquals .integer r.year
            (bindParameter (prevYearOf currentQuarter currentYear))))))

/-- `getQuarterOverQuarterComparison(metricName, currentQuarter, currentYear)`, lines
267-312. -/
def getQuarterOverQuarterComparison (db : Database)
    (metricName currentQuarter currentYear : JSValue) : QoqComparison :=
  let prevQuarter := prevQuarterOf currentQuarter
  let prevYear := prevYearOf currentQuarter currentYear
  let rows := (qoqRecords db metricName currentQuarter currentYear).map MetricRecord.toQoqRow
  let current := rows.find? (fun r =>
    strictEquals r.quarter currentQuarter && strictEquals r.year currentYear)
  let previous := rows.find? (fun r =>
    strictEquals r.quarter prevQuarter && strictEquals r.year prevYear)
  { current := current
    previous := previous
    change :=
      match current, previous with
      | some c, some p => some (jsSubtract c.metric_value p.metric_value)
      | _, _ => none
    changePercent :=
      match current, previous with
      | some c, some p =>
        if !strictEquals p.metric_value (.number (.finite 0)) then
          some (numberMul
            (numberDiv (jsSubtract c.metric_value p.metric_value) (toNumber p.metric_value))
            (.finite 100))
        else none
      | _, _ => none }

/-- A row of the trend query, as JavaScript reads it. -/
structure TrendRow where
  quarter : JSValue
  year : JSValue
  metric_value : JSValue
  target_value : JSValue
  created_at : JSValue
  deriving DecidableEq

/-- The columns the trend query selects from a stored record. -/
def MetricRecord.toTrendRow (r : MetricRecord) : TrendRow :=
  { quarter := readColumn r.quarter
    year := readColumn r.year
    metric_value := readColumn r.metric_value
    target_value := readColumn r.target_value
    created_at := readColumn r.created_at }

/-- The stored records the trend query selects, latest first: those of the metric, in
the order of `compareFiscal`, cut at the limit. -/
def trendRecords (db : Database) (metricName : JSValue) (quarters : Int) :
    List MetricRecord :=
  limitRows quarters (orderBy compareFiscal (db.quarterly_data.filter (fun r =>
    columnEquals .text r.metric_name (bindParameter metricName))))

/-- `getTrendData(metricName, quarters)`, lines 363-393: the rows of the query,
reversed. -/
def getTrendData (db : Database) (metricName : JSValue) (quarters : Int) : List TrendRow :=
  ((trendRecords db metricName quarters).map MetricRecord.toTrendRow).reverse

/-! ## Routes -/

/-- The property names every plain object inherits from `Object.prototype`. -/
def objectPrototypeKeys : List String :=
  ["constructor", "__defineGetter__", "__defineSetter__", "hasOwnProperty",
    "__lookupGetter__", "__lookupSetter__", "isPrototypeOf", "propertyIsEnumerable",
    "toString", "valueOf", "__proto__", "toLocaleString"]

/-- An entry of the `quarters` map of a group. -/
structure QuarterEntry where
  value : JSValue
  quarter : JSValue
  year : JSValue
  deriving DecidableEq

/-- A group of the comparison response: the metric, its unit and category, and the
`quarters` map (own properties in insertion order). -/
structure MetricGroup where
  metric_name : JSValue
  metric_unit : JSValue
  category : JSValue
  quarters : List (String × QuarterEntry)
  deriving DecidableEq

/-- Assignment `object[key] = value` to an own property of a plain object: an existing
property keeps its place, a new one comes last. -/
def setProperty {α : Type} (key : String) (value : α) : List (String × α) → List (String × α)
  | [] => [(key, value)]
  | (k, w) :: rest =>
    if k = key then (key, value) :: rest else (k, w) :: setProperty key value rest

/-- One turn of the `data.forEach` loop of `GET /data/comparison`, lines 37-52, on the
own properties of `groupedData`.  For a metric name that is a property of
`Object.prototype` the test `!groupedData[row.metric_name]` finds the inherited value,
no group is created, and the assignment to `.quarters[key]` throws a `TypeError`. -/
def groupStep (groupedData : List (String × MetricGroup)) (row : ComparisonRow) :
    Except String (List (String × MetricGroup)) :=
  let key := toStringJS row.year ++ "-" ++ toStringJS row.quarter
  let name := toStringJS row.metric_name
  let entry : QuarterEntry :=
    { value := row.metric_value, quarter := row.quarter, year := row.year }
  match groupedData.lookup name with
  | some group =>
    .ok (setProperty name { group with quarters := setProperty key entry group.quarters }
      groupedData)
  | none =>
    if name ∈ objectPrototypeKeys then
      .error ("Cannot set properties of undefined (setting \x27" ++ key ++ "\x27)")
    else
      .ok (groupedData ++
        [(name, { metric_name := row.metric_name, metric_unit := row.metric_unit,
                  category := row.category, quarters := [(key, entry)] })])

/-- The `data.forEach` loop of `GET /data/comparison`: `groupedData` after all rows, or
the error thrown on the way. -/
def groupRows : List (String × MetricGroup) → List ComparisonRow →
    Except String (List (String × MetricGroup))
  | groupedData, [] => .ok groupedData
  | groupedData, row :: rest =>
    match groupStep groupedData row with
    | .ok next => groupRows next rest
    | .error e => .error e

/-- The integer a property name stands for when it is an array index (a canonical
decimal numeral below `2 ^ 32 - 1`). -/
def arrayIndex (key : String) : Option Nat :=
  let digits := splitDigits 10 key.data
  if digits.1.isEmpty || !digits.2.isEmpty then none
  else if natDigits (digitsToNat 10 digits.1) = key.data ∧
      digitsToNat 10 digits.1 < 4294967295 then
    some (digitsToNat 10 digits.1)
  else none

/-- `Object.values(object)`: the values of the array-index properties in ascending
order, then those of the other properties in insertion order. -/
def objectValues {α : Type} (properties : List (String × α)) : List α :=
  ((properties.filterMap (fun p => (arrayIndex p.1).map (fun i => (i, p.2)))).insertionSort
      (fun a b => a.1 ≤ b.1)).map (·.2) ++
    (properties.filter (fun p => (arrayIndex p.1).isNone)).map (·.2)

/-- The `data` of the response of `GET /data/comparison` for the rows the query gave:
the groups, or the error that makes the route answer 500. -/
def comparisonGroups (rows : List ComparisonRow) : Except String (List MetricGroup) :=
  match groupRows [] rows with
  | .ok groupedData => .ok (objectValues groupedData)
  | .error e => .error e

/-- An optional text as a JavaScript value: the string, or `null`. -/
def optionalString : Option String → JSValue
  | some s => .string s
  | none => .null

/-- An optional number as a JavaScript value: the number, or `null`. -/
def optionalNumber : Option JSNumber → JSValue
  | some n => .number n
  | none => .null

/-- An optional integer as a JavaScript value: the number, or `null`. -/
def optionalInteger : Option Int → JSValue
  | some i => .number (.finite i)
  | none => .null

/-- The call of `saveQuarterlyData` that `POST /upload/file` makes for a validated row
(lines 64-76). -/
def saveValidatedRow (db : Database) (now : String) (fileId : Int) (row : ValidatedRow) :
    Except StorageError (Database × Int) :=
  saveQuarterlyData db now (.number (.finite fileId)) (.string row.quarter)
    (.number (.finite row.year)) (.string row.metric_name) (.number row.metric_value)
    (optionalString row.metric_unit) (optionalString row.category)
    (optionalNumber row.target_value) (optionalString row.status)

/-- The `processedData.map(row => saveQuarterlyData(...))` of `POST /upload/file`: every
insert is issued; the first failure, if any, is what `Promise.all` rejects with. -/
def saveProcessedData (now : String) (fileId : Int) :
    Database → List ValidatedRow → Database × Option StorageError
  | db, [] => (db, none)
  | db, row :: rest =>
    match saveValidatedRow db now fileId row with
    | .ok (next, _) => saveProcessedData now fileId next rest
    | .error e => ((saveProcessedData now fileId db rest).1, some e)

/-- The database part of `POST /upload/file`, lines 52-78, for a file that parsed to
`data`: the HTTP status and the database afterwards. -/
def uploadFileRoute (db : Database) (now : String)
    (filename originalName fileType fileSize : JSValue) (data : RawData) : Nat × Database :=
  match validateData data with
  | .error _ => (400, db)
  | .ok processedData =>
    match saveFileMetadata db now filename originalName fileType fileSize with
    | .error _ => (400, db)
    | .ok (withFile, fileId) =>
      match saveProcessedData now fileId withFile processedData with
      | (saved, none) => (200, saved)
      | (saved, some _) => (400, saved)

/-- The statement `DELETE FROM files WHERE id = ?`.  The schema declares no
`ON DELETE CASCADE` and the program never turns foreign keys on, so no other table is
touched. -/
def deleteFileRecord (db : Database) (fileId : JSValue) : Database :=
  { db with
    files := db.files.filter (fun f =>
      !columnEquals .integer (.integer f.id) (bindParameter fileId)) }

/-- `DELETE /upload/file/:fileId`, lines 145-181: the HTTP status and the database
afterwards (the removal of the uploaded file from disk is left out). -/
def deleteFileRoute (db : Database) (fileIdParam : String) : Nat × Database :=
  match parseIntText fileIdParam with
  | none => (400, db)
  | some fileId =>
    match (getFiles db).find? (fun f =>
        strictEquals (readColumn (.integer f.id)) (.number (.finite fileId))) with
    | none => (404, db)
    | some _ => (200, deleteFileRecord db (.number (.finite fileId)))

/-- What `POST /hubspot/sync` is asked to sync, with the figures the CRM service gave. -/
inductive SyncRequest where
  | pipeline (totalPipelineValue activeDeals winRate : JSValue)
  | revenue (currentQuarterRevenue yearToDateRevenue revenueGrowth : JSValue)
  | deals (count : Nat)
  | contacts (count : Nat)
  | companies (count : Nat)
  | other

/-- The call `database.saveQuarterlyData(quarter, year, name, value, unit, category)` as
the sync route writes it: six arguments, which the method takes as `fileId`,
`quarter`, `year`, `metricName`, `metricValue` and `metricUnit`; `category` is
`undefined`, `targetValue` and `status` get their default `null`. -/
def saveSyncedMetric (db : Database) (now : String) (quarter year name value unit
    category : JSValue) : Except StorageError (Database × Int) :=
  saveQuarterlyData db now quarter year name value unit category .undefined .null .null

/-- `POST /hubspot/sync`, lines 110-175, with `quarter = 'Q1'` and `year` the current
calendar year: the HTTP status and the database afterwards. -/
def hubspotSyncRoute (db : Database) (now : String) (currentYear : Int)
    (request : SyncRequest) : Nat × Database :=
  let quarter : JSValue := .string "Q1"
  let year : JSValue := .number (.finite currentYear)
  let save := fun (db : Database) (name : String) (value : JSValue) (unit category : String) =>
    saveSyncedMetric db now quarter year (.string name) value (.string unit)
      (.string category)
  let count := fun (n : Nat) => JSValue.number (.finite n)
  let outcome : Except StorageError Database :=
    match request with
    | .pipeline totalPipelineValue activeDeals winRate => do
      let first ← save db "Pipeline Value" totalPipelineValue "USD" "Sales"
      let second ← save first.1 "Active Deals" activeDeals "Count" "Sales"
      let third ← save second.1 "Win Rate" winRate "%" "Sales"
      pure third.1
    | .revenue currentQuarterRevenue yearToDateRevenue revenueGrowth => do
      let first ← save db "Current Quarter Revenue" currentQuarterRevenue "USD" "Financial"
      let second ← save first.1 "Year to Date Revenue" yearToDateRevenue "USD" "Financial"
      let third ← save second.1 "Revenue Growth" revenueGrowth "%" "Financial"
      pure third.1
    | .deals n => (save db "Total Deals" (count n) "Count" "Sales").map (·.1)
    | .contacts n => (save db "Total Contacts" (count n) "Count" "Marketing").map (·.1)
    | .companies n => (save db "Total Companies" (count n) "Count" "Sales").map (·.1)
    | .other => .ok db
  match request, outcome with
  | .other, _ => (400, db)
  | _, .ok saved => (200, saved)
  | _, .error _ => (500, db)

/-! ## Sample data -/

/-- A sample value of `CURRENT_TIMESTAMP`. -/
def sampleTime : String := "2026-11-05 10:00:00"

/-- The database after the upload of a CSV file with the rows `templateRow` and
`sampleRow` into the empty database. -/
def uploadedDatabase : Database :=
  (uploadFileRoute Database.empty sampleTime (.string "file-1730800000000-1.csv")
    (.string "metrics.csv") (.string ".csv") (.number (.finite 2048))
    (.array [templateRow, sampleRow])).2

/-- The fiscal quarter before quarter `q` of year `y`, as the specification words it:
Q4 of the year before for Q1, otherwise the quarter numbered one less, same year. -/
def previousPeriod (q : String) (y : Int) : String × Int :=
  if q = "Q1" then ("Q4", y - 1)
  else if q = "Q2" then ("Q1", y)
  else if q = "Q3" then ("Q2", y)
  else ("Q3", y)

/-- A stored record of metric `m` for quarter `q` of year `y`. -/
def IsRecordOf (m q : String) (y : Int) (r : MetricRecord) : Prop :=
  r.metric_name = .text m ∧ r.quarter = .text q ∧
    (r.year = .integer y ∨ r.year = .real (.finite y))

/-- Record `a` is no later than record `b`: an earlier year, or the same year and no
later fiscal quarter (Q1 < Q2 < Q3 < Q4). -/
def NoLaterThan (a b : MetricRecord) : Prop :=
  sqlCompare a.year b.year = .lt ∨
    (sqlCompare a.year b.year = .eq ∧
      sqlCompare (quarterRank a.quarter) (quarterRank b.quarter) ≠ .gt)

/-- The number of a fiscal quarter label, 0 for other texts. -/
def fiscalIndex (q : String) : Int :=
  if q = "Q1" then 1 else if q = "Q2" then 2 else if q = "Q3" then 3
  else if q = "Q4" then 4 else 0

/-- The period `(quarter, year)` of a stored record. -/
def MetricRecord.period (r : MetricRecord) : SqlValue × SqlValue :=
  (r.quarter, r.year)

/-- A period as the row validator lets it through: a quarter label Q1..Q4 and an
integer year from 2020 to 2030. -/
def validPeriod : SqlValue × SqlValue → Bool
  | (.text q, .integer y) =>
    decide (q ∈ ["Q1", "Q2", "Q3", "Q4"]) && decide (2020 ≤ y) && decide (y ≤ 2030)
  | _ => false

/-- Period `a` is more recent than period `b`: a greater year, or the same year and a
later fiscal quarter. -/
def MoreRecent (a b : SqlValue × SqlValue) : Prop :=
  sqlCompare b.2 a.2 = .lt ∨
    (sqlCompare b.2 a.2 = .eq ∧ sqlCompare (quarterRank b.1) (quarterRank a.1) = .lt)

/-- A metric record with the given period, name and value. -/
def sampleRecord (id : Int) (quarter : String) (year : Int) (name : String) (value : Int) :
    MetricRecord :=
  { id := id, file_id := .integer 1, quarter := .text quarter, year := .integer year,
    metric_name := .text name, metric_value := .real (.finite value),
    metric_unit := .null, category := .null, target_value := .null, status := .null,
    created_at := .text sampleTime }

/-- A store with only an NRR record of 102 for Q4-2024 and one of 105 for Q1-2025. -/
def nrrDatabase : Database :=
  { Database.empty with
    quarterly_data := [sampleRecord 1 "Q4" 2024 "NRR" 102, sampleRecord 2 "Q1" 2025 "NRR" 105]
    quarterlyDataSequence := 2 }

/-- A store with one Total ARR record for each quarter of 2024, stored out of order. -/
def arrDatabase : Database :=
  { Database.empty with
    quarterly_data :=
      [sampleRecord 1 "Q2" 2024 "Total ARR" 11, sampleRecord 2 "Q4" 2024 "Total ARR" 13,
        sampleRecord 3 "Q1" 2024 "Total ARR" 10, sampleRecord 4 "Q3" 2024 "Total ARR" 12]
    quarterlyDataSequence := 4 }

/-- A sample CSV row whose metric is named `constructor`. -/
def rowNamedConstructor : RawRow :=
  [("quarter", .string "Q1"), ("year", .string "2024"),
    ("metric_name", .string "constructor"), ("metric_value", .string "3")]

/-- The database after the upload of a CSV file with the row `rowNamedConstructor`
into the empty database. -/
def constructorDatabase : Database :=
  (uploadFileRoute Database.empty sampleTime (.string "file-1730800000000-2.csv")
    (.string "names.csv") (.string ".csv") (.number (.finite 64))
    (.array [rowNamedConstructor])).2

/-- A row of the comparison query for quarter Q1 of 2024 with the given metric name. -/
def comparisonRowNamed (name : String) : ComparisonRow :=
  { quarter := .string "Q1", year := .number (.finite 2024), metric_name := .string name,
    metric_value := .number (.finite 3), metric_unit := .null, category := .null }

/-- White space between the tokens of a JSON text. -/
def isJsonSpace (c : Char) : Bool :=
  c = ' ' || c = '\t' || c = '\n' || c = '\r'

/-- `JSON.stringify` and `JSON.parse` for configurations that are a boolean: the
literals `true` and `false`; every other text is not a boolean. -/
def booleanJson : JsonCodec Bool where
  stringify := fun b => .string (if b then "true" else "false")
  parse := fun s =>
    let body := ((s.data.dropWhile isJsonSpace).reverse.dropWhile isJsonSpace).reverse
    if body = ['t', 'r', 'u', 'e'] then .ok true
    else if body = ['f', 'a', 'l', 's', 'e'] then .ok false
    else .error "SyntaxError: not a boolean literal"

end DatabaseService

/-!
# File types, file statistics and the template of `fileProcessor.js`

The upload filter of `uploadRoutes.js` and `FileProcessor.parseFile` select a parser by
the extension of a file name, `FileProcessor.getFileStats` summarises the validated
records of an upload, and `FileProcessor.generateTemplate` holds the sample rows of the
downloadable template.
-/

namespace FileProcessor

/-! ## `path.extname` -/

/-- The variables of the loop of `path.extname` (POSIX flavour of the Node.js `path`
module), which reads the path from its last character to its first. -/
structure ExtnameScan where
  startDot : Option Nat
  startPart : Nat
  endIndex : Option Nat
  matchedSlash : Bool
  preDotState : Int
  stopped : Bool

/-- One turn of the loop of `path.extname`, on the character `ic.2` at index `ic.1`. -/
def extnameStep (s : ExtnameScan) (ic : Nat × Char) : ExtnameScan :=
  if s.stopped then s
  else if ic.2 = '/' then
    if !s.matchedSlash then { s with startPart := ic.1 + 1, stopped := true } else s
  else
    let seen :=
      if s.endIndex.isNone then { s with matchedSlash := false, endIndex := some (ic.1 + 1) }
      else s
    if ic.2 = '.' then
      if seen.startDot.isNone then { seen with startDot := some ic.1 }
      else if seen.preDotState ≠ 1 then { seen with preDotState := 1 }
      else seen
    else if seen.startDot.isSome then { seen with preDotState := -1 }
    else seen

/-- The state of the loop of `path.extname` after it has read the characters `cs`,
which stand at the indices `n`, `n + 1`, ... of the path, from the last to the first. -/
def scanFrom (n : Nat) (cs : List Char) : ExtnameScan :=
  (cs.enumFrom n).foldr (fun ic s => extnameStep s ic)
    { startDot := none, startPart := 0, endIndex := none, matchedSlash := true,
      preDotState := 0, stopped := false }

/-- `path.extname(path)`: the text from the last `.` of the last portion of the path to
its end; empty when that portion has no `.`, starts with its only `.`, or is `..`. -/
def extname (path : String) : String :=
  let scan := scanFrom 0 path.data
  match scan.startDot, scan.endIndex with
  | some startDot, some endIndex =>
    if scan.preDotState = 0 ∨
        (scan.preDotState = 1 ∧ startDot = endIndex - 1 ∧ startDot = scan.startPart + 1) then
      ""
    else String.mk ((path.data.take endIndex).drop startDot)
  | _, _ => ""

/-! ## File types -/

/-- The `allowedTypes` of the upload filter and the `supportedFormats` of the file
processor. -/
def allowedTypes : List String := [".csv", ".xlsx", ".xls"]

/-- The `fileFilter` of the upload middleware (`uploadRoutes.js`, lines 30-39), on the
original name of the file: `cb(null, true)` is `ok true`, `cb(new Error(...), false)`
is the error with its message.  The filter runs before the file is stored. -/
def fileFilter (originalname : String) : Except String Bool :=
  let ext := toLowerCase (extname originalname)
  if ext ∈ allowedTypes then .ok true
  else
    .error ("File type " ++ ext ++ " is not allowed. Supported types: " ++
      ", ".intercalate allowedTypes)

/-- `FileProcessor.parseFile(filePath, fileType)`, lines 27-39.  The two parsers read
the file from disk; they are parameters of the embedding. -/
def parseFile (parseCSV parseExcel : String → Except String RawData) (filePath : String) :
    Except String RawData :=
  let ext := toLowerCase (extname filePath)
  if ext = ".csv" then parseCSV filePath
  else if ext = ".xlsx" ∨ ext = ".xls" then parseExcel filePath
  else .error ("Unsupported file format: " ++ ext)

/-! ## `getFileStats` -/

/-- The array `[...new Set(values)]`: the values without repetitions, each at the place
of its first occurrence. -/
def uniqueValues {α : Type} [DecidableEq α] : List α → List α
  | [] => []
  | a :: rest => a :: (uniqueValues rest).filter (fun b => b ≠ a)

/-- The place of the first occurrence of a value in a list, counted from 0 (the length
of the list when the value does not occur). -/
def firstIndex {α : Type} [DecidableEq α] (x : α) : List α → Nat
  | [] => 0
  | a :: rest => if a = x then 0 else firstIndex x rest + 1

/-- The relation `a < b` on Numbers; false when either is `NaN`. -/
def numberLess : JSNumber → JSNumber → Bool
  | .nan, _ => false
  | _, .nan => false
  | .infinity true, .infinity true => false
  | .infinity true, _ => true
  | _, .infinity true => false
  | .infinity false, _ => false
  | _, .infinity false => true
  | .finite a, .finite b => decide (a.num * b.den < b.num * a.den)

/-- The lesser of two Numbers as `Math.min` takes it, `NaN` when either is `NaN`. -/
def minStep (least v : JSNumber) : JSNumber :=
  match least, v with
  | .nan, _ => .nan
  | _, .nan => .nan
  | a, b => if numberLess b a then b else a

/-- The greater of two Numbers as `Math.max` takes it, `NaN` when either is `NaN`. -/
def maxStep (greatest v : JSNumber) : JSNumber :=
  match greatest, v with
  | .nan, _ => .nan
  | _, .nan => .nan
  | a, b => if numberLess a b then b else a

/-- The message of the `RangeError` of a call with more arguments than the stack of the
engine has room for. -/
def rangeError : String := "Maximum call stack size exceeded"

/-- `Math.min(...values)`: `Infinity` for no value, `NaN` when a value is `NaN`.  The
spread makes every element of the array an argument of the one call, and the arguments
of a call are put on the stack of the engine: with more values than the stack has room
for (`argumentLimit`, about 125000 for Node with its default stack size) the call throws
a `RangeError`. -/
def mathMin (argumentLimit : Nat) (values : List JSNumber) : Except String JSNumber :=
  if argumentLimit < values.length then .error rangeError
  else .ok (values.foldl minStep (.infinity false))

/-- `Math.max(...values)`: `-Infinity` for no value, `NaN` when a value is `NaN`, and a
`RangeError` with more values than a call has room for (see `mathMin`). -/
def mathMax (argumentLimit : Nat) (values : List JSNumber) : Except String JSNumber :=
  if argumentLimit < values.length then .error rangeError
  else .ok (values.foldl maxStep (.infinity true))

/-- The `valueRange` of the statistics. -/
structure ValueRange where
  min : JSNumber
  max : JSNumber
  deriving DecidableEq

/-- The object `getFileStats` returns. -/
structure FileStats where
  totalRows : Nat
  quarters : List String
  metrics : List String
  categories : List String
  valueRange : ValueRange
  deriving DecidableEq

/-- The key of the period of a validated record: the template literal `year-quarter`. -/
def ValidatedRow.periodKey (row : ValidatedRow) : String :=
  toStringJS (.number (.finite row.year)) ++ "-" ++ row.quarter

/-- The test of `.filter(Boolean)` on a category: `null` and the empty text are
dropped. -/
def keptCategory (category : Option String) : Option String :=
  match category with
  | some c => if truthy (.string c) then some c else none
  | none => none

/-- `FileProcessor.getFileStats(data)`, lines 464-477, on an engine whose calls have room
for `argumentLimit` arguments: the properties of the object are computed in the order
they are written, and an error thrown by `Math.min` or `Math.max` is the result. -/
def getFileStats (argumentLimit : Nat) (data : List ValidatedRow) :
    Except String FileStats := do
  let totalRows := data.length
  let quarters := uniqueValues (data.map ValidatedRow.periodKey)
  let metrics := uniqueValues (data.map (fun row => row.metric_name))
  let categories :=
    uniqueValues ((data.map (fun row => row.category)).filterMap keptCategory)
  let min ← mathMin argumentLimit (data.map (fun row => row.metric_value))
  let max ← mathMax argumentLimit (data.map (fun row => row.metric_value))
  return {
    totalRows := totalRows
    quarters := quarters
    metrics := metrics
    categories := categories
    valueRange := { min := min, max := max } }

/-- The relation `a <= b` on Numbers that are not `NaN`. -/
def NumberLe (a b : JSNumber) : Prop :=
  numberLess b a = false

/-! ## The template -/

/-- The `sampleData` of `generateTemplate`, lines 158-428: eight metrics for each of
Q1 2024, Q4 2023 and Q3 2023. -/
def sampleData : List RawRow :=
  [[("quarter", .string "Q1"), ("year", .string "2024"),
      ("metric_name", .string "Total ARR"), ("metric_value", .string "6520000"),
      ("metric_unit", .string "USD"), ("category", .string "Growth & Retention"),
      ("description", .string "Annual Recurring Revenue"),
      ("target_value", .string "7100000"), ("status", .string "amber")],
   [("quarter", .string "Q1"), ("year", .string "2024"),
      ("metric_name", .string "Net New ARR Added"), ("metric_value", .string "238000"),
      ("metric_unit", .string "USD"), ("category", .string "Growth & Retention"),
      ("description", .string "New ARR added this quarter"),
      ("target_value", .string "350000"), ("status", .string "red")],
   [("quarter", .string "Q1"), ("year", .string "2024"), ("metric_name", .string "Churn"),
      ("metric_value", .string "-95000"), ("metric_unit", .string "USD"),
      ("category", .string "Growth & Retention"),
      ("description", .string "Churn amount (negative value)"),
      ("target_value", .string "-50000"), ("status", .string "red")],
   [("quarter", .string "Q1"), ("year", .string "2024"), ("metric_name", .string "NRR"),
      ("metric_value", .string "105"), ("metric_unit", .string "%"),
      ("category", .string "Growth & Retention"),
      ("description", .string "Net Revenue Retention"), ("target_value", .string "110"),
      ("status", .string "amber")],
   [("quarter", .string "Q1"), ("year", .string "2024"),
      ("metric_name", .string "Burn Multiple"), ("metric_value", .string "1.35"),
      ("metric_unit", .string "x"), ("category", .string "Financial & Sales"),
      ("description", .string "Burn rate multiple"), ("target_value", .string "1"),
      ("status", .string "red")],
   [("quarter", .string "Q1"), ("year", .string "2024"), ("metric_name", .string "CAC"),
      ("metric_value", .string "2340"), ("metric_unit", .string "USD"),
      ("category", .string "Financial & Sales"),
      ("description", .string "Customer Acquisition Cost"),
      ("target_value", .string "2000"), ("status", .string "red")],
   [("quarter", .string "Q1"), ("year", .string "2024"),
      ("metric_name", .string "Deployment Frequency"), ("metric_value", .string "12"),
      ("metric_unit", .string "per month"), ("category", .string "Product & Engineering"),
      ("description", .string "Number of deployments per month"),
      ("target_value", .string "15"), ("status", .string "amber")],
   [("quarter", .string "Q1"), ("year", .string "2024"),
      ("metric_name", .string "eNPS (Employee Engagement)"),
      ("metric_value", .string "50"), ("metric_unit", .string "score"),
      ("category", .string "People & Culture"),
      ("description", .string "Employee Net Promoter Score"),
      ("target_value", .string "60"), ("status", .string "amber")],
   [("quarter", .string "Q4"), ("year", .string "2023"),
      ("metric_name", .string "Total ARR"), ("metric_value", .string "6282000"),
      ("metric_unit", .string "USD"), ("category", .string "Growth & Retention"),
      ("description", .string "Annual Recurring Revenue"),
      ("target_value", .string "7000000"), ("status", .string "amber")],
   [("quarter", .string "Q4"), ("year", .string "2023"),
      ("metric_name", .string "Net New ARR Added"), ("metric_value", .string "285000"),
      ("metric_unit", .string "USD"), ("category", .string "Growth & Retention"),
      ("description", .string "New ARR added this quarter"),
      ("target_value", .string "300000"), ("status", .string "amber")],
   [("quarter", .string "Q4"), ("year", .string "2023"), ("metric_name", .string "Churn"),
      ("metric_value", .string "-125000"), ("metric_unit", .string "USD"),
      ("category", .string "Growth & Retention"),
      ("description", .string "Churn amount (negative value)"),
      ("target_value", .string "-80000"), ("status", .string "red")],
   [("quarter", .string "Q4"), ("year", .string "2023"), ("metric_name", .string "NRR"),
      ("metric_value", .string "102"), ("metric_unit", .string "%"),
      ("category", .string "Growth & Retention"),
      ("description", .string "Net Revenue Retention"), ("target_value", .string "110"),
      ("status", .string "red")],
   [("quarter", .string "Q4"), ("year", .string "2023"),
      ("metric_name", .string "Burn Multiple"), ("metric_value", .string "1.42"),
      ("metric_unit", .string "x"), ("category", .string "Financial & Sales"),
      ("description", .string "Burn rate multiple"), ("target_value", .string "1"),
      ("status", .string "red")],
   [("quarter", .string "Q4"), ("year", .string "2023"), ("metric_name", .string "CAC"),
      ("metric_value", .string "2580"), ("metric_unit", .string "USD"),
      ("category", .string "Financial & Sales"),
      ("description", .string "Customer Acquisition Cost"),
      ("target_value", .string "2000"), ("status", .string "red")],
   [("quarter", .string "Q4"), ("year", .string "2023"),
      ("metric_name", .string "Deployment Frequency"), ("metric_value", .string "10"),
      ("metric_unit", .string "per month"), ("category", .string "Product & Engineering"),
      ("description", .string "Number of deployments per month"),
      ("target_value", .string "15"), ("status", .string "red")],
   [("quarter", .string "Q4"), ("year", .string "2023"),
      ("metric_name", .string "eNPS (Employee Engagement)"),
      ("metric_value", .string "42"), ("metric_unit", .string "score"),
      ("category", .string "People & Culture"),
      ("description", .string "Employee Net Promoter Score"),
      ("target_value", .string "60"), ("status", .string "red")],
   [("quarter", .string "Q3"), ("year", .string "2023"),
      ("metric_name", .string "Total ARR"), ("metric_value", .string "6120000"),
      ("metric_unit", .string "USD"), ("category", .string "Growth & Retention"),
      ("description", .string "Annual Recurring Revenue"),
      ("target_value", .string "6500000"), ("status", .string "amber")],
   [("quarter", .string "Q3"), ("year", .string "2023"),
      ("metric_name", .string "Net New ARR Added"), ("metric_value", .string "320000"),
      ("metric_unit", .string "USD"), ("category", .string "Growth & Retention"),
      ("description", .string "New ARR added this quarter"),
      ("target_value", .string "280000"), ("status", .string "green")],
   [("quarter", .string "Q3"), ("year", .string "2023"), ("metric_name", .string "Churn"),
      ("metric_value", .string "-88000"), ("metric_unit", .string "USD"),
      ("category", .string "Growth & Retention"),
      ("description", .string "Churn amount (negative value)"),
      ("target_value", .string "-90000"), ("status", .string "green")],
   [("quarter", .string "Q3"), ("year", .string "2023"), ("metric_name", .string "NRR"),
      ("metric_value", .string "108"), ("metric_unit", .string "%"),
      ("category", .string "Growth & Retention"),
      ("description", .string "Net Revenue Retention"), ("target_value", .string "110"),
      ("status", .string "amber")],
   [("quarter", .string "Q3"), ("year", .string "2023"),
      ("metric_name", .string "Burn Multiple"), ("metric_value", .string "1.28"),
      ("metric_unit", .string "x"), ("category", .string "Financial & Sales"),
      ("description", .string "Burn rate multiple"), ("target_value", .string "1"),
      ("status", .string "amber")],
   [("quarter", .string "Q3"), ("year", .string "2023"), ("metric_name", .string "CAC"),
      ("metric_value", .string "2180"), ("metric_unit", .string "USD"),
      ("category", .string "Financial & Sales"),
      ("description", .string "Customer Acquisition Cost"),
      ("target_value", .string "2000"), ("status", .string "amber")],
   [("quarter", .string "Q3"), ("year", .string "2023"),
      ("metric_name", .string "Deployment Frequency"), ("metric_value", .string "14"),
      ("metric_unit", .string "per month"), ("category", .string "Product & Engineering"),
      ("description", .string "Number of deployments per month"),
      ("target_value", .string "15"), ("status", .string "amber")],
   [("quarter", .string "Q3"), ("year", .string "2023"),
      ("metric_name", .string "eNPS (Employee Engagement)"),
      ("metric_value", .string "48"), ("metric_unit", .string "score"),
      ("category", .string "People & Culture"),
      ("description", .string "Employee Net Promoter Score"),
      ("target_value", .string "60"), ("status", .string "amber")]]

/-- A sample CSV row whose category cell holds only spaces. -/
def rowWithBlankCategory : RawRow :=
  [("quarter", .string "Q1"), ("year", .string "2024"), ("metric_name", .string "NRR"),
    ("metric_value", .string "105"), ("category", .string "  ")]

end FileProcessor

/-!
# Insight snapshots, listings and the analysis prompt

The rest of `database.js` (`createTables`, `saveInsights`, `getLatestInsights`,
`getHistoricalData`, `getAvailableQuarters`), the paginated listing of `dataRoutes.js`,
`extractKeyMetrics` of `analysisRoutes.js` and `createAnalysisPrompt` of
`openaiService.js`.
-/

namespace DatabaseService

open FileProcessor

/-! ## Creation of the tables -/

/-- The tables the program reads and writes. -/
inductive TableName where
  | files
  | quarterly_data
  | insights
  | dashboard_config
  deriving DecidableEq

/-- The array `tables` of `createTables`, lines 31-76: three SQL strings, each given by
the `CREATE TABLE IF NOT EXISTS` statements it holds.  The second string (lines 44-66)
holds two statements separated by `;`, for `quarterly_data` and for `insights`. -/
def tables : List (List TableName) :=
  [[.files], [.quarterly_data, .insights], [.dashboard_config]]

/-- The statements that `db.run(sql)` executes: the `sqlite3` driver prepares the first
statement of the string and runs it; the text after that statement is ignored
(`db.exec` is the call that runs every statement of a string). -/
def runStatements (sql : List TableName) : List TableName :=
  sql.take 1

/-- `createTables()`, lines 30-85, on a new database file: the tables that exist after
`tables.forEach(sql => this.db.run(sql, ...))`. -/
def createTables : List TableName :=
  tables.flatMap runStatements

/-! ## Insight snapshots -/

/-- A row of the table `insights`. -/
structure InsightRecord where
  id : Int
  insights_text : SqlValue
  qoq_data : SqlValue
  current_quarter : SqlValue
  created_at : SqlValue
  updated_at : SqlValue
  deriving DecidableEq

/-- The part of the database file that holds the insight snapshots: whether the table
`insights` exists, its rows in rowid order and its `AUTOINCREMENT` sequence. -/
structure InsightStore where
  tableExists : Bool
  insights : List InsightRecord
  insightsSequence : Int

/-- The insight store of a new database file after `createTables`. -/
def InsightStore.initial : InsightStore :=
  { tableExists := decide (TableName.insights ∈ createTables), insights := [],
    insightsSequence := 0 }

/-- The message of the error of a statement that names a table that does not exist. -/
def noSuchTable (table : String) : String :=
  "SQLITE_ERROR: no such table: " ++ table

/-- `value ? JSON.stringify(value) : null` for an argument that is a truthy value
(`some`; the route passes objects of the request body) or is `null` or left out
(`none`). -/
def stringifyOptional {Value : Type} (json : JsonCodec Value) (value : Option Value) :
    JSValue :=
  match value with
  | some v => json.stringify v
  | none => .null

/-- `saveInsights(insightsText, qoqData, currentQuarter)`, lines 396-413: the store
afterwards and the `lastID` the promise resolves with, or the message of the error it
rejects with. -/
def saveInsights {Value : Type} (json : JsonCodec Value) (store : InsightStore)
    (now : String) (insightsText : JSValue) (qoqData currentQuarter : Option Value) :
    Except String (InsightStore × Int) :=
  let qoqDataJson := stringifyOptional json qoqData
  let currentQuarterJson := stringifyOptional json currentQuarter
  if !store.tableExists then .error (noSuchTable "insights")
  else
    let record : InsightRecord :=
      { id := nextRowId store.insightsSequence (store.insights.map (·.id))
        insights_text := Affinity.text.apply (bindParameter insightsText)
        qoq_data := Affinity.text.apply (bindParameter qoqDataJson)
        current_quarter := Affinity.text.apply (bindParameter currentQuarterJson)
        created_at := Affinity.numeric.apply (.text now)
        updated_at := Affinity.numeric.apply (.text now) }
    if record.insights_text = .null then
      .error (StorageError.notNull "insights" "insights_text").message
    else
      .ok ({ store with
        insights := store.insights ++ [record]
        insightsSequence := record.id }, record.id)

/-- The object `getLatestInsights` resolves with: the row, its two JSON columns
parsed. -/
structure InsightSnapshot (Value : Type) where
  id : JSValue
  insights_text : JSValue
  qoq_data : Option Value
  current_quarter : Option Value
  created_at : JSValue
  updated_at : JSValue

/-- The order `ORDER BY created_at DESC`. -/
def compareCreated : InsightRecord → InsightRecord → Ordering :=
  flip (compareOn InsightRecord.created_at)

/-- `column ? JSON.parse(column) : null` for a column read from a row. -/
def parseOptional {Value : Type} (json : JsonCodec Value) (column : JSValue) :
    Except String (Option Value) :=
  if truthy column then
    match json.parse (toStringJS column) with
    | .ok value => .ok (some value)
    | .error e => .error e
  else .ok none

/-- `getLatestInsights()`, lines 415-438: the snapshot (`none` is `null`) the promise
resolves with, or the message of the error. -/
def getLatestInsights {Value : Type} (json : JsonCodec Value) (store : InsightStore) :
    Except String (Option (InsightSnapshot Value)) :=
  if !store.tableExists then .error (noSuchTable "insights")
  else
    match (limitRows 1 (orderBy compareCreated store.insights)).head? with
    | none => .ok none
    | some row =>
      match parseOptional json (readColumn row.qoq_data),
        parseOptional json (readColumn row.current_quarter) with
      | .ok qoqData, .ok currentQuarter =>
        .ok (some
          { id := .number (.finite row.id)
            insights_text := readColumn row.insights_text
            qoq_data := qoqData
            current_quarter := currentQuarter
            created_at := readColumn row.created_at
            updated_at := readColumn row.updated_at })
      | .error e, _ => .error e
      | _, .error e => .error e

/-- A value handed to `saveInsights` survives the JSON round trip: `JSON.stringify`
gives a text for it and `JSON.parse` reads the value back from that text. -/
def RoundTrips {Value : Type} (json : JsonCodec Value) (value : Option Value) : Prop :=
  ∀ v, value = some v → ∃ text, text ≠ "" ∧ json.stringify v = .string text ∧
    json.parse text = .ok v

/-! ## Historical data and its paginated listing -/

/-- A row of the historical query, as JavaScript reads it. -/
structure HistoricalRow where
  quarter : JSValue
  year : JSValue
  metric_name : JSValue
  metric_value : JSValue
  metric_unit : JSValue
  category : JSValue
  target_value : JSValue
  status : JSValue
  created_at : JSValue
  deriving DecidableEq

/-- The columns the historical query selects from a stored record. -/
def MetricRecord.toHistoricalRow (r : MetricRecord) : HistoricalRow :=
  { quarter := readColumn r.quarter
    year := readColumn r.year
    metric_name := readColumn r.metric_name
    metric_value := readColumn r.metric_value
    metric_unit := readColumn r.metric_unit
    category := readColumn r.category
    target_value := readColumn r.target_value
    status := readColumn r.status
    created_at := readColumn r.created_at }

/-- The stored records the historical query selects: those of the metric when a metric
name is given, in the order of `compareFiscal`, cut at the limit when a limit is
given.  The limit is the number the routes pass, `parseInt(limit)` or `null`: `none`
stands for `null` and for `NaN`, which like 0 add no `LIMIT` clause. -/
def historicalRecords (db : Database) (metricName : JSValue) (limit : Option Int) :
    List MetricRecord :=
  let selected :=
    if truthy metricName then
      db.quarterly_data.filter (fun r =>
        columnEquals .text r.metric_name (bindParameter metricName))
    else db.quarterly_data
  let sorted := orderBy compareFiscal selected
  match limit with
  | some n => if n ≠ 0 then limitRows n sorted else sorted
  | none => sorted

/-- `getHistoricalData(metricName, limit)`, lines 221-265. -/
def getHistoricalData (db : Database) (metricName : JSValue) (limit : Option Int) :
    List HistoricalRow :=
  (historicalRecords db metricName limit).map MetricRecord.toHistoricalRow

/-- The position an index argument of `Array.prototype.slice` stands for in an array of
the given length: `NaN` (`none`) is 0, a negative index counts from the end. -/
def sliceIndex (length : Nat) (index : Option Int) : Nat :=
  match index with
  | none => 0
  | some i => if i < 0 then (length + i).toNat else min i.toNat length

/-- `array.slice(start, stop)`. -/
def arraySlice {α : Type} (array : List α) (start stop : Option Int) : List α :=
  (array.take (sliceIndex array.length stop)).drop (sliceIndex array.length start)

/-- `param ? parseInt(param) : fallback` for a query parameter that is a string or is
absent; `none` in the result is `NaN`. -/
def parseQueryNumber (param : Option String) (fallback : Option Int) : Option Int :=
  match param with
  | some text => if truthy (.string text) then parseInt (.string text) else fallback
  | none => fallback

/-- The body of the response of `GET /data/historical`. -/
structure HistoricalPage where
  data : List HistoricalRow
  count : Nat
  total : Nat
  offset : Option Int
  limit : Option Int
  deriving DecidableEq

/-- `GET /data/historical?limit=&offset=`, lines 320-343: the body of the response for
the query parameters `limit` and `offset`. -/
def historicalRoute (db : Database) (limit offset : Option String) : HistoricalPage :=
  let data := getHistoricalData db .null (parseQueryNumber limit none)
  let startIndex := parseQueryNumber offset (some 0)
  let endIndex : Option Int :=
    match limit with
    | some text =>
      if truthy (.string text) then
        match startIndex, parseInt (.string text) with
        | some a, some b => some (a + b)
        | _, _ => none
      else some data.length
    | none => some data.length
  let paginatedData := arraySlice data startIndex endIndex
  { data := paginatedData
    count := paginatedData.length
    total := data.length
    offset := startIndex
    limit := parseQueryNumber limit none }

/-! ## Available quarters -/

/-- The order `ORDER BY year DESC, CASE quarter WHEN 'Q1' THEN 1 ... END DESC` on rows
`(quarter, year)`. -/
def comparePeriodFiscal : SqlValue × SqlValue → SqlValue × SqlValue → Ordering :=
  compareLex (flip (compareOn (fun p : SqlValue × SqlValue => p.2)))
    (flip (compareOn (fun p : SqlValue × SqlValue => quarterRank p.1)))

/-- The rows of the query of `getAvailableQuarters`, as pairs `(quarter, year)`. -/
def availablePeriods (db : Database) : List (SqlValue × SqlValue) :=
  orderBy comparePeriodFiscal
    (distinctRows samePeriod (db.quarterly_data.map (fun r => (r.quarter, r.year))))

/-- `getAvailableQuarters()`, lines 339-361: the rows `{quarter, year}` as JavaScript
reads them. -/
def getAvailableQuarters (db : Database) : List (JSValue × JSValue) :=
  (availablePeriods db).map (fun p => (readColumn p.1, readColumn p.2))

/-- The order `ORDER BY year DESC, quarter DESC` on stored records, the first two keys
of the order of `getQuarterlyData` and `getMetricsComparison`. -/
def compareLabel : MetricRecord → MetricRecord → Ordering :=
  compareLex (flip (compareOn MetricRecord.year)) (flip (compareOn MetricRecord.quarter))

/-- Every record of the store has a quarter label Q1..Q4. -/
def HasQuarterLabels (db : Database) : Prop :=
  ∀ r ∈ db.quarterly_data, ∃ q ∈ ["Q1", "Q2", "Q3", "Q4"], r.quarter = .text q

/-! ## Sample data -/

/-- A sample value of `CURRENT_TIMESTAMP`, five seconds after `sampleTime`. -/
def laterTime : String := "2026-11-05 10:00:05"

/-- An insight store in which the table `insights` exists and is empty. -/
def insightStoreWithTable : InsightStore :=
  { tableExists := true, insights := [], insightsSequence := 0 }

end DatabaseService

/-!
# Key metrics and the analysis prompt
-/

namespace DatabaseService

open FileProcessor

/-! ## `extractKeyMetrics` -/

/-- The object `extractKeyMetrics` returns (and `defaultData`). -/
structure DashboardData where
  totalARR : JSValue
  targetARR : JSValue
  arrStatus : JSValue
  netNewARR : JSValue
  targetNetNewARR : JSValue
  netNewARRStatus : JSValue
  pipeline : JSValue
  targetPipeline : JSValue
  pipelineStatus : JSValue
  churn : JSValue
  targetChurn : JSValue
  churnStatus : JSValue
  nrr : JSValue
  targetNRR : JSValue
  nrrStatus : JSValue
  burnMultiple : JSValue
  targetBurnMultiple : JSValue
  burnMultipleStatus : JSValue
  cac : JSValue
  targetCAC : JSValue
  cacStatus : JSValue
  deploymentFreq : JSValue
  targetDeploymentFreq : JSValue
  deploymentFreqStatus : JSValue
  enps : JSValue
  targetENPS : JSValue
  enpsStatus : JSValue
  deriving DecidableEq

/-- The number literal with the given digits and number of decimal places, as a value
(the double nearest to it): `decimal 652 2` is `6.52`. -/
def decimal (digits : Int) (places : Nat) : JSValue :=
  .number (roundToDouble (mkRat digits (10 ^ places)))

/-- The `defaultData` of `extractKeyMetrics`, lines 104-132. -/
def defaultData : DashboardData :=
  {
    totalARR := decimal 652 2
    targetARR := decimal 71 1
    arrStatus := .string "amber"
    netNewARR := decimal 238 0
    targetNetNewARR := decimal 350 0
    netNewARRStatus := .string "red"
    pipeline := decimal 77 1
    targetPipeline := decimal 85 1
    pipelineStatus := .string "amber"
    churn := decimal (-95) 0
    targetChurn := decimal (-50) 0
    churnStatus := .string "red"
    nrr := decimal 105 0
    targetNRR := decimal 110 0
    nrrStatus := .string "amber"
    burnMultiple := decimal 135 2
    targetBurnMultiple := decimal 1 0
    burnMultipleStatus := .string "red"
    cac := decimal 2340 0
    targetCAC := decimal 2000 0
    cacStatus := .string "red"
    deploymentFreq := decimal 12 0
    targetDeploymentFreq := decimal 15 0
    deploymentFreqStatus := .string "amber"
    enps := decimal 50 0
    targetENPS := decimal 60 0
    enpsStatus := .string "amber" }

/-- An entry of the object `metrics` of `extractKeyMetrics`. -/
structure MetricEntry where
  value : JSValue
  target : JSValue
  status : JSValue
  deriving DecidableEq

/-- The expression `a || b`. -/
def orElse (a b : JSValue) : JSValue :=
  if truthy a then a else b

/-- The key of a metric name: `name.toLowerCase().replace(/[^a-z0-9]/g, '')`; the call
throws a `TypeError` when the name is not a string. -/
def metricKey (name : JSValue) : Except String String :=
  match name with
  | .string text =>
    .ok (String.mk ((toLowerCase text).data.filter (fun c =>
      ('a' ≤ c ∧ c ≤ 'z') ∨ ('0' ≤ c ∧ c ≤ '9'))))
  | .undefined => .error "Cannot read properties of undefined (reading \x27toLowerCase\x27)"
  | .null => .error "Cannot read properties of null (reading \x27toLowerCase\x27)"
  | _ => .error "row.metric_name.toLowerCase is not a function"

/-- The `data.forEach` loop of `extractKeyMetrics`, lines 140-147, on the own
properties of `metrics`: every row assigns the entry of its key, so the entry of a key
is that of the last row with the key. -/
def collectMetrics : List (String × MetricEntry) → List MetricRecord →
    Except String (List (String × MetricEntry))
  | metrics, [] => .ok metrics
  | metrics, row :: rest =>
    match metricKey (readColumn row.metric_name) with
    | .ok key =>
      collectMetrics (setProperty key
        { value := readColumn row.metric_value
          target := readColumn row.target_value
          status := orElse (readColumn row.status) (.string "neutral") } metrics) rest
    | .error e => .error e

/-- The expression `metrics.key?.field || fallback`. -/
def entryOr (entry : Option MetricEntry) (field : MetricEntry → JSValue)
    (fallback : JSValue) : JSValue :=
  match entry with
  | some e => orElse (field e) fallback
  | none => fallback

/-- `extractKeyMetrics(data)`, lines 102-179, for the rows `getQuarterlyData()` gave. -/
def extractKeyMetrics (data : List MetricRecord) : Except String DashboardData :=
  if data.length = 0 then .ok defaultData
  else
    match collectMetrics [] data with
    | .error e => .error e
    | .ok metrics =>
      .ok {
        totalARR := entryOr (metrics.lookup "totalarr") MetricEntry.value defaultData.totalARR
        targetARR := entryOr (metrics.lookup "totalarr") MetricEntry.target defaultData.targetARR
        arrStatus := entryOr (metrics.lookup "totalarr") MetricEntry.status defaultData.arrStatus
        netNewARR := entryOr (metrics.lookup "netnewarradded") MetricEntry.value defaultData.netNewARR
        targetNetNewARR := entryOr (metrics.lookup "netnewarradded") MetricEntry.target defaultData.targetNetNewARR
        netNewARRStatus := entryOr (metrics.lookup "netnewarradded") MetricEntry.status defaultData.netNewARRStatus
        pipeline := entryOr (metrics.lookup "pipeline") MetricEntry.value defaultData.pipeline
        targetPipeline := entryOr (metrics.lookup "pipeline") MetricEntry.target defaultData.targetPipeline
        pipelineStatus := entryOr (metrics.lookup "pipeline") MetricEntry.status defaultData.pipelineStatus
        churn := entryOr (metrics.lookup "churn") MetricEntry.value defaultData.churn
        targetChurn := entryOr (metrics.lookup "churn") MetricEntry.target defaultData.targetChurn
        churnStatus := entryOr (metrics.lookup "churn") MetricEntry.status defaultData.churnStatus
        nrr := entryOr (metrics.lookup "nrr") MetricEntry.value defaultData.nrr
        targetNRR := entryOr (metrics.lookup "nrr") MetricEntry.target defaultData.targetNRR
        nrrStatus := entryOr (metrics.lookup "nrr") MetricEntry.status defaultData.nrrStatus
        burnMultiple := entryOr (metrics.lookup "burnmultiple") MetricEntry.value defaultData.burnMultiple
        targetBurnMultiple := entryOr (metrics.lookup "burnmultiple") MetricEntry.target defaultData.targetBurnMultiple
        burnMultipleStatus := entryOr (metrics.lookup "burnmultiple") MetricEntry.status defaultData.burnMultipleStatus
        cac := entryOr (metrics.lookup "cac") MetricEntry.value defaultData.cac
        targetCAC := entryOr (metrics.lookup "cac") MetricEntry.target defaultData.targetCAC
        cacStatus := entryOr (metrics.lookup "cac") MetricEntry.status defaultData.cacStatus
        deploymentFreq := entryOr (metrics.lookup "deploymentfrequency") MetricEntry.value defaultData.deploymentFreq
        targetDeploymentFreq := entryOr (metrics.lookup "deploymentfrequency") MetricEntry.target defaultData.targetDeploymentFreq
        deploymentFreqStatus := entryOr (metrics.lookup "deploymentfrequency") MetricEntry.status defaultData.deploymentFreqStatus
        enps := entryOr (metrics.lookup "enps") MetricEntry.value defaultData.enps
        targetENPS := entryOr (metrics.lookup "enps") MetricEntry.target defaultData.targetENPS
        enpsStatus := entryOr (metrics.lookup "enps") MetricEntry.status defaultData.enpsStatus }

/-! ## `createAnalysisPrompt` -/

/-- The digits of `x.toFixed(digits)` for a finite `x` of absolute value `num / den`
below `10 ^ 21`: the integer nearest to `x * 10 ^ digits` (the larger one of two), with
a point before its last `digits` digits. -/
def fixedDigits (num den digits : Nat) : List Char :=
  let n := (2 * num * 10 ^ digits + den) / (2 * den)
  let text := natDigits n
  let padded := List.replicate (digits + 1 - text.length) '0' ++ text
  if digits = 0 then padded
  else padded.take (padded.length - digits) ++ '.' :: padded.drop (padded.length - digits)

/-- `Number.prototype.toFixed(digits)`. -/
def toFixed (digits : Nat) : JSNumber → String
  | .nan => "NaN"
  | .infinity false => "Infinity"
  | .infinity true => "-Infinity"
  | .finite q =>
    if 10 ^ 21 * q.den ≤ q.num.natAbs then numberToString (.finite q)
    else
      String.mk ((if q.num < 0 then ['-'] else []) ++ fixedDigits q.num.natAbs q.den digits)

/-- The text of a `change` or `changePercent` that is a number or `null` in a template
literal. -/
def optionalNumberText (value : Option JSNumber) : String :=
  match value with
  | some n => numberToString n
  | none => "null"

/-- The first part of the prompt, lines 59-72. -/
def promptHeader (data : DashboardData) : String :=
  "\nPlease analyze the following SaaS dashboard metrics and provide insights:\n\n" ++
  "CURRENT QUARTER METRICS:\n" ++
  "- Total ARR: $" ++ toStringJS data.totalARR ++ "M (Target: $" ++
    toStringJS data.targetARR ++ "M) - Status: " ++ toStringJS data.arrStatus ++ "\n" ++
  "- Net New ARR Added: $" ++ toStringJS data.netNewARR ++ "K (Target: $" ++
    toStringJS data.targetNetNewARR ++ "K) - Status: " ++
    toStringJS data.netNewARRStatus ++ "\n" ++
  "- Pipeline: $" ++ toStringJS data.pipeline ++ "M (Target: $" ++
    toStringJS data.targetPipeline ++ "M) - Status: " ++
    toStringJS data.pipelineStatus ++ "\n" ++
  "- Churn: $" ++ toStringJS data.churn ++ "K (Target: $" ++
    toStringJS data.targetChurn ++ "K) - Status: " ++ toStringJS data.churnStatus ++ "\n" ++
  "- NRR: " ++ toStringJS data.nrr ++ "% (Target: " ++ toStringJS data.targetNRR ++
    "%) - Status: " ++ toStringJS data.nrrStatus ++ "\n" ++
  "- Burn Multiple: " ++ toStringJS data.burnMultiple ++ "x (Target: " ++
    toStringJS data.targetBurnMultiple ++ "x) - Status: " ++
    toStringJS data.burnMultipleStatus ++ " (Lower is better)\n" ++
  "- CAC: $" ++ toStringJS data.cac ++ " (Target: $" ++ toStringJS data.targetCAC ++
    ") - Status: " ++ toStringJS data.cacStatus ++ " (Lower is better)\n" ++
  "- Deployment Frequency: " ++ toStringJS data.deploymentFreq ++ "/month (Target: " ++
    toStringJS data.targetDeploymentFreq ++ "/month) - Status: " ++
    toStringJS data.deploymentFreqStatus ++ "\n" ++
  "- eNPS: " ++ toStringJS data.enps ++ " (Target: " ++ toStringJS data.targetENPS ++
    ") - Status: " ++ toStringJS data.enpsStatus ++ "\n"

/-- The last part of the prompt, lines 90-99. -/
def promptFooter : String :=
  "\nPlease provide:\n" ++
  "1. EXECUTIVE SUMMARY (2-3 sentences focusing on current performance and trends)\n" ++
  "2. KEY INSIGHTS (3-5 bullet points highlighting both current metrics and QoQ changes)\n" ++
  "3. AREAS OF CONCERN (red status items and declining trends)\n" ++
  "4. RECOMMENDATIONS (actionable next steps based on current performance and trends)\n" ++
  "5. TRENDS TO WATCH (metrics showing significant QoQ changes that need attention)\n\n" ++
  "Format the response in clear, business-friendly language suitable for executive " ++
  "presentation. Focus on both current quarter performance and the quarter-over-quarter " ++
  "trends to provide actionable insights.\n    "

/-- The line the `forEach` callback of lines 77-85 adds for one entry of
`qoqComparisons`, or the message of the `TypeError` it throws: the template literal of
line 84 reads `comparison.current.metric_value` and `comparison.previous.metric_value`
whether or not the two records are `null`. -/
def comparisonLine (metric : String) (comparison : QoqComparison) : Except String String :=
  let isPositive :=
    match comparison.change with
    | some change => numberLess (.finite 0) change
    | none => false
  let changeText :=
    if isPositive then "+" ++ optionalNumberText comparison.change
    else optionalNumberText comparison.change
  let trend := if isPositive then "↗️" else "↘️"
  let percentText :=
    match comparison.changePercent with
    | some percent => toFixed 1 percent
    | none => "undefined"
  match comparison.current, comparison.previous with
  | none, _ => .error "Cannot read properties of null (reading \x27metric_value\x27)"
  | some _, none => .error "Cannot read properties of null (reading \x27metric_value\x27)"
  | some current, some previous =>
    .ok ("- " ++ metric ++ ": " ++ changeText ++ " (" ++ percentText ++ "%) " ++ trend ++
      " - Current: " ++ toStringJS current.metric_value ++
      toStringJS current.metric_unit ++ ", Previous: " ++
      toStringJS previous.metric_value ++ toStringJS previous.metric_unit ++ "\n")

/-- The `Object.entries(qoqComparisons).forEach(...)` of lines 77-85: the prompt with
the lines of the entries added, or the error thrown on the way. -/
def addComparisonLines : String → List (String × QoqComparison) → Except String String
  | prompt, [] => .ok prompt
  | prompt, (metric, comparison) :: rest =>
    match comparisonLine metric comparison with
    | .ok line => addComparisonLines (prompt ++ line) rest
    | .error e => .error e

/-- `createAnalysisPrompt(data, qoqComparisons, currentQuarter)`, lines 58-102.
`qoqComparisons` is an object that maps metric names to comparisons (its entries in
order) or `null`; `currentQuarter` is an object with a `quarter` and a `year`, or
`null`.  The result is the prompt, or the message of the error thrown. -/
def createAnalysisPrompt (data : DashboardData)
    (qoqComparisons : Option (List (String × QoqComparison)))
    (currentQuarter : Option (JSValue × JSValue)) : Except String String :=
  match qoqComparisons, currentQuarter with
  | some comparisons, some (quarter, year) =>
    match addComparisonLines
        (promptHeader data ++ "\nQUARTER-OVER-QUARTER COMPARISON (" ++ toStringJS quarter ++
          " " ++ toStringJS year ++ " vs Previous Quarter):\n") comparisons with
    | .ok prompt =>
      .ok (prompt ++ "\nAnalyze both the current quarter performance AND the " ++
        "quarter-over-quarter trends to provide comprehensive insights.\n" ++ promptFooter)
    | .error e => .error e
  | _, _ => .ok (promptHeader data ++ promptFooter)

end DatabaseService

/-!
# The server and the stores it writes

`src/backend/server.js` mounts the routers of `dataRoutes.js`, `uploadRoutes.js` and
`analysisRoutes.js`; the only statements that write to `quarterly_data` are those of
`saveQuarterlyData`, which the upload route calls.
-/

namespace DatabaseService

open FileProcessor

/-! ## Routing (`server.js`) -/

/-- The router modules of `src/backend/routes`. -/
inductive RouterModule where
  | dataRoutes
  | uploadRoutes
  | analysisRoutes
  | hubspotRoutes
  deriving DecidableEq

/-- `server.js` lines 46-48: the routers mounted with `app.use(path, router)`, in order.
`hubspotRoutes.js` is not among them: no file of the backend requires it. -/
def mountedRouters : List (String × RouterModule) :=
  [("/api/data", .dataRoutes), ("/api/upload", .uploadRoutes),
    ("/api/analysis", .analysisRoutes)]

/-- The part of a request path below a mount path: `app.use(mount, router)` hands a
request to the router when the path is the mount path or goes on with a `/` after it
(letters compared without regard to case), and the router sees the rest of the path. -/
def belowMount (mount path : String) : Option String :=
  if (toLowerCase path).data = (toLowerCase mount).data then some "/"
  else if ((toLowerCase mount).data ++ ['/']).isPrefixOf (toLowerCase path).data then
    some (String.mk (path.data.drop mount.data.length))
  else none

/-- The mounted router that a request path is handed to, with the rest of the path. -/
def mountedRouterFor (path : String) : Option (RouterModule × String) :=
  mountedRouters.findSome? (fun m => (belowMount m.1 path).map (fun rest => (m.2, rest)))

/-- `POST path` with a sync body, as the server of `server.js` answers it.  The handler
of `hubspotRoutes.js` line 110 runs when the path leads to that router and its route
`/sync`.  A path that leads to no mounted router reaches the 404 handler of lines
69-71, which answers `Route not found` and writes nothing.  `none`: the path leads to
another router, whose routes are not part of this function. -/
def serverPostSync (db : Database) (now : String) (currentYear : Int) (path : String)
    (request : SyncRequest) : Option (Nat × Database) :=
  match mountedRouterFor path with
  | none => some (404, db)
  | some (.hubspotRoutes, rest) =>
    if toLowerCase rest = "/sync" then some (hubspotSyncRoute db now currentYear request)
    else none
  | some _ => none

/-! ## The stores the program writes -/

/-- The stores the program can be in: the empty database that `createTables` sets up,
and what a request to a mounted route that writes makes of such a store: the upload of
a file (`POST /api/upload/file`), the removal of a file record
(`DELETE /api/upload/file/:fileId`) and the saving of a configuration
(`POST /api/data/config`). -/
inductive Reachable : Database → Prop where
  | empty : Reachable Database.empty
  | upload (db : Database) (now : String) (filename originalName fileType fileSize : JSValue)
      (data : RawData) :
      Reachable db →
        Reachable (uploadFileRoute db now filename originalName fileType fileSize data).2
  | deleteFile (db : Database) (fileIdParam : String) :
      Reachable db → Reachable (deleteFileRoute db fileIdParam).2
  | saveConfig {Value : Type} (json : JsonCodec Value) (db : Database) (now : String)
      (configName : JSValue) (configData : Value) (next : Database) (id : Int) :
      Reachable db → saveDashboardConfig json db now configName configData = .ok (next, id) →
        Reachable next

/-! ## More sample stores -/

/-- A CSV row for the metric NRR in the given period. -/
def nrrRow (quarter year value : String) : RawRow :=
  [("quarter", .string quarter), ("year", .string year), ("metric_name", .string "NRR"),
    ("metric_value", .string value)]

/-- The database after the upload of a CSV file with one NRR row for each of Q4-2023,
Q1-2024, Q2-2024, Q3-2024, Q4-2024 and Q1-2025 into the empty database. -/
def sixPeriodDatabase : Database :=
  (uploadFileRoute Database.empty sampleTime (.string "file-1730800000000-3.csv")
    (.string "nrr.csv") (.string ".csv") (.number (.finite 256))
    (.array [nrrRow "Q4" "2023" "98", nrrRow "Q1" "2024" "99", nrrRow "Q2" "2024" "100",
      nrrRow "Q3" "2024" "101", nrrRow "Q4" "2024" "102", nrrRow "Q1" "2025" "105"])).2

/-- A store with an NRR record for Q4-2024 whose metric value is `NULL` (the column
`metric_value REAL` of the schema has no `NOT NULL`) and one of 105 for Q1-2025, as
`saveQuarterlyData` stores them. -/
def nullValueDatabase : Database :=
  match saveQuarterlyData Database.empty sampleTime (.number (.finite 1)) (.string "Q4")
      (.number (.finite 2024)) (.string "NRR") .null .null .null .null .null with
  | .error _ => Database.empty
  | .ok (first, _) =>
    match saveQuarterlyData first sampleTime (.number (.finite 1)) (.string "Q1")
        (.number (.finite 2025)) (.string "NRR") (.number (.finite 105)) .null .null .null
        .null with
    | .error _ => first
    | .ok (second, _) => second

end DatabaseService

namespace FileProcessor

/-! ## Basic facts -/

theorem isMissingColumn_iff (row : RawRow) (col : String) :
    isMissingColumn row col = true ↔ FieldMissing row col := by
  unfold isMissingColumn FieldMissing RawRow.hasOwnProperty RawRow.get
  cases h : row.lookup col <;> simp

theorem validateRow_rowNumber (row : RawRow) (n m : Nat) :
    validateRow row n = validateRow row m := rfl

/-- The missing-column list of `validateRow` is empty exactly when no required field is
missing. -/
theorem missing_filter_eq_nil (row : RawRow) :
    requiredColumns.filter (isMissingColumn row) = [] ↔
      ∀ c ∈ requiredColumns, ¬ FieldMissing row c := by
  rw [List.filter_eq_nil_iff]
  constructor
  · intro h c hc hm
    exact h c hc ((isMissingColumn_iff row c).2 hm)
  · intro h c hc hm
    exact h c hc ((isMissingColumn_iff row c).1 hm)

/-- In a row without a column named `hasOwnProperty` the filter of lines 96-98 keeps the
columns that are missing. -/
theorem filterColumns_inherited (row : RawRow) (cols : List String)
    (hown : row.hasOwnProperty "hasOwnProperty" = false) :
    filterColumns (missingColumnTest row) cols = .ok (cols.filter (isMissingColumn row)) := by
  induction cols with
  | nil => rfl
  | cons c rest ih =>
    simp only [filterColumns, missingColumnTest, hown, Bool.false_eq_true, if_false, ih,
      List.filter_cons]

/-- Without a column named `hasOwnProperty`, the required-columns block throws exactly
when the list of missing required columns is not empty. -/
theorem checkRequiredColumns_inherited (row : RawRow)
    (hown : row.hasOwnProperty "hasOwnProperty" = false) :
    checkRequiredColumns row =
      if (requiredColumns.filter (isMissingColumn row)).length > 0 then
        .error (.missingColumns (requiredColumns.filter (isMissingColumn row)))
      else .ok () := by
  unfold checkRequiredColumns
  rw [filterColumns_inherited row _ hown]

/-- A row with a column named `hasOwnProperty` makes the required-columns block throw
the `TypeError` of the call, whatever its other columns hold. -/
theorem checkRequiredColumns_shadowed (row : RawRow)
    (hown : row.hasOwnProperty "hasOwnProperty" = true) :
    checkRequiredColumns row = .error (.notAFunction "row.hasOwnProperty") := by
  simp [checkRequiredColumns, requiredColumns, filterColumns, missingColumnTest, hown]

theorem accepted_iff (row : RawRow) : Accepted row ↔ ∃ r, acceptedRecord row = some r := by
  unfold Accepted acceptedRecord
  constructor
  · rintro ⟨r, h⟩
    exact ⟨r, by rw [h 0]⟩
  · rintro ⟨r, h⟩
    refine ⟨r, fun n => ?_⟩
    rw [validateRow_rowNumber row n 0]
    cases hv : validateRow row 0 with
    | ok v => rw [hv] at h; simp at h; rw [h]
    | error e => rw [hv] at h; simp at h

/-- The loop of `validateData` appends, in input order, the records of the rows that
`validateRow` accepts. -/
theorem forEachRow_validatedData (rows : List RawRow) (index : Nat) (acc : RowLoop) :
    (forEachRow validateRow rows index acc).validatedData =
      acc.validatedData ++ rows.filterMap acceptedRecord := by
  induction rows generalizing index acc with
  | nil => simp [forEachRow]
  | cons row rest ih =>
    unfold forEachRow
    rw [validateRow_rowNumber row (index + 1) 0]
    cases hv : validateRow row 0 with
    | ok v =>
      have hrec : acceptedRecord row = some v := by simp [acceptedRecord, hv]
      simp [ih, List.filterMap_cons, hrec]
    | error e =>
      have hrec : acceptedRecord row = none := by simp [acceptedRecord, hv]
      simp [ih, List.filterMap_cons, hrec]

theorem validateData_array (rows : List RawRow) (hne : rows ≠ []) :
    validateData (.array rows) =
      if rows.filterMap acceptedRecord = [] then .error .noValidRows
      else .ok (rows.filterMap acceptedRecord) := by
  have hlen : rows.length ≠ 0 := by
    intro h
    exact hne (List.length_eq_zero.1 h)
  simp only [validateData, validateDataWith, hlen, if_false, forEachRow_validatedData,
    List.nil_append, List.length_eq_zero]

theorem filterMap_acceptedRecord_eq_nil (rows : List RawRow) :
    rows.filterMap acceptedRecord = [] ↔ ¬ ∃ row ∈ rows, Accepted row := by
  rw [List.filterMap_eq_nil_iff]
  constructor
  · rintro h ⟨row, hmem, hacc⟩
    obtain ⟨r, hr⟩ := (accepted_iff row).1 hacc
    rw [h row hmem] at hr
    cases hr
  · intro h row hmem
    cases hrec : acceptedRecord row with
    | none => rfl
    | some r => exact absurd ⟨row, hmem, (accepted_iff row).2 ⟨r, hrec⟩⟩ h

/-! ## C1: the dataset validator keeps exactly the accepted rows -/

/-- C1. For a non-empty list of raw rows, `validateData` succeeds if and only if some row
is accepted by `validateRow`; a successful result is exactly the list of the records of
the accepted rows in input order (rejected rows left out); and when no row is accepted
it fails with the error whose message is `No valid data rows found`. -/
theorem validateData_keeps_accepted_rows (rows : List RawRow) (hne : rows ≠ []) :
    ((∃ out, validateData (.array rows) = .ok out) ↔ ∃ row ∈ rows, Accepted row) ∧
    (∀ out, validateData (.array rows) = .ok out →
      out = rows.filterMap acceptedRecord) ∧
    ((¬ ∃ row ∈ rows, Accepted row) →
      validateData (.array rows) = .error .noValidRows ∧
        DataError.noValidRows.message = "No valid data rows found") := by
  rw [validateData_array rows hne]
  by_cases hnil : rows.filterMap acceptedRecord = []
  · have hnone := (filterMap_acceptedRecord_eq_nil rows).1 hnil
    simp only [hnil, if_true]
    refine ⟨⟨?_, fun h => absurd h hnone⟩, ?_, fun _ => ⟨trivial, rfl⟩⟩
    · rintro ⟨out, h⟩
      cases h
    · intro out h
      cases h
  · have hsome : ∃ row ∈ rows, Accepted row := by
      by_contra hcon
      exact hnil ((filterMap_acceptedRecord_eq_nil rows).2 hcon)
    simp only [hnil, if_false]
    refine ⟨⟨fun _ => hsome, fun _ => ⟨_, rfl⟩⟩, ?_, fun h => absurd hsome h⟩
    intro out h
    cases h
    rfl

/-- Witness for C1: a dataset of one accepted and one rejected row. -/
theorem validateData_keeps_accepted_rows_witness :
    [sampleRow, rowWithYearOnly] ≠ [] ∧
    (∀ out, validateData (.array [sampleRow, rowWithYearOnly]) = .ok out →
      out = [sampleRow, rowWithYearOnly].filterMap acceptedRecord) ∧
    ((∃ out, validateData (.array [sampleRow, rowWithYearOnly]) = .ok out) ↔
      ∃ row ∈ [sampleRow, rowWithYearOnly], Accepted row) :=
  ⟨List.cons_ne_nil _ _,
    (validateData_keeps_accepted_rows [sampleRow, rowWithYearOnly]
      (List.cons_ne_nil _ _)).2.1,
    (validateData_keeps_accepted_rows [sampleRow, rowWithYearOnly]
      (List.cons_ne_nil _ _)).1⟩

/-! ## C3: missing required fields -/

theorem checkRequiredColumns_of_missing (row : RawRow)
    (hown : row.hasOwnProperty "hasOwnProperty" = false)
    (h : requiredColumns.filter (isMissingColumn row) ≠ []) :
    checkRequiredColumns row =
      .error (.missingColumns (requiredColumns.filter (isMissingColumn row))) := by
  have hpos : (requiredColumns.filter (isMissingColumn row)).length > 0 :=
    List.length_pos.2 h
  rw [checkRequiredColumns_inherited row hown]
  simp only [hpos, if_true]

theorem checkRequiredColumns_of_present (row : RawRow)
    (hown : row.hasOwnProperty "hasOwnProperty" = false)
    (h : ∀ c ∈ requiredColumns, ¬ FieldMissing row c) :
    checkRequiredColumns row = .ok () := by
  have hnil := (missing_filter_eq_nil row).2 h
  rw [checkRequiredColumns_inherited row hown]
  simp [hnil]

/-- The required-columns block passes exactly for the rows that have no column named
`hasOwnProperty` and in which no required field is missing. -/
theorem checkRequiredColumns_ok_iff (row : RawRow) :
    checkRequiredColumns row = .ok () ↔
      row.hasOwnProperty "hasOwnProperty" = false ∧
        ∀ c ∈ requiredColumns, ¬ FieldMissing row c := by
  constructor
  · intro h
    cases hown : row.hasOwnProperty "hasOwnProperty" with
    | true =>
      rw [checkRequiredColumns_shadowed row hown] at h
      cases h
    | false =>
      refine ⟨rfl, ?_⟩
      rw [checkRequiredColumns_inherited row hown] at h
      by_cases hpos : (requiredColumns.filter (isMissingColumn row)).length > 0
      · simp only [hpos, if_true] at h
        cases h
      · apply (missing_filter_eq_nil row).1
        apply List.length_eq_zero.1
        omega
  · rintro ⟨hown, h⟩
    exact checkRequiredColumns_of_present row hown h

theorem validateRow_of_missing (row : RawRow) (rowNumber : Nat)
    (hown : row.hasOwnProperty "hasOwnProperty" = false)
    (h : requiredColumns.filter (isMissingColumn row) ≠ []) :
    validateRow row rowNumber =
      .error (.missingColumns (requiredColumns.filter (isMissingColumn row))) := by
  unfold validateRow
  rw [checkRequiredColumns_of_missing row hown h]
  rfl

/-- A row with a column named `hasOwnProperty` is rejected with the `TypeError` of the
call `row.hasOwnProperty(col)`, whatever its other columns hold. -/
theorem validateRow_shadowed (row : RawRow) (rowNumber : Nat)
    (hown : row.hasOwnProperty "hasOwnProperty" = true) :
    validateRow row rowNumber = .error (.notAFunction "row.hasOwnProperty") := by
  unfold validateRow
  rw [checkRequiredColumns_shadowed row hown]
  rfl

/-- In a row without a column named `hasOwnProperty`, when at least one of the required
fields `quarter`, `year`, `metric_name`, `metric_value` is absent, `undefined` or the
empty string, `validateRow` fails with the missing-columns error; the columns it names
are exactly the missing required fields (every missing one, no present one), listed in
the order quarter, year, metric_name, metric_value, and the message is
`Missing required columns: ` followed by them. -/
theorem validateRow_reports_missing_fields (row : RawRow) (rowNumber : Nat)
    (hown : row.hasOwnProperty "hasOwnProperty" = false)
    (hmiss : ∃ c ∈ requiredColumns, FieldMissing row c) :
    ∃ cols, validateRow row rowNumber = .error (.missingColumns cols) ∧
      (∀ c, c ∈ cols ↔
        c ∈ ["quarter", "year", "metric_name", "metric_value"] ∧ FieldMissing row c) ∧
      cols.Sublist ["quarter", "year", "metric_name", "metric_value"] ∧
      (RowError.missingColumns cols).message =
        "Missing required columns: " ++ ", ".intercalate cols := by
  refine ⟨requiredColumns.filter (isMissingColumn row), ?_, ?_, ?_, rfl⟩
  · apply validateRow_of_missing _ _ hown
    intro hnil
    obtain ⟨c, hc, hm⟩ := hmiss
    exact (missing_filter_eq_nil row).1 hnil c hc hm
  · intro c
    rw [List.mem_filter, isMissingColumn_iff]
    rfl
  · exact List.filter_sublist _

/-- C3: a row with a column named `hasOwnProperty` in which `quarter`, `metric_name` and
`metric_value` are missing.  The call `row.hasOwnProperty(col)` of line 97 finds the
cell instead of the method and throws `row.hasOwnProperty is not a function`: the error
is not the missing-columns error and its message names none of the missing fields.
The same row without that column is rejected with
`Missing required columns: quarter, metric_name, metric_value`. -/
theorem missing_fields_not_reported_for_shadowing_column :
    FieldMissing shadowedRowWithYearOnly "quarter" ∧
    FieldMissing shadowedRowWithYearOnly "metric_name" ∧
    FieldMissing shadowedRowWithYearOnly "metric_value" ∧
    validateRow shadowedRowWithYearOnly 1 = .error (.notAFunction "row.hasOwnProperty") ∧
    (RowError.notAFunction "row.hasOwnProperty").message =
      "row.hasOwnProperty is not a function" ∧
    (¬ ∃ cols, validateRow shadowedRowWithYearOnly 1 = .error (.missingColumns cols)) ∧
    validateRow rowWithYearOnly 1 =
      .error (.missingColumns ["quarter", "metric_name", "metric_value"]) ∧
    (RowError.missingColumns ["quarter", "metric_name", "metric_value"]).message =
      "Missing required columns: quarter, metric_name, metric_value" := by
  refine ⟨Or.inl rfl, Or.inl rfl, Or.inl rfl, rfl, rfl, ?_, rfl, rfl⟩
  rintro ⟨cols, h⟩
  have h2 : validateRow shadowedRowWithYearOnly 1 =
      .error (.notAFunction "row.hasOwnProperty") := rfl
  rw [h2] at h
  cases h

/-! ## The blocks of `validateRow`, one by one -/

theorem checkQuarter_ok_iff (row : RawRow) (q : String) :
    checkQuarter row = .ok q ↔
      ∃ t, callToString (row.get "quarter") = some t ∧ toUpperCase t = q ∧
        q ∈ validQuarters := by
  unfold checkQuarter
  cases h : callToString (row.get "quarter") with
  | none => simp
  | some t =>
    by_cases hmem : toUpperCase t ∈ validQuarters
    · simp [hmem]
      intro hq
      exact hq ▸ hmem
    · simp [hmem]
      intro hq hq2
      exact hmem (hq ▸ hq2)

theorem checkQuarter_error (row : RawRow) (e : RowError) (h : checkQuarter row = .error e) :
    (callToString (row.get "quarter") = none ∧
        e = .typeError "quarter" (row.get "quarter")) ∨
      (∃ t, callToString (row.get "quarter") = some t ∧ toUpperCase t ∉ validQuarters ∧
        e = .invalidQuarter (row.get "quarter")) := by
  unfold checkQuarter at h
  cases hc : callToString (row.get "quarter") with
  | none =>
    rw [hc] at h
    simp at h
    exact Or.inl ⟨rfl, h.symm⟩
  | some t =>
    rw [hc] at h
    by_cases hmem : toUpperCase t ∈ validQuarters
    · simp [hmem] at h
    · simp [hmem] at h
      exact Or.inr ⟨t, rfl, hmem, h.symm⟩

theorem checkYear_ok_iff (row : RawRow) (y : Int) :
    checkYear row = .ok y ↔ parseInt (row.get "year") = some y ∧ 2020 ≤ y ∧ y ≤ 2030 := by
  unfold checkYear
  cases h : parseInt (row.get "year") with
  | none => simp
  | some z =>
    by_cases hr : z < 2020 ∨ z > 2030
    · simp [hr]
      intro hz
      subst hz
      omega
    · simp [hr]
      intro hz
      subst hz
      omega

theorem checkYear_error_iff (row : RawRow) (e : RowError) :
    checkYear row = .error e ↔
      e = .invalidYear (row.get "year") ∧
        (parseInt (row.get "year") = none ∨
          ∃ y, parseInt (row.get "year") = some y ∧ (y < 2020 ∨ 2030 < y)) := by
  unfold checkYear
  cases h : parseInt (row.get "year") with
  | none =>
    simp
    exact eq_comm
  | some z =>
    by_cases hr : z < 2020 ∨ z > 2030
    · have hr2 : z < 2020 ∨ 2030 < z := hr
      simp [hr, hr2]
      exact eq_comm
    · have hr2 : ¬ (z < 2020 ∨ 2030 < z) := hr
      simp [hr, hr2]

theorem checkMetricValue_ok_iff (row : RawRow) (x : JSNumber) :
    checkMetricValue row = .ok x ↔
      parseFloat (row.get "metric_value") = x ∧ x ≠ .nan := by
  unfold checkMetricValue
  cases h : parseFloat (row.get "metric_value") <;> simp [JSNumber.isNaN] <;>
    intro hx <;> subst hx <;> simp

theorem checkMetricValue_error_iff (row : RawRow) (e : RowError) :
    checkMetricValue row = .error e ↔
      e = .invalidMetricValue (row.get "metric_value") ∧
        parseFloat (row.get "metric_value") = .nan := by
  unfold checkMetricValue
  cases h : parseFloat (row.get "metric_value") <;> simp [JSNumber.isNaN]
  exact eq_comm

theorem checkTargetValue_ok_iff (row : RawRow) (t : Option JSNumber) :
    checkTargetValue row = .ok t ↔
      (truthy (row.get "target_value") = false ∧ t = none) ∨
        (truthy (row.get "target_value") = true ∧
          parseFloat (row.get "target_value") ≠ .nan ∧
          t = some (parseFloat (row.get "target_value"))) := by
  unfold checkTargetValue
  cases htr : truthy (row.get "target_value") with
  | false => simp [eq_comm]
  | true =>
    have hne : row.get "target_value" ≠ .string "" := by
      intro h
      rw [h] at htr
      simp [truthy] at htr
    cases hp : parseFloat (row.get "target_value") <;> simp [hne, JSNumber.isNaN, eq_comm]

theorem checkTargetValue_error_iff (row : RawRow) (e : RowError) :
    checkTargetValue row = .error e ↔
      e = .invalidTargetValue (row.get "target_value") ∧
        truthy (row.get "target_value") = true ∧
        parseFloat (row.get "target_value") = .nan := by
  unfold checkTargetValue
  cases htr : truthy (row.get "target_value") with
  | false => simp
  | true =>
    have hne : row.get "target_value" ≠ .string "" := by
      intro h
      rw [h] at htr
      simp [truthy] at htr
    cases hp : parseFloat (row.get "target_value") <;> simp [hne, JSNumber.isNaN, eq_comm]

theorem metricNameText_ok_iff (row : RawRow) (name : String) :
    metricNameText row = .ok name ↔
      ∃ text, callToString (row.get "metric_name") = some text ∧ name = trim text := by
  unfold metricNameText
  cases h : callToString (row.get "metric_name") <;> simp [eq_comm]

theorem metricNameText_error_iff (row : RawRow) (e : RowError) :
    metricNameText row = .error e ↔
      e = .typeError "metric_name" (row.get "metric_name") ∧
        callToString (row.get "metric_name") = none := by
  unfold metricNameText
  cases h : callToString (row.get "metric_name") <;> simp [eq_comm]

/-- Successful runs of `validateRow`: every block succeeds and the record is assembled
from their results. -/
theorem validateRow_ok_iff (row : RawRow) (rowNumber : Nat) (r : ValidatedRow) :
    validateRow row rowNumber = .ok r ↔
      checkRequiredColumns row = .ok () ∧
      checkQuarter row = .ok r.quarter ∧
      checkYear row = .ok r.year ∧
      checkMetricValue row = .ok r.metric_value ∧
      checkTargetValue row = .ok r.target_value ∧
      metricNameText row = .ok r.metric_name ∧
      r.status = normalizeStatus (row.get "status") ∧
      r.metric_unit = optionalText (row.get "metric_unit") ∧
      r.category = optionalText (row.get "category") ∧
      r.description = optionalText (row.get "description") := by
  unfold validateRow
  cases h0 : checkRequiredColumns row with
  | error e => simp [bind, Except.bind]
  | ok u =>
  cases h1 : checkQuarter row with
  | error e => simp [bind, Except.bind]
  | ok q =>
  cases h2 : checkYear row with
  | error e => simp [bind, Except.bind]
  | ok y =>
  cases h3 : checkMetricValue row with
  | error e => simp [bind, Except.bind]
  | ok x =>
  cases h4 : checkTargetValue row with
  | error e => simp [bind, Except.bind]
  | ok t =>
  cases h5 : metricNameText row with
  | error e => simp [bind, Except.bind]
  | ok name =>
    cases r
    simp [bind, Except.bind, pure, Except.pure, eq_comm]
    tauto

/-- Failing runs of `validateRow`: the error is that of the first block that fails. -/
theorem validateRow_error_iff (row : RawRow) (rowNumber : Nat) (e : RowError) :
    validateRow row rowNumber = .error e ↔
      checkRequiredColumns row = .error e ∨
      (checkRequiredColumns row = .ok () ∧
        (checkQuarter row = .error e ∨
          ∃ q, checkQuarter row = .ok q ∧
            (checkYear row = .error e ∨
              ∃ y, checkYear row = .ok y ∧
                (checkMetricValue row = .error e ∨
                  ∃ x, checkMetricValue row = .ok x ∧
                    (checkTargetValue row = .error e ∨
                      ∃ t, checkTargetValue row = .ok t ∧
                        metricNameText row = .error e))))) := by
  unfold validateRow
  cases h0 : checkRequiredColumns row with
  | error e0 => simp [bind, Except.bind]
  | ok u =>
  cases h1 : checkQuarter row with
  | error e1 => simp [bind, Except.bind]
  | ok q =>
  cases h2 : checkYear row with
  | error e2 => simp [bind, Except.bind]
  | ok y =>
  cases h3 : checkMetricValue row with
  | error e3 => simp [bind, Except.bind]
  | ok x =>
  cases h4 : checkTargetValue row with
  | error e4 => simp [bind, Except.bind]
  | ok t =>
  cases h5 : metricNameText row with
  | error e5 => simp [bind, Except.bind]
  | ok name => simp [bind, Except.bind, pure, Except.pure]

theorem checkRequiredColumns_error (row : RawRow) (e : RowError)
    (h : checkRequiredColumns row = .error e) :
    e = .missingColumns (requiredColumns.filter (isMissingColumn row)) ∨
      e = .notAFunction "row.hasOwnProperty" := by
  cases hown : row.hasOwnProperty "hasOwnProperty" with
  | true =>
    rw [checkRequiredColumns_shadowed row hown] at h
    cases h
    exact Or.inr rfl
  | false =>
    rw [checkRequiredColumns_inherited row hown] at h
    by_cases hpos : (requiredColumns.filter (isMissingColumn row)).length > 0
    · simp only [hpos, if_true] at h
      cases h
      exact Or.inl rfl
    · simp only [hpos, if_false] at h
      cases h

/-- The invalid-year error comes from the year block only, after the required-columns
and quarter blocks have passed. -/
theorem validateRow_invalidYear_iff (row : RawRow) (rowNumber : Nat) (raw : JSValue) :
    validateRow row rowNumber = .error (.invalidYear raw) ↔
      checkRequiredColumns row = .ok () ∧ (∃ q, checkQuarter row = .ok q) ∧
        checkYear row = .error (.invalidYear raw) := by
  rw [validateRow_error_iff]
  constructor
  · rintro (h | ⟨h0, h | ⟨q, hq, h | ⟨y, _, h | ⟨x, _, h | ⟨t, _, h⟩⟩⟩⟩⟩)
    · rcases checkRequiredColumns_error row _ h with he | he <;> cases he
    · rcases checkQuarter_error row _ h with ⟨_, he⟩ | ⟨_, _, _, he⟩ <;> cases he
    · exact ⟨h0, ⟨q, hq⟩, h⟩
    · cases ((checkMetricValue_error_iff row _).1 h).1
    · cases ((checkTargetValue_error_iff row _).1 h).1
    · cases ((metricNameText_error_iff row _).1 h).1
  · rintro ⟨h0, ⟨q, hq⟩, h⟩
    exact Or.inr ⟨h0, Or.inr ⟨q, hq, Or.inl h⟩⟩

/-! ## C4: the year range -/

/-- For a row without a column named `hasOwnProperty` that has all required fields and a
valid quarter, `validateRow` rejects the row with the invalid-year error if and only if
`parseInt` of the year is `NaN` or lies outside 2020..2030.  In particular the years
2019 and 2031 (as text or as spreadsheet numbers) are rejected with that error, and the
boundary years 2020 and 2030 pass the year check. -/
theorem validateRow_year_range (row : RawRow) (rowNumber : Nat)
    (hown : row.hasOwnProperty "hasOwnProperty" = false)
    (hreq : ∀ c ∈ requiredColumns, ¬ FieldMissing row c)
    (hq : ∃ t, callToString (row.get "quarter") = some t ∧
      toUpperCase t ∈ ["Q1", "Q2", "Q3", "Q4"]) :
    (validateRow row rowNumber = .error (.invalidYear (row.get "year")) ↔
      (parseInt (row.get "year") = none ∨
        ∃ y, parseInt (row.get "year") = some y ∧ (y < 2020 ∨ 2030 < y))) ∧
    (∀ raw, validateRow row rowNumber = .error (.invalidYear raw) → raw = row.get "year") ∧
    (row.get "year" ∈ [JSValue.string "2019", .string "2031", .number (.finite 2019),
        .number (.finite 2031)] →
      validateRow row rowNumber = .error (.invalidYear (row.get "year"))) ∧
    (row.get "year" ∈ [JSValue.string "2020", .string "2030", .number (.finite 2020),
        .number (.finite 2030)] →
      (∃ y, checkYear row = .ok y ∧ (y = 2020 ∨ y = 2030)) ∧
        ∀ raw, validateRow row rowNumber ≠ .error (.invalidYear raw)) := by
  have h0 := checkRequiredColumns_of_present row hown hreq
  obtain ⟨t, ht, hmem⟩ := hq
  have h1 : checkQuarter row = .ok (toUpperCase t) :=
    (checkQuarter_ok_iff row _).2 ⟨t, ht, rfl, hmem⟩
  have key : ∀ raw, validateRow row rowNumber = .error (.invalidYear raw) ↔
      checkYear row = .error (.invalidYear raw) := by
    intro raw
    rw [validateRow_invalidYear_iff]
    exact ⟨fun h => h.2.2, fun h => ⟨h0, ⟨_, h1⟩, h⟩⟩
  refine ⟨?_, ?_, ?_, ?_⟩
  · rw [key, checkYear_error_iff]
    simp
  · intro raw h
    have := ((checkYear_error_iff row _).1 ((key raw).1 h)).1
    cases this
    rfl
  · intro hy
    rw [key, checkYear_error_iff]
    refine ⟨rfl, ?_⟩
    simp only [List.mem_cons, List.mem_singleton, List.mem_nil_iff, or_false] at hy
    rcases hy with hy | hy | hy | hy <;> rw [hy] <;> right
    · exact ⟨2019, rfl, by decide⟩
    · exact ⟨2031, rfl, by decide⟩
    · exact ⟨2019, rfl, by decide⟩
    · exact ⟨2031, rfl, by decide⟩
  · intro hy
    simp only [List.mem_cons, List.mem_singleton, List.mem_nil_iff, or_false] at hy
    have hok : ∃ y, checkYear row = .ok y ∧ (y = 2020 ∨ y = 2030) := by
      rcases hy with hy | hy | hy | hy
      · exact ⟨2020, (checkYear_ok_iff row _).2 ⟨by rw [hy]; rfl, by decide, by decide⟩,
          Or.inl rfl⟩
      · exact ⟨2030, (checkYear_ok_iff row _).2 ⟨by rw [hy]; rfl, by decide, by decide⟩,
          Or.inr rfl⟩
      · exact ⟨2020, (checkYear_ok_iff row _).2 ⟨by rw [hy]; rfl, by decide, by decide⟩,
          Or.inl rfl⟩
      · exact ⟨2030, (checkYear_ok_iff row _).2 ⟨by rw [hy]; rfl, by decide, by decide⟩,
          Or.inr rfl⟩
    refine ⟨hok, ?_⟩
    intro raw h
    obtain ⟨y, hyok, _⟩ := hok
    rw [key, hyok] at h
    cases h

/-- C4: a row that has all required fields and a valid quarter, whose year 2031 lies
outside 2020..2030, and that has a column named `hasOwnProperty`.  It is not rejected
with the invalid-year error: the call `row.hasOwnProperty(col)` of line 97 throws
`row.hasOwnProperty is not a function` before the year is looked at.  The same row
without that column is rejected with `Invalid year: 2031. Must be between 2020-2030`. -/
theorem late_year_not_reported_for_shadowing_column :
    (∀ c ∈ requiredColumns, ¬ FieldMissing shadowedRowWithLateYear c) ∧
    shadowedRowWithLateYear.get "quarter" = .string "Q2" ∧
    shadowedRowWithLateYear.get "year" = .string "2031" ∧
    parseInt (shadowedRowWithLateYear.get "year") = some 2031 ∧
    validateRow shadowedRowWithLateYear 1 = .error (.notAFunction "row.hasOwnProperty") ∧
    (∀ raw, validateRow shadowedRowWithLateYear 1 ≠ .error (.invalidYear raw)) ∧
    validateRow rowWithLateYear 1 = .error (.invalidYear (.string "2031")) ∧
    (RowError.invalidYear (.string "2031")).message =
      "Invalid year: 2031. Must be between 2020-2030" := by
  refine ⟨?_, rfl, rfl, rfl, rfl, ?_, rfl, rfl⟩
  · exact (missing_filter_eq_nil shadowedRowWithLateYear).1 rfl
  · intro raw h
    have h2 : validateRow shadowedRowWithLateYear 1 =
        .error (.notAFunction "row.hasOwnProperty") := rfl
    rw [h2] at h
    cases h

/-! ## C5: the quarter check -/

/-- With all required fields present, `validateRow` fails the quarter check exactly when
the quarter block throws. -/
theorem failsQuarterCheck_iff (row : RawRow) (rowNumber : Nat)
    (h0 : checkRequiredColumns row = .ok ()) :
    FailsQuarterCheck (validateRow row rowNumber) ↔ ∃ e, checkQuarter row = .error e := by
  constructor
  · intro hf
    cases h1 : checkQuarter row with
    | error e => exact ⟨e, rfl⟩
    | ok q =>
      exfalso
      rcases hf with ⟨raw, h⟩ | ⟨v, h⟩
      · rw [validateRow_error_iff, h0, h1] at h
        rcases h with h | ⟨_, h | ⟨q, _, h | ⟨y, _, h | ⟨x, _, h | ⟨t, _, h⟩⟩⟩⟩⟩
        · cases h
        · cases h
        · cases ((checkYear_error_iff row _).1 h).1
        · cases ((checkMetricValue_error_iff row _).1 h).1
        · cases ((checkTargetValue_error_iff row _).1 h).1
        · cases ((metricNameText_error_iff row _).1 h).1
      · rw [validateRow_error_iff, h0, h1] at h
        rcases h with h | ⟨_, h | ⟨q, _, h | ⟨y, _, h | ⟨x, _, h | ⟨t, _, h⟩⟩⟩⟩⟩
        · cases h
        · cases h
        · cases ((checkYear_error_iff row _).1 h).1
        · cases ((checkMetricValue_error_iff row _).1 h).1
        · cases ((checkTargetValue_error_iff row _).1 h).1
        · have he := ((metricNameText_error_iff row _).1 h).1
          simp at he
  · rintro ⟨e, he⟩
    have hv : validateRow row rowNumber = .error e :=
      (validateRow_error_iff row rowNumber e).2 (Or.inr ⟨h0, Or.inl he⟩)
    rcases checkQuarter_error row e he with ⟨_, hk⟩ | ⟨_, _, _, hk⟩
    · exact Or.inr ⟨_, by rw [hv, hk]⟩
    · exact Or.inl ⟨_, by rw [hv, hk]⟩

/-- For a row without a column named `hasOwnProperty` that has all required fields,
`validateRow` passes the quarter check if and only if the upper-cased quarter text is
exactly one of `Q1`, `Q2`, `Q3`, `Q4`; a quarter text that is not one of them is
rejected with the invalid-quarter error; so `q3` passes and `Q5`, `Q`, ` Q1` fail with
that error; and a returned record carries the upper-cased label. -/
theorem validateRow_quarter_check (row : RawRow) (rowNumber : Nat)
    (hown : row.hasOwnProperty "hasOwnProperty" = false)
    (hreq : ∀ c ∈ requiredColumns, ¬ FieldMissing row c) :
    (¬ FailsQuarterCheck (validateRow row rowNumber) ↔
      ∃ t, callToString (row.get "quarter") = some t ∧
        toUpperCase t ∈ ["Q1", "Q2", "Q3", "Q4"]) ∧
    (∀ t, callToString (row.get "quarter") = some t →
      toUpperCase t ∉ ["Q1", "Q2", "Q3", "Q4"] →
      validateRow row rowNumber = .error (.invalidQuarter (row.get "quarter"))) ∧
    (∀ r, validateRow row rowNumber = .ok r →
      r.quarter ∈ ["Q1", "Q2", "Q3", "Q4"] ∧
        ∃ t, callToString (row.get "quarter") = some t ∧ r.quarter = toUpperCase t) ∧
    (row.get "quarter" = .string "q3" → ¬ FailsQuarterCheck (validateRow row rowNumber)) ∧
    (row.get "quarter" ∈ [JSValue.string "Q5", .string "Q", .string " Q1"] →
      validateRow row rowNumber = .error (.invalidQuarter (row.get "quarter"))) := by
  have h0 := checkRequiredColumns_of_present row hown hreq
  have hpass : ¬ FailsQuarterCheck (validateRow row rowNumber) ↔
      ∃ t, callToString (row.get "quarter") = some t ∧
        toUpperCase t ∈ ["Q1", "Q2", "Q3", "Q4"] := by
    rw [failsQuarterCheck_iff row rowNumber h0]
    constructor
    · intro hne
      cases h1 : checkQuarter row with
      | error e => exact absurd ⟨e, h1⟩ hne
      | ok q =>
        obtain ⟨t, ht, htq, hmem⟩ := (checkQuarter_ok_iff row q).1 h1
        exact ⟨t, ht, htq ▸ hmem⟩
    · rintro ⟨t, ht, hmem⟩ ⟨e, he⟩
      rw [(checkQuarter_ok_iff row _).2 ⟨t, ht, rfl, hmem⟩] at he
      cases he
  have hrej : ∀ t, callToString (row.get "quarter") = some t →
      toUpperCase t ∉ ["Q1", "Q2", "Q3", "Q4"] →
      validateRow row rowNumber = .error (.invalidQuarter (row.get "quarter")) := by
    intro t ht hnot
    apply (validateRow_error_iff row rowNumber _).2
    refine Or.inr ⟨h0, Or.inl ?_⟩
    unfold checkQuarter
    rw [ht]
    have hnot2 : toUpperCase t ∉ validQuarters := hnot
    simp [hnot2]
  refine ⟨hpass, hrej, ?_, ?_, ?_⟩
  · intro r hr
    obtain ⟨t, ht, htq, hmem⟩ :=
      (checkQuarter_ok_iff row _).1 ((validateRow_ok_iff row rowNumber r).1 hr).2.1
    exact ⟨hmem, t, ht, htq.symm⟩
  · intro hq
    exact hpass.2 ⟨"q3", by rw [hq]; rfl, by decide⟩
  · intro hq
    simp only [List.mem_cons, List.mem_singleton, List.mem_nil_iff, or_false] at hq
    rcases hq with hq | hq | hq
    · exact hrej "Q5" (by rw [hq]; rfl) (by decide)
    · exact hrej "Q" (by rw [hq]; rfl) (by decide)
    · exact hrej " Q1" (by rw [hq]; rfl) (by decide)

/-- C5: a row that has all required fields, whose quarter `Q5` is not one of `Q1`..`Q4`,
and that has a column named `hasOwnProperty`.  It does not fail with the
invalid-quarter error: the call `row.hasOwnProperty(col)` of line 97 throws
`row.hasOwnProperty is not a function` before the quarter block is reached, so the run
does not fail the quarter check although the quarter is not a valid label.  The same
row without that column is rejected with
`Invalid quarter format: Q5. Must be Q1, Q2, Q3, or Q4`. -/
theorem bad_quarter_not_reported_for_shadowing_column :
    (∀ c ∈ requiredColumns, ¬ FieldMissing shadowedRowWithBadQuarter c) ∧
    shadowedRowWithBadQuarter.get "quarter" = .string "Q5" ∧
    toUpperCase "Q5" ∉ ["Q1", "Q2", "Q3", "Q4"] ∧
    validateRow shadowedRowWithBadQuarter 1 = .error (.notAFunction "row.hasOwnProperty") ∧
    ¬ FailsQuarterCheck (validateRow shadowedRowWithBadQuarter 1) ∧
    validateRow rowWithBadQuarter 1 = .error (.invalidQuarter (.string "Q5")) ∧
    (RowError.invalidQuarter (.string "Q5")).message =
      "Invalid quarter format: Q5. Must be Q1, Q2, Q3, or Q4" := by
  have h2 : validateRow shadowedRowWithBadQuarter 1 =
      .error (.notAFunction "row.hasOwnProperty") := rfl
  refine ⟨?_, rfl, by decide, rfl, ?_, rfl, rfl⟩
  · exact (missing_filter_eq_nil shadowedRowWithBadQuarter).1 rfl
  · rintro (⟨raw, h⟩ | ⟨v, h⟩) <;> rw [h2] at h <;> cases h

/-! ## C8: the status column -/

theorem callToString_eq_some (v : JSValue) (t : String) (h : callToString v = some t) :
    toStringJS v = t := by
  cases v <;> simp [callToString] at h <;> exact h

/-- A falsy cell never normalises to a valid status tag. -/
theorem falsy_not_status (v : JSValue) (t : String) (hf : truthy v = false)
    (ht : callToString v = some t) : toLowerCase (trim t) ∉ validStatuses := by
  have htext := callToString_eq_some v t ht
  cases v with
  | undefined => simp [callToString] at ht
  | null => simp [callToString] at ht
  | bool b =>
    cases b
    · subst htext
      decide
    · simp [truthy] at hf
  | number n =>
    cases n with
    | nan =>
      subst htext
      decide
    | infinity neg => simp [truthy] at hf
    | finite q =>
      have hq : q.num = 0 := by simpa [truthy] using hf
      have : t = "0" := by
        rw [← htext]
        simp [toStringJS, numberToString, hq]
      subst this
      decide
  | string s =>
    have hs : s = "" := by simpa [truthy] using hf
    subst hs
    subst htext
    decide

theorem normalizeStatus_of_truthy (v : JSValue) (h : truthy v = true) :
    normalizeStatus v =
      if toLowerCase (trim (toStringJS v)) ∈ validStatuses then
        some (toLowerCase (trim (toStringJS v)))
      else none := by
  have hne : v ≠ .string "" := by
    intro hv
    rw [hv] at h
    simp [truthy] at h
  unfold normalizeStatus
  simp [h, hne]

theorem normalizeStatus_of_falsy (v : JSValue) (h : truthy v = false) :
    normalizeStatus v = none := by
  unfold normalizeStatus
  simp [h]

/-- The status block returns the normalised text when that is a valid tag, and `null`
in every other case. -/
theorem normalizeStatus_spec (v : JSValue) :
    (normalizeStatus v = none ∨ normalizeStatus v = some "green" ∨
      normalizeStatus v = some "amber" ∨ normalizeStatus v = some "red") ∧
    (∀ t, callToString v = some t → toLowerCase (trim t) ∈ validStatuses →
      normalizeStatus v = some (toLowerCase (trim t))) ∧
    ((∀ t, callToString v = some t → toLowerCase (trim t) ∉ validStatuses) →
      normalizeStatus v = none) := by
  cases htr : truthy v with
  | false =>
    rw [normalizeStatus_of_falsy v htr]
    refine ⟨Or.inl rfl, ?_, fun _ => rfl⟩
    intro t ht hmem
    exact absurd hmem (falsy_not_status v t htr ht)
  | true =>
    rw [normalizeStatus_of_truthy v htr]
    have hcall : callToString v = some (toStringJS v) := by
      cases v <;> simp [truthy] at htr <;> rfl
    refine ⟨?_, ?_, ?_⟩
    · by_cases hmem : toLowerCase (trim (toStringJS v)) ∈ validStatuses
      · rw [if_pos hmem]
        simp only [validStatuses, List.mem_cons, List.mem_singleton, List.mem_nil_iff,
          or_false] at hmem
        rcases hmem with h | h | h <;> rw [h] <;> simp
      · rw [if_neg hmem]
        exact Or.inl rfl
    · intro t ht hmem
      rw [callToString_eq_some v t ht, if_pos hmem]
    · intro hall
      rw [if_neg (hall _ hcall)]

theorem get_congr (row other : RawRow) (col : String)
    (h : row.lookup col = other.lookup col) : row.get col = other.get col := by
  unfold RawRow.get
  rw [h]

theorem isMissingColumn_congr (row other : RawRow) (col : String)
    (h : row.lookup col = other.lookup col) :
    isMissingColumn row col = isMissingColumn other col := by
  unfold isMissingColumn RawRow.hasOwnProperty RawRow.get
  rw [h]

/-- Two rows that agree on every column other than `status` go through every throwing
block of `validateRow` alike. -/
theorem blocks_congr (row other : RawRow)
    (hsame : ∀ c, c ≠ "status" → row.lookup c = other.lookup c) :
    checkRequiredColumns row = checkRequiredColumns other ∧
    checkQuarter row = checkQuarter other ∧
    checkYear row = checkYear other ∧
    checkMetricValue row = checkMetricValue other ∧
    checkTargetValue row = checkTargetValue other ∧
    metricNameText row = metricNameText other := by
  have hq := get_congr row other "quarter" (hsame _ (by decide))
  have hy := get_congr row other "year" (hsame _ (by decide))
  have hn := get_congr row other "metric_name" (hsame _ (by decide))
  have hv := get_congr row other "metric_value" (hsame _ (by decide))
  have ht := get_congr row other "target_value" (hsame _ (by decide))
  refine ⟨?_, ?_, ?_, ?_, ?_, ?_⟩
  · have hfilter : requiredColumns.filter (isMissingColumn row) =
        requiredColumns.filter (isMissingColumn other) := by
      apply List.filter_congr
      intro c hc
      apply isMissingColumn_congr
      apply hsame
      intro hst
      rw [hst] at hc
      revert hc
      decide
    have hown : row.hasOwnProperty "hasOwnProperty" =
        other.hasOwnProperty "hasOwnProperty" := by
      unfold RawRow.hasOwnProperty
      rw [hsame _ (by decide)]
    cases h : other.hasOwnProperty "hasOwnProperty" with
    | true =>
      rw [checkRequiredColumns_shadowed row (hown.trans h),
        checkRequiredColumns_shadowed other h]
    | false =>
      rw [checkRequiredColumns_inherited row (hown.trans h),
        checkRequiredColumns_inherited other h, hfilter]
  · unfold checkQuarter
    rw [hq]
  · unfold checkYear
    rw [hy]
  · unfold checkMetricValue
    rw [hv]
  · unfold checkTargetValue
    rw [ht]
  · unfold metricNameText
    rw [hn]

/-- C8. The status column never makes `validateRow` fail: two rows that differ at most
in their status are accepted alike and rejected with the same error.  The returned
status is always `green`, `amber`, `red` or `null`; it is the trimmed lower-cased
status text when that is one of the three tags (` Green ` gives `green`), and `null`
when the status is absent or anything else. -/
theorem validateRow_status (row other : RawRow) (rowNumber : Nat)
    (hsame : ∀ c, c ≠ "status" → row.lookup c = other.lookup c) :
    ((∃ r, validateRow row rowNumber = .ok r) ↔ ∃ r, validateRow other rowNumber = .ok r) ∧
    (∀ e, validateRow row rowNumber = .error e ↔ validateRow other rowNumber = .error e) ∧
    (∀ r, validateRow row rowNumber = .ok r →
      (r.status = none ∨ r.status = some "green" ∨ r.status = some "amber" ∨
        r.status = some "red") ∧
      (∀ t, callToString (row.get "status") = some t →
        toLowerCase (trim t) ∈ ["green", "amber", "red"] →
        r.status = some (toLowerCase (trim t))) ∧
      (row.lookup "status" = none → r.status = none) ∧
      ((∀ t, callToString (row.get "status") = some t →
        toLowerCase (trim t) ∉ ["green", "amber", "red"]) → r.status = none) ∧
      (row.get "status" = .string " Green " → r.status = some "green")) := by
  obtain ⟨hR, hQ, hY, hM, hT, hN⟩ := blocks_congr row other hsame
  have hu := get_congr row other "metric_unit" (hsame _ (by decide))
  have hc := get_congr row other "category" (hsame _ (by decide))
  have hd := get_congr row other "description" (hsame _ (by decide))
  have hforward : ∀ (a b : RawRow),
      checkRequiredColumns a = checkRequiredColumns b → checkQuarter a = checkQuarter b →
      checkYear a = checkYear b → checkMetricValue a = checkMetricValue b →
      checkTargetValue a = checkTargetValue b → metricNameText a = metricNameText b →
      (∃ r, validateRow a rowNumber = .ok r) → ∃ r, validateRow b rowNumber = .ok r := by
    intro a b h1 h2 h3 h4 h5 h6
    rintro ⟨r, hr⟩
    obtain ⟨k0, k1, k2, k3, k4, k5, _⟩ := (validateRow_ok_iff a rowNumber r).1 hr
    refine ⟨{ r with
      status := normalizeStatus (b.get "status")
      metric_unit := optionalText (b.get "metric_unit")
      category := optionalText (b.get "category")
      description := optionalText (b.get "description") }, ?_⟩
    rw [validateRow_ok_iff]
    exact ⟨h1 ▸ k0, h2 ▸ k1, h3 ▸ k2, h4 ▸ k3, h5 ▸ k4, h6 ▸ k5, rfl, rfl, rfl, rfl⟩
  refine ⟨⟨hforward row other hR hQ hY hM hT hN,
    hforward other row hR.symm hQ.symm hY.symm hM.symm hT.symm hN.symm⟩, ?_, ?_⟩
  · intro e
    rw [validateRow_error_iff, validateRow_error_iff, hR, hQ, hY, hM, hT, hN]
  · intro r hr
    have hst : r.status = normalizeStatus (row.get "status") :=
      ((validateRow_ok_iff row rowNumber r).1 hr).2.2.2.2.2.2.1
    obtain ⟨s1, s2, s3⟩ := normalizeStatus_spec (row.get "status")
    rw [hst]
    refine ⟨s1, s2, ?_, s3, ?_⟩
    · intro hnone
      have : row.get "status" = .undefined := by
        unfold RawRow.get
        rw [hnone]
        rfl
      rw [this]
      rfl
    · intro hg
      rw [hg]
      rfl

theorem sampleRow_lookup (c : String) (hc : c ≠ "status") :
    sampleRow.lookup c = sampleRowNoStatus.lookup c := by
  have hb : (c == "status") = false := by simpa using hc
  simp only [sampleRow, sampleRowNoStatus, List.lookup, hb]

/-- Witness for C8: a row with the status ` Green ` and the same row without status. -/
theorem validateRow_status_witness :
    (∀ c, c ≠ "status" → sampleRow.lookup c = sampleRowNoStatus.lookup c) ∧
    ((∃ r, validateRow sampleRow 1 = .ok r) ↔ ∃ r, validateRow sampleRowNoStatus 1 = .ok r) ∧
    (∀ e, validateRow sampleRow 1 = .error e ↔ validateRow sampleRowNoStatus 1 = .error e) :=
  ⟨sampleRow_lookup,
    (validateRow_status sampleRow sampleRowNoStatus 1 sampleRow_lookup).1,
    (validateRow_status sampleRow sampleRowNoStatus 1 sampleRow_lookup).2.1⟩

/-! ## C2: valid rows are accepted -/

theorem not_missing_of_get (row : RawRow) (col : String) (v : JSValue)
    (h : row.get col = v) (hu : v ≠ .undefined) (he : v ≠ .string "") :
    ¬ FieldMissing row col := by
  unfold RawRow.get at h
  rintro (hm | hm | hm) <;> rw [hm] at h <;> simp at h
  · exact hu h.symm
  · exact hu h.symm
  · exact he h.symm

theorem toUpperCase_validQuarter (q : String) (h : q ∈ ["Q1", "Q2", "Q3", "Q4"]) :
    toUpperCase q = q := by
  simp only [List.mem_cons, List.mem_singleton, List.mem_nil_iff, or_false] at h
  rcases h with h | h | h | h <;> subst h <;> decide

/-- `parseInt` reads a year of the accepted range back from a spreadsheet number and from
its decimal text. -/
theorem parseInt_year (y : Int) (hlo : 2020 ≤ y) (hhi : y ≤ 2030) :
    parseInt (.number (.finite y)) = some y ∧
      parseInt (.string (String.mk (natDigits y.toNat))) = some y := by
  interval_cases y <;> exact ⟨rfl, rfl⟩

/-- C2, as stated, fails: a row with a valid quarter, a year in range, a metric name and a
numeric metric value is still rejected when its target value is not a number; a row
whose metric name cell is present but `null` is rejected by the `TypeError` of
`toString`; and a row with four valid required fields that has a column named
`hasOwnProperty` is rejected by the `TypeError` of the call `row.hasOwnProperty(col)`. -/
theorem valid_required_fields_rejected :
    (rowWithBadTarget.get "quarter" = .string "Q1" ∧
      rowWithBadTarget.get "year" = .string "2025" ∧
      rowWithBadTarget.get "metric_name" = .string "NRR" ∧
      rowWithBadTarget.get "metric_value" = .string "105" ∧
      parseFloatText "105" = .finite 105 ∧
      validateRow rowWithBadTarget 1 = .error (.invalidTargetValue (.string "abc")) ∧
      ¬ ∃ r, validateRow rowWithBadTarget 1 = .ok r) ∧
    (¬ FieldMissing rowWithNullName "metric_name" ∧
      validateRow rowWithNullName 1 = .error (.typeError "metric_name" .null)) ∧
    (shadowedValidRow.get "quarter" = .string "Q1" ∧
      shadowedValidRow.get "year" = .string "2025" ∧
      shadowedValidRow.get "metric_name" = .string "NRR" ∧
      shadowedValidRow.get "metric_value" = .string "5" ∧
      validateRow shadowedValidRow 1 = .error (.notAFunction "row.hasOwnProperty")) := by
  refine ⟨⟨rfl, rfl, rfl, rfl, rfl, rfl, ?_⟩, ⟨?_, rfl⟩, rfl, rfl, rfl, rfl, rfl⟩
  · rintro ⟨r, hr⟩
    have h : validateRow rowWithBadTarget 1 =
        .error (.invalidTargetValue (.string "abc")) := rfl
    rw [h] at hr
    cases hr
  · exact (missing_filter_eq_nil rowWithNullName).1 rfl "metric_name" (by decide)

/-- C2 (amended). A row that has no column named `hasOwnProperty`, whose quarter is one
of `Q1`..`Q4`, whose year is an integer of 2020..2030 (a spreadsheet number or its
decimal text), whose metric name is present and not `null`, whose metric value parses
as a number, and whose target value is falsy (absent, empty, ...) or parses as a
number, is accepted; the returned record carries the same quarter, the same year as an
integer, the trimmed metric name and the parsed metric value (the double `parseFloat`
gives). -/
theorem validateRow_accepts_valid_row (row : RawRow) (rowNumber : Nat)
    (q : String) (y : Int) (x : JSNumber)
    (hown : row.hasOwnProperty "hasOwnProperty" = false)
    (hq : row.get "quarter" = .string q ∧ q ∈ ["Q1", "Q2", "Q3", "Q4"])
    (hy : 2020 ≤ y ∧ y ≤ 2030 ∧
      (row.get "year" = .number (.finite y) ∨
        row.get "year" = .string (String.mk (natDigits y.toNat))))
    (hname : ¬ FieldMissing row "metric_name" ∧ row.get "metric_name" ≠ .null)
    (hv : parseFloat (row.get "metric_value") = x ∧ x ≠ .nan)
    (ht : truthy (row.get "target_value") = false ∨
      parseFloat (row.get "target_value") ≠ .nan) :
    ∃ r, validateRow row rowNumber = .ok r ∧ r.quarter = q ∧ r.year = y ∧
      r.metric_name = trim (toStringJS (row.get "metric_name")) ∧ r.metric_value = x := by
  obtain ⟨hqv, hqmem⟩ := hq
  obtain ⟨hlo, hhi, hyv⟩ := hy
  obtain ⟨hnm, hnn⟩ := hname
  obtain ⟨hvx, hxn⟩ := hv
  have hup := toUpperCase_validQuarter q hqmem
  have hqne : q ≠ "" := by
    intro hq0
    rw [hq0] at hqmem
    revert hqmem
    decide
  have hpy : parseInt (row.get "year") = some y := by
    rcases hyv with h | h <;> rw [h]
    · exact (parseInt_year y hlo hhi).1
    · exact (parseInt_year y hlo hhi).2
  -- no required field is missing
  have hreq : ∀ c ∈ requiredColumns, ¬ FieldMissing row c := by
    intro c hc
    simp only [requiredColumns, List.mem_cons, List.mem_singleton, List.mem_nil_iff,
      or_false] at hc
    rcases hc with hc | hc | hc | hc <;> subst hc
    · exact not_missing_of_get row _ _ hqv (by simp) (by simpa using hqne)
    · apply not_missing_of_get row _ _ rfl
      · intro hu
        rw [hu] at hpy
        cases hpy
      · intro hu
        rw [hu] at hpy
        cases hpy
    · exact hnm
    · apply not_missing_of_get row _ _ rfl
      · intro hu
        rw [hu] at hvx
        exact hxn (hvx ▸ rfl)
      · intro hu
        rw [hu] at hvx
        exact hxn (hvx ▸ rfl)
  have h0 := checkRequiredColumns_of_present row hown hreq
  have h1 : checkQuarter row = .ok q :=
    (checkQuarter_ok_iff row q).2 ⟨q, by rw [hqv]; rfl, hup, hqmem⟩
  have h2 : checkYear row = .ok y := (checkYear_ok_iff row y).2 ⟨hpy, hlo, hhi⟩
  have h3 : checkMetricValue row = .ok x := (checkMetricValue_ok_iff row x).2 ⟨hvx, hxn⟩
  have hcall : callToString (row.get "metric_name") =
      some (toStringJS (row.get "metric_name")) := by
    cases hm : row.get "metric_name" with
    | undefined =>
      exfalso
      apply hnm
      unfold RawRow.get at hm
      cases hl : row.lookup "metric_name" with
      | none => exact Or.inl hl
      | some v =>
        rw [hl] at hm
        simp at hm
        exact Or.inr (Or.inl (by rw [hl, hm]))
    | null => exact absurd hm hnn
    | bool b => rfl
    | number k => rfl
    | string s => rfl
  have h5 : metricNameText row = .ok (trim (toStringJS (row.get "metric_name"))) :=
    (metricNameText_ok_iff row _).2 ⟨_, hcall, rfl⟩
  obtain ⟨t, h4⟩ : ∃ t, checkTargetValue row = .ok t := by
    cases htr : truthy (row.get "target_value") with
    | false => exact ⟨none, (checkTargetValue_ok_iff row _).2 (Or.inl ⟨htr, rfl⟩)⟩
    | true =>
      have hp : parseFloat (row.get "target_value") ≠ .nan := by
        rcases ht with h | h
        · rw [htr] at h
          cases h
        · exact h
      exact ⟨_, (checkTargetValue_ok_iff row _).2 (Or.inr ⟨htr, hp, rfl⟩)⟩
  refine ⟨⟨q, y, trim (toStringJS (row.get "metric_name")), x,
    optionalText (row.get "metric_unit"), optionalText (row.get "category"),
    optionalText (row.get "description"), t, normalizeStatus (row.get "status")⟩,
    ?_, rfl, rfl, rfl, rfl⟩
  rw [validateRow_ok_iff]
  exact ⟨h0, h1, h2, h3, h4, h5, rfl, rfl, rfl, rfl⟩

/-- Witness for C2 (amended): the first row of the upload template. -/
theorem validateRow_accepts_valid_row_witness :
    templateRow.hasOwnProperty "hasOwnProperty" = false ∧
    (templateRow.get "quarter" = .string "Q1" ∧ "Q1" ∈ ["Q1", "Q2", "Q3", "Q4"]) ∧
    ((2020 : Int) ≤ 2024 ∧ (2024 : Int) ≤ 2030 ∧
      (templateRow.get "year" = .number (.finite (2024 : Int)) ∨
        templateRow.get "year" = .string (String.mk (natDigits (2024 : Int).toNat)))) ∧
    (¬ FieldMissing templateRow "metric_name" ∧ templateRow.get "metric_name" ≠ .null) ∧
    (parseFloat (templateRow.get "metric_value") = .finite 6520000 ∧
      JSNumber.finite 6520000 ≠ .nan) ∧
    (truthy (templateRow.get "target_value") = false ∨
      parseFloat (templateRow.get "target_value") ≠ .nan) ∧
    ∃ r, validateRow templateRow 1 = .ok r ∧ r.quarter = "Q1" ∧ r.year = 2024 ∧
      r.metric_name = trim (toStringJS (templateRow.get "metric_name")) ∧
      r.metric_value = .finite 6520000 :=
  ⟨rfl, ⟨rfl, by decide⟩, ⟨by decide, by decide, Or.inr rfl⟩,
    ⟨(missing_filter_eq_nil templateRow).1 rfl "metric_name" (by decide), by decide⟩,
    ⟨rfl, by decide⟩, Or.inr (by decide),
    validateRow_accepts_valid_row templateRow 1 "Q1" 2024 (.finite 6520000) rfl
      ⟨rfl, by decide⟩ ⟨by decide, by decide, Or.inr rfl⟩
      ⟨(missing_filter_eq_nil templateRow).1 rfl "metric_name" (by decide), by decide⟩
      ⟨rfl, by decide⟩ (Or.inr (by decide))⟩

/-! ## Doubles -/

theorem bitLength_zero (fuel : Nat) : bitLength fuel 0 = 0 := by
  cases fuel <;> simp [bitLength]

/-- With enough fuel, `bitLength` is the number of binary digits. -/
theorem bitLength_spec (fuel n : Nat) (h : n ≤ fuel) (hn : 0 < n) :
    0 < bitLength fuel n ∧ 2 ^ (bitLength fuel n - 1) ≤ n ∧ n < 2 ^ bitLength fuel n := by
  induction fuel generalizing n with
  | zero => omega
  | succ fuel ih =>
    have hne : n ≠ 0 := by omega
    simp only [bitLength, hne, if_false]
    by_cases hhalf : n / 2 = 0
    · have h1 : n = 1 := by omega
      subst h1
      simp [bitLength_zero]
    · obtain ⟨hpos, hlo, hhi⟩ := ih (n / 2) (by omega) (by omega)
      refine ⟨by omega, ?_, ?_⟩
      · have : bitLength fuel (n / 2) + 1 - 1 = (bitLength fuel (n / 2) - 1) + 1 := by omega
        rw [this, pow_succ]
        omega
      · rw [pow_succ]
        omega

theorem roundHalfEven_one (x : Nat) : roundHalfEven x 1 = x := by
  simp [roundHalfEven, Nat.mod_one]

theorem roundToDouble_ne_nan (q : ℚ) : roundToDouble q ≠ .nan := by
  intro hc
  simp only [roundToDouble] at hc
  split_ifs at hc

theorem applySign_cast (n : Int) : ((applySign (decide (n < 0)) n.natAbs : Int) : ℚ) = n := by
  unfold applySign
  by_cases h : n < 0
  · simp only [h, decide_True, if_true]
    have : ((n.natAbs : Int)) = -n := by omega
    rw [this]
    simp
  · simp only [h, decide_False, Bool.false_eq_true, if_false]
    have : ((n.natAbs : Int)) = n := by omega
    rw [this]

theorem applySign_mul (negative : Bool) (a b : Nat) :
    applySign negative (a * b) = applySign negative a * (b : Int) := by
  unfold applySign
  cases negative <;> simp

/-- An integer of absolute value below `2 ^ 53` is a double: rounding leaves it as it
is. -/
theorem roundToDouble_intCast (n : Int) (h : n.natAbs < 2 ^ 53) :
    roundToDouble (n : ℚ) = .finite (n : ℚ) := by
  by_cases h0 : n = 0
  · subst h0
    simp [roundToDouble]
  have hpos : 0 < n.natAbs := Int.natAbs_pos.2 h0
  obtain ⟨hb, hlo, hhi⟩ := bitLength_spec n.natAbs n.natAbs le_rfl hpos
  have hb53 : bitLength n.natAbs n.natAbs ≤ 53 := by
    by_contra hcon
    have : 2 ^ 53 ≤ 2 ^ (bitLength n.natAbs n.natAbs - 1) :=
      Nat.pow_le_pow_right (by norm_num) (by omega)
    omega
  have hone : bitLength 1 1 = 1 := rfl
  have hexp : binaryExponent n.natAbs 1 = (bitLength n.natAbs n.natAbs : Int) - 1 := by
    unfold binaryExponent
    simp only [hone]
    have hk : (0 : Int) ≤ (bitLength n.natAbs n.natAbs : Int) - ((1 : Nat) : Int) := by
      push_cast; omega
    have htn : ((bitLength n.natAbs n.natAbs : Int) - ((1 : Nat) : Int)).toNat =
        bitLength n.natAbs n.natAbs - 1 := by
      push_cast; omega
    simp only [hk, if_true, htn, one_mul]
    have : ¬ n.natAbs < 2 ^ (bitLength n.natAbs n.natAbs - 1) := by omega
    simp [this]
  have hnum : ((n : ℚ)).num = n := Rat.num_intCast n
  have hden : ((n : ℚ)).den = 1 := Rat.den_intCast n
  have he : doubleExponent n.natAbs 1 = -((53 - bitLength n.natAbs n.natAbs : Nat) : Int) := by
    unfold doubleExponent
    rw [hexp, max_eq_left (by omega)]
    omega
  have hm : roundedMantissa n.natAbs 1 (-((53 - bitLength n.natAbs n.natAbs : Nat) : Int)) =
      n.natAbs * 2 ^ (53 - bitLength n.natAbs n.natAbs) := by
    unfold roundedMantissa
    by_cases hz : 53 - bitLength n.natAbs n.natAbs = 0
    · simp [hz, roundHalfEven_one]
    · have hneg : ¬ (0 : Int) ≤ -((53 - bitLength n.natAbs n.natAbs : Nat) : Int) := by omega
      simp only [hneg, if_false, neg_neg, Int.toNat_ofNat, roundHalfEven_one]
  unfold roundToDouble
  simp only [hnum, hden, h0, if_false, he, hm]
  have hno : ¬ ((971 : Int) < -((53 - bitLength n.natAbs n.natAbs : Nat) : Int) ∨
      (-((53 - bitLength n.natAbs n.natAbs : Nat) : Int) = 971 ∧
        2 ^ 53 ≤ n.natAbs * 2 ^ (53 - bitLength n.natAbs n.natAbs))) := by
    rintro (h1 | ⟨h1, _⟩) <;> omega
  simp only [hno, if_false]
  congr 1
  unfold scale2
  by_cases hz : 53 - bitLength n.natAbs n.natAbs = 0
  · simp only [hz, Nat.cast_zero, neg_zero, le_refl, if_true, Int.toNat_zero, pow_zero,
      mul_one]
    exact applySign_cast n
  · have hneg : ¬ (0 : Int) ≤ -((53 - bitLength n.natAbs n.natAbs : Nat) : Int) := by omega
    simp only [hneg, if_false, neg_neg, Int.toNat_ofNat]
    rw [Rat.mkRat_eq_div, applySign_mul]
    have h2 : ((2 ^ (53 - bitLength n.natAbs n.natAbs) : Nat) : ℚ) ≠ 0 := by positivity
    rw [div_eq_iff h2]
    push_cast
    rw [applySign_cast]

theorem two_zpow_pos (e : Int) : (0 : ℚ) < (2 : ℚ) ^ e :=
  zpow_pos (by norm_num) e

theorem natCast_two_pow (n : Nat) : ((2 ^ n : Nat) : ℚ) = (2 : ℚ) ^ (n : Int) := by
  push_cast
  rw [zpow_natCast]

theorem scale2_eq (m e : Int) : scale2 m e = (m : ℚ) * (2 : ℚ) ^ e := by
  unfold scale2
  by_cases h : 0 ≤ e
  · rw [if_pos h]
    obtain ⟨n, rfl⟩ := Int.eq_ofNat_of_zero_le h
    simp [zpow_natCast]
  · rw [if_neg h, Rat.mkRat_eq_div]
    obtain ⟨n, hn⟩ : ∃ n : Nat, e = -(n : Int) := ⟨(-e).toNat, by omega⟩
    subst hn
    simp [zpow_neg, zpow_natCast, div_eq_mul_inv]

/-- The test of `binaryExponent` compares the rational with `2 ^ k`. -/
theorem below_iff (N D : Nat) (hD : 0 < D) (k : Int) :
    (if 0 ≤ k then decide (N < D * 2 ^ k.toNat) else decide (N * 2 ^ (-k).toNat < D)) = true ↔
      (N : ℚ) / D < (2 : ℚ) ^ k := by
  have hDq : (0 : ℚ) < D := by exact_mod_cast hD
  by_cases h : 0 ≤ k
  · obtain ⟨n, rfl⟩ := Int.eq_ofNat_of_zero_le h
    simp only [h, if_true, Int.toNat_ofNat, decide_eq_true_eq, zpow_natCast]
    rw [div_lt_iff₀ hDq]
    constructor
    · intro hlt
      have : ((N : ℕ) : ℚ) < ((D * 2 ^ n : ℕ) : ℚ) := by exact_mod_cast hlt
      push_cast at this
      linarith
    · intro hlt
      have : ((N : ℕ) : ℚ) < ((D * 2 ^ n : ℕ) : ℚ) := by
        push_cast
        linarith
      exact_mod_cast this
  · obtain ⟨n, hn⟩ : ∃ n : Nat, k = -(n : Int) := ⟨(-k).toNat, by omega⟩
    subst hn
    simp only [h, if_false, neg_neg, Int.toNat_ofNat, decide_eq_true_eq, zpow_neg,
      zpow_natCast]
    have hp : (0 : ℚ) < (2 : ℚ) ^ n := by positivity
    rw [div_lt_iff₀ hDq, inv_mul_eq_div, lt_div_iff₀ hp]
    constructor
    · intro hlt
      have : ((N * 2 ^ n : ℕ) : ℚ) < ((D : ℕ) : ℚ) := by exact_mod_cast hlt
      push_cast at this
      linarith
    · intro hlt
      have : ((N * 2 ^ n : ℕ) : ℚ) < ((D : ℕ) : ℚ) := by
        push_cast
        linarith
      exact_mod_cast this

theorem bitLength_bounds (n : Nat) (hn : 0 < n) :
    (2 : ℚ) ^ ((bitLength n n : Int) - 1) ≤ n ∧ (n : ℚ) < (2 : ℚ) ^ (bitLength n n : Int) := by
  obtain ⟨hb, hlo, hhi⟩ := bitLength_spec n n le_rfl hn
  constructor
  · have h1 : ((bitLength n n : Int) - 1) = ((bitLength n n - 1 : Nat) : Int) := by omega
    rw [h1, ← natCast_two_pow]
    exact_mod_cast hlo
  · rw [← natCast_two_pow]
    exact_mod_cast hhi

/-- The binary exponent of a positive rational is the exponent of its binade. -/
theorem binaryExponent_spec (N D : Nat) (hN : 0 < N) (hD : 0 < D) :
    (2 : ℚ) ^ binaryExponent N D ≤ (N : ℚ) / D ∧
      (N : ℚ) / D < (2 : ℚ) ^ (binaryExponent N D + 1) := by
  have hDq : (0 : ℚ) < D := by exact_mod_cast hD
  have hNq : (0 : ℚ) < N := by exact_mod_cast hN
  obtain ⟨hNlo, hNhi⟩ := bitLength_bounds N hN
  obtain ⟨hDlo, hDhi⟩ := bitLength_bounds D hD
  set a : Int := (bitLength N N : Int) with ha
  set b : Int := (bitLength D D : Int) with hb
  have hlower : (2 : ℚ) ^ (a - b - 1) < (N : ℚ) / D := by
    rw [lt_div_iff₀ hDq]
    have h1 : (2 : ℚ) ^ (a - b - 1) * (2 : ℚ) ^ b = (2 : ℚ) ^ (a - 1) := by
      rw [← zpow_add₀ (by norm_num : (2 : ℚ) ≠ 0)]
      congr 1
      ring
    calc (2 : ℚ) ^ (a - b - 1) * D < (2 : ℚ) ^ (a - b - 1) * (2 : ℚ) ^ b :=
          mul_lt_mul_of_pos_left hDhi (two_zpow_pos _)
      _ = (2 : ℚ) ^ (a - 1) := h1
      _ ≤ N := hNlo
  have hupper : (N : ℚ) / D < (2 : ℚ) ^ (a - b + 1) := by
    rw [div_lt_iff₀ hDq]
    have h1 : (2 : ℚ) ^ (a - b + 1) * (2 : ℚ) ^ (b - 1) = (2 : ℚ) ^ a := by
      rw [← zpow_add₀ (by norm_num : (2 : ℚ) ≠ 0)]
      congr 1
      ring
    calc (N : ℚ) < (2 : ℚ) ^ a := hNhi
      _ = (2 : ℚ) ^ (a - b + 1) * (2 : ℚ) ^ (b - 1) := h1.symm
      _ ≤ (2 : ℚ) ^ (a - b + 1) * D :=
          mul_le_mul_of_nonneg_left hDlo (le_of_lt (two_zpow_pos _))
  have hiff := below_iff N D hD (a - b)
  unfold binaryExponent
  simp only []
  by_cases htest : (if 0 ≤ a - b then decide (N < D * 2 ^ (a - b).toNat)
      else decide (N * 2 ^ (-(a - b)).toNat < D)) = true
  · rw [if_pos htest]
    refine ⟨le_of_lt hlower, ?_⟩
    have := hiff.1 htest
    rwa [sub_add_cancel]
  · rw [if_neg htest]
    refine ⟨?_, hupper⟩
    have := mt hiff.2 htest
    exact not_lt.1 this

/-- Rounding a quotient to an integer moves it by at most one half. -/
theorem roundHalfEven_spec (N D : Nat) (hD : 0 < D) :
    |(roundHalfEven N D : ℚ) - (N : ℚ) / D| ≤ 1 / 2 := by
  have hDq : (0 : ℚ) < D := by exact_mod_cast hD
  have hdiv : ((N : ℕ) : ℚ) = (D : ℚ) * ((N / D : ℕ) : ℚ) + ((N % D : ℕ) : ℚ) := by
    exact_mod_cast (Nat.div_add_mod N D).symm
  have hmod : ((N % D : ℕ) : ℚ) < D := by exact_mod_cast Nat.mod_lt N hD
  have hq : (N : ℚ) / D = ((N / D : ℕ) : ℚ) + ((N % D : ℕ) : ℚ) / D := by
    rw [eq_comm, ← sub_eq_zero]
    field_simp
    rw [hdiv]
    ring
  have hrest : (0 : ℚ) ≤ ((N % D : ℕ) : ℚ) / D := by positivity
  unfold roundHalfEven
  simp only []
  split_ifs with h
  · have h2 : (D : ℚ) ≤ 2 * ((N % D : ℕ) : ℚ) := by
      rcases h with h | ⟨h, _⟩
      · exact_mod_cast le_of_lt h
      · exact_mod_cast le_of_eq h.symm
    have h3 : (1 : ℚ) / 2 ≤ ((N % D : ℕ) : ℚ) / D := by
      rw [le_div_iff₀ hDq]
      linarith
    have h4 : ((N % D : ℕ) : ℚ) / D < 1 := by
      rw [div_lt_iff₀ hDq]
      linarith
    rw [hq, abs_le]
    push_cast
    constructor <;> linarith
  · have h2 : 2 * ((N % D : ℕ) : ℚ) ≤ D := by
      have : 2 * (N % D) ≤ D := by
        by_contra hc
        exact h (Or.inl (by omega))
      exact_mod_cast this
    have h3 : ((N % D : ℕ) : ℚ) / D ≤ 1 / 2 := by
      rw [div_le_iff₀ hDq]
      linarith
    rw [hq, abs_le]
    constructor <;> linarith

/-- The rounded mantissa is within one half of the rational divided by `2 ^ e`. -/
theorem roundedMantissa_spec (N D : Nat) (hD : 0 < D) (e : Int) :
    |(roundedMantissa N D e : ℚ) - (N : ℚ) / D / (2 : ℚ) ^ e| ≤ 1 / 2 := by
  have hDq : (0 : ℚ) < D := by exact_mod_cast hD
  unfold roundedMantissa
  by_cases h : 0 ≤ e
  · rw [if_pos h]
    obtain ⟨n, rfl⟩ := Int.eq_ofNat_of_zero_le h
    have hp : 0 < D * 2 ^ n := Nat.mul_pos hD (by positivity)
    have := roundHalfEven_spec N (D * 2 ^ n) hp
    simp only [Int.toNat_ofNat, zpow_natCast]
    rw [div_div]
    push_cast at this
    exact this
  · rw [if_neg h]
    obtain ⟨n, hn⟩ : ∃ n : Nat, e = -(n : Int) := ⟨(-e).toNat, by omega⟩
    subst hn
    have := roundHalfEven_spec (N * 2 ^ n) D hD
    simp only [neg_neg, Int.toNat_ofNat, zpow_neg, zpow_natCast]
    push_cast at this
    have he : (N : ℚ) / D / ((2 : ℚ) ^ n)⁻¹ = (N : ℚ) * 2 ^ n / D := by
      field_simp
    rw [he]
    exact this

/-- An integer within one half of a rational is a nearest integer to it. -/
theorem nearest_integer (m : Int) (t : ℚ) (h : |(m : ℚ) - t| ≤ 1 / 2) (k : Int) :
    |(m : ℚ) - t| ≤ |(k : ℚ) - t| := by
  by_cases hk : k = m
  · rw [hk]
  · have h1 : (1 : ℚ) ≤ |(k : ℚ) - m| := by
      have : (1 : Int) ≤ |k - m| := Int.one_le_abs (sub_ne_zero.2 hk)
      have h2 : ((1 : Int) : ℚ) ≤ ((|k - m| : Int) : ℚ) := by exact_mod_cast this
      push_cast at h2
      exact h2
    have h3 : |(k : ℚ) - m| ≤ |(k : ℚ) - t| + |(m : ℚ) - t| := by
      have := abs_sub_le (k : ℚ) t m
      rwa [abs_sub_comm t (m : ℚ)] at this
    linarith

/-- Scaling an integer inequality by a power of two. -/
theorem abs_scaled (m : Int) (t : ℚ) (e : Int) :
    |(m : ℚ) * (2 : ℚ) ^ e - t| = (2 : ℚ) ^ e * |(m : ℚ) - t / (2 : ℚ) ^ e| := by
  have hp := two_zpow_pos e
  rw [← abs_of_pos hp, ← abs_mul, abs_of_pos hp]
  congr 1
  field_simp

/-- The rounded mantissa of a positive rational does not exceed `2 ^ 53`. -/
theorem roundedMantissa_le (N D : Nat) (hN : 0 < N) (hD : 0 < D) :
    roundedMantissa N D (doubleExponent N D) ≤ 2 ^ 53 := by
  obtain ⟨_, hhi⟩ := binaryExponent_spec N D hN hD
  have hround := roundedMantissa_spec N D hD (doubleExponent N D)
  have he : binaryExponent N D - 52 ≤ doubleExponent N D := le_max_left _ _
  have hp := two_zpow_pos (doubleExponent N D)
  have hlt : (N : ℚ) / D / (2 : ℚ) ^ doubleExponent N D < 2 ^ 53 := by
    rw [div_lt_iff₀ hp]
    have h1 : (2 : ℚ) ^ (binaryExponent N D + 1) ≤
        (2 : ℚ) ^ (53 : Int) * (2 : ℚ) ^ doubleExponent N D := by
      rw [← zpow_add₀ (by norm_num : (2 : ℚ) ≠ 0)]
      exact zpow_le_zpow_right₀ (by norm_num) (by omega)
    have h2 : (2 : ℚ) ^ (53 : Int) = 2 ^ 53 := by norm_num
    rw [h2] at h1
    linarith
  have h3 : (roundedMantissa N D (doubleExponent N D) : ℚ) < 2 ^ 53 + 1 := by
    have := (abs_le.1 hround).2
    linarith
  have h4 : ((roundedMantissa N D (doubleExponent N D) : ℕ) : ℚ) <
      ((9007199254740993 : ℕ) : ℚ) := by
    norm_num at h3 ⊢
    exact h3
  have h5 : roundedMantissa N D (doubleExponent N D) < 9007199254740993 := by
    exact_mod_cast h4
  omega

/-- The rounded value of a positive rational is a double unless it overflows. -/
theorem rounded_isDouble (N D : Nat) (hN : 0 < N) (hD : 0 < D)
    (hfin : ¬ (971 < doubleExponent N D ∨
      (doubleExponent N D = 971 ∧ 2 ^ 53 ≤ roundedMantissa N D (doubleExponent N D)))) :
    IsDouble ((roundedMantissa N D (doubleExponent N D) : ℚ) * (2 : ℚ) ^ doubleExponent N D) := by
  have hle := roundedMantissa_le N D hN hD
  have hlow : -1074 ≤ doubleExponent N D := le_max_right _ _
  have hhigh : doubleExponent N D ≤ 971 := by
    by_contra hc
    exact hfin (Or.inl (by omega))
  by_cases hm : roundedMantissa N D (doubleExponent N D) < 2 ^ 53
  · exact ⟨(roundedMantissa N D (doubleExponent N D) : Int), doubleExponent N D,
      by simpa using hm, hlow, hhigh, by push_cast; rfl⟩
  · have hmeq : roundedMantissa N D (doubleExponent N D) = 2 ^ 53 := by omega
    have hne : doubleExponent N D ≠ 971 := fun h => hfin (Or.inr ⟨h, by omega⟩)
    refine ⟨2 ^ 52, doubleExponent N D + 1, by decide, by omega, by omega, ?_⟩
    rw [hmeq, zpow_add₀ (by norm_num : (2 : ℚ) ≠ 0)]
    push_cast
    ring

/-- No double is nearer to a positive rational than its rounded value. -/
theorem rounded_nearest (N D : Nat) (hN : 0 < N) (hD : 0 < D) (y : ℚ) (hy : IsDouble y) :
    |(roundedMantissa N D (doubleExponent N D) : ℚ) * (2 : ℚ) ^ doubleExponent N D -
        (N : ℚ) / D| ≤ |y - (N : ℚ) / D| := by
  obtain ⟨hlo, _⟩ := binaryExponent_spec N D hN hD
  have hround := roundedMantissa_spec N D hD (doubleExponent N D)
  set e := doubleExponent N D with he
  set m := roundedMantissa N D e with hm
  set t : ℚ := (N : ℚ) / D with ht
  have hp := two_zpow_pos e
  have hnear : ∀ k : Int, |(m : ℚ) * (2 : ℚ) ^ e - t| ≤ |(k : ℚ) * (2 : ℚ) ^ e - t| := by
    intro k
    have h1 := abs_scaled (m : Int) t e
    have h2 := abs_scaled k t e
    have h3 := nearest_integer (m : Int) (t / (2 : ℚ) ^ e) (by exact_mod_cast hround) k
    push_cast at h1 h3
    rw [h1, h2]
    exact mul_le_mul_of_nonneg_left h3 (le_of_lt hp)
  obtain ⟨m', e', hm', he', _, rfl⟩ := hy
  by_cases hcase : e ≤ e'
  · obtain ⟨n, hn⟩ : ∃ n : Nat, e' = e + (n : Int) := ⟨(e' - e).toNat, by omega⟩
    have h1 : (m' : ℚ) * (2 : ℚ) ^ e' = ((m' * 2 ^ n : Int) : ℚ) * (2 : ℚ) ^ e := by
      rw [hn, zpow_add₀ (by norm_num : (2 : ℚ) ≠ 0), zpow_natCast]
      push_cast
      ring
    rw [h1]
    exact hnear _
  · have hE : e = binaryExponent N D - 52 := by
      have : e = max (binaryExponent N D - 52) (-1074) := rfl
      omega
    have hbig : (2 : ℚ) ^ (52 : Int) * (2 : ℚ) ^ e ≤ t := by
      rw [← zpow_add₀ (by norm_num : (2 : ℚ) ≠ 0)]
      have : (52 : Int) + e = binaryExponent N D := by omega
      rw [this]
      exact hlo
    have hm'q : (m' : ℚ) < 2 ^ 53 := by
      have h1 : m' < 2 ^ 53 := by omega
      exact_mod_cast h1
    have hp' := two_zpow_pos e'
    have hsmall : (m' : ℚ) * (2 : ℚ) ^ e' < (2 : ℚ) ^ (52 : Int) * (2 : ℚ) ^ e := by
      have h1 : (m' : ℚ) * (2 : ℚ) ^ e' < 2 ^ 53 * (2 : ℚ) ^ e' :=
        mul_lt_mul_of_pos_right hm'q hp'
      have h2 : (2 : ℚ) ^ 53 * (2 : ℚ) ^ e' ≤ (2 : ℚ) ^ (52 : Int) * (2 : ℚ) ^ e := by
        have h3 : (2 : ℚ) ^ 53 = (2 : ℚ) ^ (53 : Int) := by norm_num
        rw [h3, ← zpow_add₀ (by norm_num : (2 : ℚ) ≠ 0),
          ← zpow_add₀ (by norm_num : (2 : ℚ) ≠ 0)]
        exact zpow_le_zpow_right₀ (by norm_num) (by omega)
      linarith
    have h4 := hnear (2 ^ 52)
    have h5 : ((2 ^ 52 : Int) : ℚ) = (2 : ℚ) ^ (52 : Int) := by norm_num
    rw [h5, abs_of_nonpos (by linarith : (2 : ℚ) ^ (52 : Int) * (2 : ℚ) ^ e - t ≤ 0)] at h4
    rw [abs_of_nonpos (by linarith : (m' : ℚ) * (2 : ℚ) ^ e' - t ≤ 0)]
    linarith

theorem isDouble_neg (x : ℚ) (h : IsDouble x) : IsDouble (-x) := by
  obtain ⟨m, e, hm, h1, h2, rfl⟩ := h
  exact ⟨-m, e, by simpa using hm, h1, h2, by push_cast; ring⟩

theorem isDouble_zero : IsDouble 0 :=
  ⟨0, 0, by decide, by decide, by decide, by simp⟩

/-- A rational is its sign times the quotient of the numerator's magnitude and the
denominator. -/
theorem rat_eq_signed (q : ℚ) :
    q = (if q.num < 0 then -1 else 1) * ((q.num.natAbs : ℚ) / q.den) := by
  have h := Rat.num_div_den q
  by_cases hneg : q.num < 0
  · rw [if_pos hneg]
    have h1 : ((q.num.natAbs : ℕ) : ℚ) = -((q.num : Int) : ℚ) := by
      have : ((q.num.natAbs : ℕ) : Int) = -q.num := by omega
      rw [← Int.cast_natCast, this, Int.cast_neg]
    rw [h1]
    nth_rewrite 1 [← h]
    ring
  · rw [if_neg hneg]
    have h1 : ((q.num.natAbs : ℕ) : ℚ) = ((q.num : Int) : ℚ) := by
      have : ((q.num.natAbs : ℕ) : Int) = q.num := by omega
      rw [← Int.cast_natCast, this]
    rw [h1, one_mul]
    exact h.symm

/-- Rounding to a double gives a nearest double: a finite result is a double, and no
double is nearer to the rational than it. -/
theorem roundToDouble_nearest (q x : ℚ) (h : roundToDouble q = .finite x) :
    IsDouble x ∧ ∀ y, IsDouble y → |x - q| ≤ |y - q| := by
  by_cases h0 : q.num = 0
  · have hq : q = 0 := Rat.zero_of_num_zero h0
    subst hq
    simp only [roundToDouble, Rat.num_zero, if_true, JSNumber.finite.injEq] at h
    subst h
    exact ⟨isDouble_zero, fun y _ => by simp⟩
  have hN : 0 < q.num.natAbs := Int.natAbs_pos.2 h0
  have hD : 0 < q.den := q.den_pos
  simp only [roundToDouble, h0, if_false] at h
  split_ifs at h with hover
  simp only [JSNumber.finite.injEq] at h
  have hdouble := rounded_isDouble q.num.natAbs q.den hN hD hover
  have hnear := rounded_nearest q.num.natAbs q.den hN hD
  have hq := rat_eq_signed q
  rw [scale2_eq] at h
  by_cases hneg : q.num < 0
  · rw [if_pos hneg] at hq
    simp only [applySign, hneg, decide_True, if_true] at h
    have hx : x = -((roundedMantissa q.num.natAbs q.den (doubleExponent q.num.natAbs q.den) : ℚ) *
        (2 : ℚ) ^ doubleExponent q.num.natAbs q.den) := by
      rw [← h]
      push_cast
      ring
    refine ⟨hx ▸ isDouble_neg _ hdouble, fun y hy => ?_⟩
    have h1 := hnear (-y) (isDouble_neg y hy)
    have h2 : |x - q| = |(roundedMantissa q.num.natAbs q.den
        (doubleExponent q.num.natAbs q.den) : ℚ) *
        (2 : ℚ) ^ doubleExponent q.num.natAbs q.den - (q.num.natAbs : ℚ) / q.den| := by
      rw [hx, ← abs_neg]
      congr 1
      linarith
    have h3 : |y - q| = |-y - (q.num.natAbs : ℚ) / q.den| := by
      rw [← abs_neg]
      congr 1
      linarith
    rw [h2, h3]
    exact h1
  · rw [if_neg hneg, one_mul] at hq
    simp only [applySign, hneg, decide_False, Bool.false_eq_true, if_false] at h
    have hx : x = (roundedMantissa q.num.natAbs q.den (doubleExponent q.num.natAbs q.den) : ℚ) *
        (2 : ℚ) ^ doubleExponent q.num.natAbs q.den := by
      rw [← h]
      push_cast
      ring
    refine ⟨hx ▸ hdouble, fun y hy => ?_⟩
    have h1 := hnear y hy
    rw [hx]
    rw [← hq] at h1
    exact h1

/-- Rounding overflows to an infinity only from `(2 ^ 53 - 1 / 2) * 2 ^ 971` on, the
midpoint between the largest double and `2 ^ 1024`; the infinity has the sign of the
rational. -/
theorem roundToDouble_infinity (q : ℚ) (negative : Bool)
    (h : roundToDouble q = .infinity negative) :
    negative = decide (q < 0) ∧ (2 ^ 53 - 1 / 2) * (2 : ℚ) ^ (971 : Int) ≤ |q| := by
  by_cases h0 : q.num = 0
  · simp only [roundToDouble, h0, if_true] at h
    cases h
  have hN : 0 < q.num.natAbs := Int.natAbs_pos.2 h0
  have hD : 0 < q.den := q.den_pos
  simp only [roundToDouble, h0, if_false] at h
  split_ifs at h with hover
  simp only [JSNumber.infinity.injEq] at h
  have hsign : decide (q.num < 0) = decide (q < 0) := by
    simp only [Rat.num_neg]
  refine ⟨by rw [← h, hsign], ?_⟩
  have habs : |q| = (q.num.natAbs : ℚ) / q.den := by
    have hq := rat_eq_signed q
    have hnn : (0 : ℚ) ≤ (q.num.natAbs : ℚ) / q.den := by positivity
    by_cases hneg : q.num < 0
    · rw [if_pos hneg] at hq
      rw [abs_of_nonpos (by linarith)]
      linarith
    · rw [if_neg hneg, one_mul] at hq
      rw [abs_of_nonneg (by linarith)]
      exact hq
  rw [habs]
  obtain ⟨hlo, _⟩ := binaryExponent_spec q.num.natAbs q.den hN hD
  have hround := roundedMantissa_spec q.num.natAbs q.den hD
    (doubleExponent q.num.natAbs q.den)
  rcases hover with hbig | ⟨he, hm⟩
  · have hE : (1023 : Int) < binaryExponent q.num.natAbs q.den := by
      have : doubleExponent q.num.natAbs q.den =
          max (binaryExponent q.num.natAbs q.den - 52) (-1074) := rfl
      omega
    have h1 : (2 : ℚ) ^ (1024 : Int) ≤ (2 : ℚ) ^ binaryExponent q.num.natAbs q.den :=
      zpow_le_zpow_right₀ (by norm_num) (by omega)
    have h2 : (2 ^ 53 - 1 / 2) * (2 : ℚ) ^ (971 : Int) ≤ (2 : ℚ) ^ (1024 : Int) := by
      have h3 : (2 : ℚ) ^ (1024 : Int) = 2 ^ 53 * (2 : ℚ) ^ (971 : Int) := by
        have : (2 : ℚ) ^ 53 = (2 : ℚ) ^ (53 : Int) := by norm_num
        rw [this, ← zpow_add₀ (by norm_num : (2 : ℚ) ≠ 0)]
        norm_num
      rw [h3]
      have hp := two_zpow_pos 971
      nlinarith
    linarith
  · rw [he] at hround
    have hp := two_zpow_pos 971
    have h1 : (2 : ℚ) ^ 53 ≤ (roundedMantissa q.num.natAbs q.den
        (doubleExponent q.num.natAbs q.den) : ℚ) := by
      exact_mod_cast hm
    rw [he] at h1
    have h2 := (abs_le.1 hround).2
    have h3 : (2 : ℚ) ^ 53 - 1 / 2 ≤ (q.num.natAbs : ℚ) / q.den / (2 : ℚ) ^ (971 : Int) := by
      linarith
    rw [le_div_iff₀ hp] at h3
    exact h3

/-! ## Plain decimal numerals -/

theorem digitValue_digitChar (d : Fin 10) : digitValue 10 (digitChar d) = some d.val := by
  revert d; decide

theorem isWhiteSpace_digitChar (d : Fin 10) : isWhiteSpace (digitChar d) = false := by
  revert d; decide

theorem splitSign_digitChar (d : Fin 10) (rest : List Char) :
    splitSign (digitChar d :: rest) = (false, digitChar d :: rest) := by
  fin_cases d <;> rfl

theorem infinity_digitChar (d : Fin 10) (rest : List Char) :
    ['I', 'n', 'f', 'i', 'n', 'i', 't', 'y'].isPrefixOf (digitChar d :: rest) = false := by
  fin_cases d <;> rfl

theorem splitDigits_digitChars (ds : List (Fin 10)) (rest : List Char)
    (hrest : ∀ c r, rest = c :: r → digitValue 10 c = none) :
    splitDigits 10 (ds.map digitChar ++ rest) = (ds.map (fun d => d.val), rest) := by
  induction ds with
  | nil =>
    cases rest with
    | nil => rfl
    | cons c r => simp [splitDigits, hrest c r rfl]
  | cons d ds ih =>
    simp [splitDigits, digitValue_digitChar, ih]

theorem digitsToNat_foldl (ds : List (Fin 10)) (acc : Nat) :
    (ds.map (fun d => d.val)).foldl (fun a d => a * 10 + d) acc =
      acc * 10 ^ ds.length + digitsValue ds := by
  induction ds generalizing acc with
  | nil => simp [digitsValue]
  | cons d ds ih =>
    simp only [List.map_cons, List.foldl_cons, ih, digitsValue, List.length_cons]
    ring

theorem digitsToNat_digits (ws fs : List (Fin 10)) :
    digitsToNat 10 (ws.map (fun d => d.val) ++ fs.map (fun d => d.val)) =
      digitsValue ws * 10 ^ fs.length + digitsValue fs := by
  unfold digitsToNat
  rw [List.foldl_append, digitsToNat_foldl, digitsToNat_foldl]
  simp

theorem scale10_neg_length (m : Int) (k : Nat) :
    scale10 m (0 - (k : Int)) = (m : ℚ) / 10 ^ k := by
  unfold scale10
  by_cases hk : k = 0
  · subst hk
    simp
  · have hneg : ¬ (0 : Int) ≤ 0 - (k : Int) := by omega
    rw [if_neg hneg, Rat.mkRat_eq_div]
    have : (-(0 - (k : Int))).toNat = k := by omega
    rw [this]
    push_cast
    rfl

theorem splitFraction_tail (f : List (Fin 10)) :
    splitFraction (if f.isEmpty then [] else '.' :: f.map digitChar) =
      (f.map (fun d => d.val), []) := by
  cases f with
  | nil => rfl
  | cons d ds =>
    have h := splitDigits_digitChars (d :: ds) [] (by intro c r h; cases h)
    simp only [List.append_nil] at h
    simp only [List.isEmpty_cons, Bool.false_eq_true, if_false, splitFraction]
    exact h

theorem tail_not_digit (f : List (Fin 10)) (c : Char) (r : List Char)
    (h : (if f.isEmpty then [] else '.' :: f.map digitChar) = c :: r) :
    digitValue 10 c = none := by
  cases f with
  | nil => simp at h
  | cons d ds =>
    simp at h
    rw [← h.1]
    decide

theorem signed_text (n : Numeral) (d : Fin 10) (ws : List (Fin 10))
    (hw : n.whole = d :: ws) :
    splitSign (trimStart n.text.data) =
      (n.negative, digitChar d :: (ws.map digitChar ++
        (if n.frac.isEmpty then [] else '.' :: n.frac.map digitChar))) := by
  obtain ⟨neg, w, f⟩ := n
  simp only at hw
  subst hw
  cases neg
  · simp only [Numeral.text, trimStart, Bool.false_eq_true, if_false, List.nil_append,
      List.map_cons, List.cons_append, List.dropWhile_cons, isWhiteSpace_digitChar,
      splitSign_digitChar]
  · have hminus : isWhiteSpace '-' = false := by decide
    simp only [Numeral.text, trimStart, if_true, List.map_cons, List.cons_append,
      List.nil_append, List.dropWhile_cons, hminus, Bool.false_eq_true, if_false, splitSign]

/-- `parseFloat` reads a plain decimal numeral as the double nearest to the number it
denotes. -/
theorem parseFloatText_numeral (n : Numeral) (hw : n.whole ≠ []) :
    parseFloatText n.text = roundToDouble n.value := by
  obtain ⟨d, ws, hws⟩ := List.exists_cons_of_ne_nil hw
  have hsigned := signed_text n d ws hws
  have hwhole : splitDigits 10 (digitChar d :: (ws.map digitChar ++
      (if n.frac.isEmpty then [] else '.' :: n.frac.map digitChar))) =
      ((d :: ws).map (fun d => d.val),
        (if n.frac.isEmpty then [] else '.' :: n.frac.map digitChar)) := by
    have h := splitDigits_digitChars (d :: ws)
      (if n.frac.isEmpty then [] else '.' :: n.frac.map digitChar) (tail_not_digit n.frac)
    simpa using h
  unfold parseFloatText
  simp only [hsigned, infinity_digitChar, hwhole, splitFraction_tail, parseExponent]
  simp only [Bool.false_eq_true, if_false, List.map_cons, List.isEmpty_cons, Bool.false_and]
  congr 1
  have hdig := digitsToNat_digits (d :: ws) n.frac
  simp only [List.map_cons, List.cons_append] at hdig
  rw [scale10_neg_length]
  simp only [List.cons_append, List.length_map]
  rw [hdig]
  unfold Numeral.value
  rw [hws]
  have hpow : (10 : ℚ) ^ n.frac.length ≠ 0 := by positivity
  cases hneg : n.negative
  · simp only [applySign, Bool.false_eq_true, if_false]
    push_cast
    field_simp
  · simp only [applySign, if_true]
    push_cast
    field_simp

/-! ## C6: the metric value -/

/-- The invalid-metric-value error comes from the metric-value block only, after the
earlier blocks have passed. -/
theorem validateRow_invalidMetricValue_iff (row : RawRow) (rowNumber : Nat)
    (raw : JSValue) :
    validateRow row rowNumber = .error (.invalidMetricValue raw) ↔
      checkRequiredColumns row = .ok () ∧ (∃ q, checkQuarter row = .ok q) ∧
        (∃ y, checkYear row = .ok y) ∧
        checkMetricValue row = .error (.invalidMetricValue raw) := by
  rw [validateRow_error_iff]
  constructor
  · rintro (h | ⟨h0, h | ⟨q, hq, h | ⟨y, hy, h | ⟨x, _, h | ⟨t, _, h⟩⟩⟩⟩⟩)
    · rcases checkRequiredColumns_error row _ h with he | he <;> cases he
    · rcases checkQuarter_error row _ h with ⟨_, he⟩ | ⟨_, _, _, he⟩ <;> cases he
    · cases ((checkYear_error_iff row _).1 h).1
    · exact ⟨h0, ⟨q, hq⟩, ⟨y, hy⟩, h⟩
    · cases ((checkTargetValue_error_iff row _).1 h).1
    · cases ((metricNameText_error_iff row _).1 h).1
  · rintro ⟨h0, ⟨q, hq⟩, ⟨y, hy⟩, h⟩
    exact Or.inr ⟨h0, Or.inr ⟨q, hq, Or.inr ⟨y, hy, Or.inl h⟩⟩⟩

theorem splitDigits_fst_eq_nil (cs : List Char) :
    (splitDigits 10 cs).1 = [] ↔ ∀ c rest, cs = c :: rest → isDecimalDigit c = false := by
  cases cs with
  | nil => simp [splitDigits]
  | cons c rest =>
    have hd : (digitValue 10 c = none) ↔ isDecimalDigit c = false := by
      unfold digitValue isDecimalDigit
      by_cases h1 : 48 ≤ c.toNat ∧ c.toNat ≤ 57
      · have h2 : c.toNat - 48 < 10 := by omega
        simp [h1, h2]
      · by_cases h3 : 97 ≤ c.toNat ∧ c.toNat ≤ 122
        · have h4 : ¬ c.toNat - 87 < 10 := by omega
          simp [h1, h3, h4]
        · by_cases h5 : 65 ≤ c.toNat ∧ c.toNat ≤ 90
          · have h6 : ¬ c.toNat - 55 < 10 := by omega
            simp [h1, h3, h5, h6]
          · simp [h1, h3, h5]
    cases hv : digitValue 10 c with
    | none =>
      have := hd.1 hv
      simp [splitDigits, hv, this]
    | some d =>
      have hne : isDecimalDigit c ≠ false := fun h => by
        rw [hd.2 h] at hv
        cases hv
      simp [splitDigits, hv, hne]

theorem splitDigits_snd_of_nil (cs : List Char) (h : (splitDigits 10 cs).1 = []) :
    (splitDigits 10 cs).2 = cs := by
  cases cs with
  | nil => rfl
  | cons c rest =>
    cases hv : digitValue 10 c with
    | none => simp [splitDigits, hv]
    | some d => simp [splitDigits, hv] at h

/-- `parseFloat` of a text is `NaN` exactly when the text does not start with a
numeral. -/
theorem parseFloatText_eq_nan_iff (s : String) :
    parseFloatText s = .nan ↔ ¬ StartsWithNumeral s := by
  unfold parseFloatText StartsWithNumeral
  generalize (splitSign (trimStart s.data)) = signed
  have hinf : "Infinity".data = ['I', 'n', 'f', 'i', 'n', 'i', 't', 'y'] := rfl
  simp only [hinf]
  by_cases hi : ['I', 'n', 'f', 'i', 'n', 'i', 't', 'y'].isPrefixOf signed.2 = true
  · simp [hi]
  · simp only [hi, Bool.false_eq_true, if_false, false_or]
    by_cases hw : (splitDigits 10 signed.2).1 = []
    · have hrest := splitDigits_snd_of_nil _ hw
      have hnod := (splitDigits_fst_eq_nil _).1 hw
      rw [hrest]
      by_cases hf : (splitFraction signed.2).1 = []
      · simp only [hw, hf, List.isEmpty_nil, Bool.and_self, if_true, true_iff]
        rintro (⟨c, rest, hc, hd⟩ | ⟨c, rest, hc, hd⟩)
        · rw [hnod c rest hc] at hd
          cases hd
        · rw [hc] at hf
          simp only [splitFraction] at hf
          rw [(splitDigits_fst_eq_nil _).1 hf c rest rfl] at hd
          cases hd
      · have hfe : (splitFraction signed.2).1.isEmpty = false := by
          cases hl : (splitFraction signed.2).1 with
          | nil => exact absurd hl hf
          | cons a l => rfl
        simp only [hw, hfe, List.isEmpty_nil, Bool.and_false, Bool.false_eq_true, if_false]
        constructor
        · intro h
          exact absurd h (roundToDouble_ne_nan _)
        · intro h
          exfalso
          apply h
          right
          cases hs : signed.2 with
          | nil =>
            rw [hs] at hf
            simp [splitFraction] at hf
          | cons c rest =>
            by_cases hc : c = '.'
            · subst hc
              rw [hs] at hf
              simp only [splitFraction] at hf
              cases rest with
              | nil => simp [splitDigits] at hf
              | cons c2 r2 =>
                refine ⟨c2, r2, rfl, ?_⟩
                by_contra hnd
                apply hf
                apply (splitDigits_fst_eq_nil _).2
                intro c3 r3 h3
                cases h3
                simpa using hnd
            · rw [hs] at hf
              exfalso
              apply hf
              unfold splitFraction
              split
              · rename_i heq
                cases heq
                exact absurd rfl hc
              · rfl
    · have hwe : (splitDigits 10 signed.2).1.isEmpty = false := by
        cases hl : (splitDigits 10 signed.2).1 with
        | nil => exact absurd hl hw
        | cons a l => rfl
      simp only [hwe, Bool.false_and, Bool.false_eq_true, if_false]
      constructor
      · intro h
        exact absurd h (roundToDouble_ne_nan _)
      · intro h
        exfalso
        apply h
        left
        cases hs : signed.2 with
        | nil =>
          rw [hs] at hw
          simp [splitDigits] at hw
        | cons c rest =>
          refine ⟨c, rest, rfl, ?_⟩
          by_contra hnd
          apply hw
          rw [hs]
          apply (splitDigits_fst_eq_nil _).2
          intro c3 r3 h3
          cases h3
          simpa using hnd

/-- C6, as stated, fails: the metric value `12abc` is not the text of a number, yet the
row is accepted, with metric value 12; and the metric values `9007199254740993` and
`0.1` are returned as the doubles nearest to them, 9007199254740992 and
3602879701896397 / 2 ^ 55, not as the numbers the texts denote. -/
theorem trailing_text_metric_value_accepted :
    (validateRow rowWithTrailingText 1 =
      .ok { quarter := "Q1", year := 2025, metric_name := "NRR",
            metric_value := .finite 12, metric_unit := none, category := none,
            description := none, target_value := none, status := none } ∧
    rowWithTrailingText.get "metric_value" = .string "12abc" ∧
    ∀ raw, validateRow rowWithTrailingText 1 ≠ .error (.invalidMetricValue raw)) ∧
    (rowWithLongInteger.get "metric_value" = .string "9007199254740993" ∧
      validateRow rowWithLongInteger 1 =
        .ok { quarter := "Q1", year := 2025, metric_name := "NRR",
              metric_value := .finite 9007199254740992, metric_unit := none,
              category := none, description := none, target_value := none,
              status := none } ∧
      JSNumber.finite 9007199254740992 ≠ .finite 9007199254740993) ∧
    (rowWithTenth.get "metric_value" = .string "0.1" ∧
      validateRow rowWithTenth 1 =
        .ok { quarter := "Q1", year := 2025, metric_name := "NRR",
              metric_value := .finite (mkRat 3602879701896397 36028797018963968),
              metric_unit := none, category := none, description := none,
              target_value := none, status := none } ∧
      JSNumber.finite (mkRat 3602879701896397 36028797018963968) ≠ .finite (mkRat 1 10)) := by
  refine ⟨⟨rfl, rfl, ?_⟩, ⟨rfl, rfl, by decide⟩, ⟨rfl, rfl, by decide⟩⟩
  intro raw h
  have hok : validateRow rowWithTrailingText 1 =
      .ok { quarter := "Q1", year := 2025, metric_name := "NRR",
            metric_value := .finite 12, metric_unit := none, category := none,
            description := none, target_value := none, status := none } := rfl
  rw [hok] at h
  cases h

/-- The number a numeral without a fraction denotes is the integer its digits write. -/
theorem numeral_value_whole (m : Numeral) (hf : m.frac = []) :
    m.value = ((applySign m.negative (digitsValue m.whole) : Int) : ℚ) := by
  unfold Numeral.value applySign
  rw [hf]
  cases m.negative <;> simp [digitsValue]

theorem natAbs_applySign (negative : Bool) (n : Nat) :
    (applySign negative n).natAbs = n := by
  unfold applySign
  cases negative <;> simp

/-- C6 (amended). For a row that passes the required-field, quarter and year checks,
`validateRow` fails with the invalid-metric-value error exactly when `parseFloat` of the
metric value is `NaN`, which for a text is when it does not start (after white space and
an optional sign) with a decimal numeral, as for `abc`; otherwise the returned metric
value is the double `parseFloat` reads from the longest numeral the text starts with, so
`12abc` is not rejected and gives 12.  A plain decimal numeral gives the double nearest
to the number it denotes (a double, and no double is nearer): that number itself when it
is an integer below `2 ^ 53` in absolute value, while `0.1` gives
3602879701896397 / 2 ^ 55 and `9007199254740993` gives 9007199254740992. -/
theorem validateRow_metric_value (row : RawRow) (rowNumber : Nat)
    (h0 : checkRequiredColumns row = .ok ())
    (hq : ∃ q, checkQuarter row = .ok q)
    (hy : ∃ y, checkYear row = .ok y) :
    (validateRow row rowNumber = .error (.invalidMetricValue (row.get "metric_value")) ↔
      parseFloat (row.get "metric_value") = .nan) ∧
    (∀ s, row.get "metric_value" = .string s →
      (validateRow row rowNumber = .error (.invalidMetricValue (.string s)) ↔
        ¬ StartsWithNumeral s)) ∧
    (∀ raw, validateRow row rowNumber = .error (.invalidMetricValue raw) →
      raw = row.get "metric_value") ∧
    (∀ r, validateRow row rowNumber = .ok r →
      r.metric_value = parseFloat (row.get "metric_value") ∧ r.metric_value ≠ .nan) ∧
    (row.get "metric_value" = .string "abc" →
      validateRow row rowNumber = .error (.invalidMetricValue (.string "abc"))) ∧
    (row.get "metric_value" = .string "12abc" →
      (∀ raw, validateRow row rowNumber ≠ .error (.invalidMetricValue raw)) ∧
        ∀ r, validateRow row rowNumber = .ok r → r.metric_value = .finite 12) ∧
    (∀ m : Numeral, m.whole ≠ [] → row.get "metric_value" = .string m.text →
      (∀ raw, validateRow row rowNumber ≠ .error (.invalidMetricValue raw)) ∧
        ∀ r, validateRow row rowNumber = .ok r →
          r.metric_value = roundToDouble m.value ∧
            (∀ x, r.metric_value = .finite x →
              IsDouble x ∧ ∀ y, IsDouble y → |x - m.value| ≤ |y - m.value|) ∧
            (m.frac = [] → digitsValue m.whole < 2 ^ 53 →
              r.metric_value = .finite m.value)) ∧
    (row.get "metric_value" = .string "0.1" →
      ∀ r, validateRow row rowNumber = .ok r →
        r.metric_value = .finite (mkRat 3602879701896397 36028797018963968)) ∧
    (row.get "metric_value" = .string "9007199254740993" →
      ∀ r, validateRow row rowNumber = .ok r →
        r.metric_value = .finite 9007199254740992) := by
  obtain ⟨q, h1⟩ := hq
  obtain ⟨y, h2⟩ := hy
  have key : ∀ raw, validateRow row rowNumber = .error (.invalidMetricValue raw) ↔
      raw = row.get "metric_value" ∧ parseFloat (row.get "metric_value") = .nan := by
    intro raw
    rw [validateRow_invalidMetricValue_iff, checkMetricValue_error_iff]
    constructor
    · rintro ⟨_, _, _, he, hn⟩
      cases he
      exact ⟨rfl, hn⟩
    · rintro ⟨he, hn⟩
      exact ⟨h0, ⟨_, h1⟩, ⟨_, h2⟩, by rw [he], hn⟩
  have hok : ∀ r, validateRow row rowNumber = .ok r →
      r.metric_value = parseFloat (row.get "metric_value") ∧ r.metric_value ≠ .nan := by
    intro r hr
    have h3 := ((validateRow_ok_iff row rowNumber r).1 hr).2.2.2.1
    obtain ⟨hp, hn⟩ := (checkMetricValue_ok_iff row _).1 h3
    exact ⟨hp.symm, hn⟩
  have hvalue : ∀ x : JSNumber, x ≠ .nan → parseFloat (row.get "metric_value") = x →
      (∀ raw, validateRow row rowNumber ≠ .error (.invalidMetricValue raw)) ∧
        ∀ r, validateRow row rowNumber = .ok r → r.metric_value = x := by
    intro x hx hp
    refine ⟨?_, ?_⟩
    · intro raw h
      have hn := ((key raw).1 h).2
      rw [hp] at hn
      exact hx hn
    · intro r hr
      rw [(hok r hr).1, hp]
  refine ⟨?_, ?_, ?_, hok, ?_, ?_, ?_, ?_, ?_⟩
  · rw [key]
    simp
  · intro s hs
    rw [← hs, key, hs]
    simp only [true_and]
    exact parseFloatText_eq_nan_iff s
  · intro raw h
    exact ((key raw).1 h).1
  · intro hv
    rw [← hv, key]
    refine ⟨rfl, ?_⟩
    rw [hv]
    rfl
  · intro hv
    apply hvalue _ (by decide)
    rw [hv]
    rfl
  · intro m hm hv
    have hp : parseFloat (row.get "metric_value") = roundToDouble m.value := by
      rw [hv]
      exact parseFloatText_numeral m hm
    obtain ⟨hno, hval⟩ := hvalue _ (roundToDouble_ne_nan _) hp
    refine ⟨hno, fun r hr => ⟨hval r hr, ?_, ?_⟩⟩
    · intro x hx
      rw [hval r hr] at hx
      exact roundToDouble_nearest m.value x hx
    intro hf hsmall
    rw [hval r hr, numeral_value_whole m hf]
    apply roundToDouble_intCast
    rw [natAbs_applySign]
    exact hsmall
  · intro hv
    apply (hvalue _ (by decide) _).2
    rw [hv]
    rfl
  · intro hv
    apply (hvalue _ (by decide) _).2
    rw [hv]
    rfl

/-- Witness for C6 (amended): the first row of the upload template. -/
theorem validateRow_metric_value_witness :
    checkRequiredColumns templateRow = .ok () ∧
    (∃ q, checkQuarter templateRow = .ok q) ∧
    (∃ y, checkYear templateRow = .ok y) ∧
    (validateRow templateRow 1 =
        .error (.invalidMetricValue (templateRow.get "metric_value")) ↔
      parseFloat (templateRow.get "metric_value") = .nan) ∧
    (∀ r, validateRow templateRow 1 = .ok r →
      r.metric_value = parseFloat (templateRow.get "metric_value") ∧
        r.metric_value ≠ .nan) ∧
    parseFloat (templateRow.get "metric_value") = .finite 6520000 :=
  ⟨rfl, ⟨"Q1", rfl⟩, ⟨2024, rfl⟩,
    (validateRow_metric_value templateRow 1 rfl ⟨"Q1", rfl⟩ ⟨2024, rfl⟩).1,
    (validateRow_metric_value templateRow 1 rfl ⟨"Q1", rfl⟩ ⟨2024, rfl⟩).2.2.2.1, rfl⟩

/-! ## C7: the target value -/

/-- C7: a spreadsheet row whose target value is the number 0 is accepted with target value
`null`, not 0, whereas the text `0` gives 0 and the number 110 gives 110. -/
theorem zero_target_value_dropped :
    validateRow (("target_value", .number (.finite 0)) :: rowWithoutTarget) 1 =
      .ok { quarter := "Q1", year := 2025, metric_name := "Churn",
            metric_value := .finite 5, metric_unit := none, category := none,
            description := none, target_value := none, status := none } ∧
    validateRow (("target_value", .string "0") :: rowWithoutTarget) 1 =
      .ok { quarter := "Q1", year := 2025, metric_name := "Churn",
            metric_value := .finite 5, metric_unit := none, category := none,
            description := none, target_value := some (.finite 0), status := none } ∧
    validateRow (("target_value", .number (.finite 110)) :: rowWithoutTarget) 1 =
      .ok { quarter := "Q1", year := 2025, metric_name := "Churn",
            metric_value := .finite 5, metric_unit := none, category := none,
            description := none, target_value := some (.finite 110), status := none } ∧
    parseFloat (.number (.finite 0)) = .finite 0 :=
  ⟨rfl, rfl, rfl, rfl⟩

/-! ## C9: the metric name -/

/-- C9: a row whose metric name consists of white space only passes the required-field
check and is accepted with the empty string as its metric name. -/
theorem blank_metric_name_accepted :
    validateRow rowWithBlankName 1 =
      .ok { quarter := "Q1", year := 2025, metric_name := "",
            metric_value := .finite 5, metric_unit := none, category := none,
            description := none, target_value := none, status := none } ∧
    rowWithBlankName.get "metric_name" = .string "   " :=
  ⟨rfl, rfl⟩

/-! ## C10: empty datasets -/

/-- C10. `validateData` applied to a dataset with zero rows, or to a value that is not
an array, fails with the error whose message is `No data found in file`; it does so
whatever the row validator is (the row validator is not applied, and nothing is
logged); and that error differs from the `No valid data rows found` error that a
non-empty dataset without a valid row raises. -/
theorem validateData_empty_dataset :
    validateData (.array []) = .error .noData ∧
    (∀ v, validateData (.nonArray v) = .error .noData) ∧
    (∀ rowValidator, validateDataWith rowValidator (.array []) = .error .noData) ∧
    (∀ rowValidator v, validateDataWith rowValidator (.nonArray v) = .error .noData) ∧
    validationWarnings (.array []) = [] ∧
    DataError.noData.message = "No data found in file" ∧
    DataError.noValidRows.message = "No valid data rows found" ∧
    DataError.noData.message ≠ DataError.noValidRows.message ∧
    DataError.noData ≠ DataError.noValidRows ∧
    validateData (.array [[]]) = .error .noValidRows := by
  refine ⟨rfl, fun _ => rfl, fun _ => rfl, fun _ _ => rfl, rfl, rfl, rfl, ?_, ?_, rfl⟩
  · decide
  · decide

end FileProcessor

namespace DatabaseService

open FileProcessor Batteries

/-! ## Arithmetic and comparison facts -/

theorem ratSub_eq (a b : ℚ) : ratSub a b = a - b :=
  (Rat.sub_def' a b).symm

theorem ratMul_eq (a b : ℚ) : ratMul a b = a * b := by
  unfold ratMul
  rw [Rat.mul_def, Rat.normalize_eq_mkRat]

theorem ratDiv_eq (a b : ℚ) : ratDiv a b = a / b :=
  (Rat.div_def' a b).symm

theorem ratCompare_ne_gt (a b : ℚ) : ratCompare a b ≠ .gt ↔ a ≤ b := by
  unfold ratCompare
  rw [Rat.le_def]
  exact LECmp.cmp_iff_le

theorem ratCompare_eq_eq (a b : ℚ) : ratCompare a b = .eq ↔ a = b := by
  unfold ratCompare
  rw [compare_eq_iff_eq]
  exact (Rat.eq_iff_mul_eq_mul).symm

theorem transCmp_ratCompare : TransCmp ratCompare where
  symm _ _ := by
    unfold ratCompare
    exact @OrientedCmp.symm Int (compare : Int → Int → Ordering) inferInstance _ _
  le_trans := by
    intro a b c h1 h2
    rw [ratCompare_ne_gt] at *
    exact le_trans h1 h2

theorem transCmp_compareNumber : TransCmp compareNumber where
  symm _ _ := transCmp_ratCompare.symm _ _
  le_trans := transCmp_ratCompare.le_trans

theorem transCmp_sqlCompare : TransCmp sqlCompare := by
  haveI := transCmp_compareNumber
  exact inferInstanceAs
    (TransCmp (compareLex (compareOn sortRank) (compareLex compareNumber (compareOn sortText))))

theorem transCmp_compareQuarterly : TransCmp compareQuarterly := by
  haveI : TransOrd SqlValue := transCmp_sqlCompare
  exact inferInstanceAs
    (TransCmp (compareLex (flip (compareOn MetricRecord.year))
      (compareLex (flip (compareOn MetricRecord.quarter)) (compareOn MetricRecord.metric_name))))

theorem transCmp_compareFiscal : TransCmp compareFiscal := by
  haveI : TransOrd SqlValue := transCmp_sqlCompare
  exact inferInstanceAs
    (TransCmp (compareLex (flip (compareOn MetricRecord.year))
      (flip (compareOn (fun r : MetricRecord => quarterRank r.quarter)))))

theorem transCmp_comparePeriod : TransCmp comparePeriod := by
  haveI : TransOrd SqlValue := transCmp_sqlCompare
  exact inferInstanceAs
    (TransCmp (compareLex (flip (compareOn (fun p : SqlValue × SqlValue => p.2)))
      (flip (compareOn (fun p : SqlValue × SqlValue => p.1)))))

/-- Two values compare equal exactly when they have the same storage-class rank, the
same number and the same text. -/
theorem sqlCompare_eq_iff (a b : SqlValue) :
    sqlCompare a b = .eq ↔
      sortRank a = sortRank b ∧ sortNumber a = sortNumber b ∧ sortText a = sortText b := by
  unfold sqlCompare compareLex compareOn compareNumber
  rw [Ordering.then_eq_eq, Ordering.then_eq_eq, compare_eq_iff_eq, ratCompare_eq_eq,
    compare_eq_iff_eq]

theorem sqlCompare_refl (a : SqlValue) : sqlCompare a a = .eq :=
  (sqlCompare_eq_iff a a).2 ⟨rfl, rfl, rfl⟩

theorem sqlEquals_text (a : SqlValue) (m : String) :
    sqlEquals a (.text m) = true ↔ a = .text m := by
  cases a with
  | null => simp [sqlEquals]
  | integer i => simp [sqlEquals, sqlCompare_eq_iff, sortRank]
  | real x => rcases x with _ | ⟨_ | _⟩ | _ <;> simp [sqlEquals, sqlCompare_eq_iff, sortRank]
  | text s => simp [sqlEquals, sqlCompare_eq_iff, sortRank, sortNumber, sortText]

theorem sqlEquals_integer (a : SqlValue) (y : Int) :
    sqlEquals a (.integer y) = true ↔ a = .integer y ∨ a = .real (.finite y) := by
  cases a with
  | null => simp [sqlEquals]
  | integer i => simp [sqlEquals, sqlCompare_eq_iff, sortRank, sortNumber, sortText]
  | real x =>
    rcases x with _ | ⟨_ | _⟩ | _ <;>
      simp [sqlEquals, sqlCompare_eq_iff, sortRank, sortNumber, sortText]
  | text s => simp [sqlEquals, sqlCompare_eq_iff, sortRank]

theorem sqlEquals_self (a : SqlValue) (h : a ≠ .null) : sqlEquals a a = true := by
  cases a with
  | null => exact absurd rfl h
  | integer i => simp [sqlEquals, sqlCompare_refl]
  | real x => simp [sqlEquals, sqlCompare_refl]
  | text s => simp [sqlEquals, sqlCompare_refl]

/-! ## Stored values -/

theorem foldl_max_ge (ids : List Int) (start : Int) :
    start ≤ ids.foldl max start ∧ ∀ i ∈ ids, i ≤ ids.foldl max start := by
  induction ids generalizing start with
  | nil => simp
  | cons a rest ih =>
    simp only [List.foldl_cons, List.mem_cons]
    obtain ⟨h1, h2⟩ := ih (max start a)
    refine ⟨le_trans (le_max_left _ _) h1, ?_⟩
    rintro i (rfl | hi)
    · exact le_trans (le_max_right _ _) h1
    · exact h2 i hi

/-- A new rowid differs from every rowid in the table. -/
theorem nextRowId_fresh (sequence : Int) (ids : List Int) :
    ∀ i ∈ ids, nextRowId sequence ids ≠ i := by
  intro i hi h
  have := (foldl_max_ge ids sequence).2 i hi
  unfold nextRowId at h
  omega

/-- An integer bound to a parameter and stored in an `INTEGER` column is kept as that
integer (as a real when it does not fit 64 bits). -/
theorem stored_integer (y : Int) :
    Affinity.integer.apply (bindParameter (.number (.finite y))) = .integer y ∨
      Affinity.integer.apply (bindParameter (.number (.finite y))) = .real (.finite y) := by
  unfold bindParameter
  simp only [Rat.intCast_den, Rat.intCast_num, true_and]
  split_ifs with h
  · left
    rfl
  · simp only [Affinity.apply, numericValue, Rat.intCast_den, Rat.intCast_num, true_and]
    split_ifs <;> simp

theorem read_stored_integer (y : Int) :
    readColumn (Affinity.integer.apply (bindParameter (.number (.finite y)))) =
      .number (.finite y) := by
  rcases stored_integer y with h | h <;> rw [h] <;> rfl

/-- A number bound to a parameter and stored in a `REAL` column reads back as the same
number. -/
theorem read_stored_real (x : JSNumber) (hx : x ≠ .nan) :
    readColumn (Affinity.real.apply (bindParameter (.number x))) = .number x := by
  cases x with
  | nan => exact absurd rfl hx
  | infinity negative => rfl
  | finite q =>
    simp only [bindParameter]
    split_ifs with h
    · simp only [Affinity.apply, readColumn]
      rw [Rat.coe_int_num_of_den_eq_one h.1]
    · rfl

theorem read_stored_optionalNumber (x : Option JSNumber) (hx : x ≠ some .nan) :
    readColumn (Affinity.real.apply (bindParameter (optionalNumber x))) = optionalNumber x := by
  cases x with
  | none => rfl
  | some n =>
    have hn : n ≠ .nan := fun h => hx (by rw [h])
    exact read_stored_real n hn

theorem read_stored_optionalString (s : Option String) :
    readColumn (Affinity.text.apply (bindParameter (optionalString s))) = optionalString s := by
  cases s <;> rfl

theorem read_stored_optionalInteger (i : Option Int) :
    readColumn (Affinity.integer.apply (bindParameter (optionalInteger i))) =
      optionalInteger i := by
  cases i with
  | none => rfl
  | some n => exact read_stored_integer n

theorem stored_integer_ne_null (y : Int) :
    Affinity.integer.apply (bindParameter (.number (.finite y))) ≠ .null := by
  rcases stored_integer y with h | h <;> rw [h] <;> simp

/-! ## `ORDER BY` and `LIMIT` -/

theorem orderBy_perm {α : Type} (cmp : α → α → Ordering) (rows : List α) :
    (orderBy cmp rows).Perm rows :=
  List.perm_insertionSort _ rows

theorem mem_orderBy {α : Type} (cmp : α → α → Ordering) (rows : List α) (a : α) :
    a ∈ orderBy cmp rows ↔ a ∈ rows :=
  (orderBy_perm cmp rows).mem_iff

theorem orderBy_sorted {α : Type} (cmp : α → α → Ordering) (hcmp : TransCmp cmp)
    (rows : List α) :
    (orderBy cmp rows).Pairwise (fun a b => cmp a b ≠ .gt) := by
  haveI : IsTotal α (fun a b => cmp a b ≠ .gt) :=
    ⟨fun a b => by
      by_cases h : cmp a b = .gt
      · right
        rw [OrientedCmp.cmp_eq_gt.1 h]
        decide
      · left
        exact h⟩
  haveI : IsTrans α (fun a b => cmp a b ≠ .gt) :=
    ⟨fun _ _ _ h1 h2 => TransCmp.le_trans h1 h2⟩
  exact List.sorted_insertionSort _ rows

/-! ## C17: `saveQuarterlyData` appends one record -/

/-- The record `saveQuarterlyData` builds from well-typed arguments. -/
theorem saveQuarterlyData_ok (db : Database) (now : String)
    (fileId quarter year metricName metricValue metricUnit category targetValue
      status : JSValue)
    (hq : Affinity.text.apply (bindParameter quarter) ≠ .null)
    (hy : Affinity.integer.apply (bindParameter year) ≠ .null)
    (hn : Affinity.text.apply (bindParameter metricName) ≠ .null) :
    saveQuarterlyData db now fileId quarter year metricName metricValue metricUnit category
        targetValue status =
      .ok ({ db with
          quarterly_data := db.quarterly_data ++
            [{ id := nextRowId db.quarterlyDataSequence (db.quarterly_data.map (·.id))
               file_id := Affinity.integer.apply (bindParameter fileId)
               quarter := Affinity.text.apply (bindParameter quarter)
               year := Affinity.integer.apply (bindParameter year)
               metric_name := Affinity.text.apply (bindParameter metricName)
               metric_value := Affinity.real.apply (bindParameter metricValue)
               metric_unit := Affinity.text.apply (bindParameter metricUnit)
               category := Affinity.text.apply (bindParameter category)
               target_value := Affinity.real.apply (bindParameter targetValue)
               status := Affinity.text.apply (bindParameter status)
               created_at := Affinity.numeric.apply (.text now) }]
          quarterlyDataSequence :=
            nextRowId db.quarterlyDataSequence (db.quarterly_data.map (·.id)) },
        nextRowId db.quarterlyDataSequence (db.quarterly_data.map (·.id))) := by
  simp [saveQuarterlyData, requireNotNull, hq, hy, hn, bind, Except.bind, pure, Except.pure]

/-- C17. For every store and every record (file id, quarter, year, name, value, unit,
category, target value, status), `saveQuarterlyData` succeeds, appends exactly one new
record with a fresh rowid and leaves every existing record (and the other tables)
unchanged, whether or not a record with the same quarter, year and name is already
stored; the new record reads back with the values given; and a following
`getQuarterlyData(quarter, year)` returns that record. -/
theorem saveQuarterlyData_appends_record (db : Database) (now : String)
    (fileId : Option Int) (quarter : String) (year : Int) (name : String)
    (value : JSNumber) (unit category : Option String) (target : Option JSNumber)
    (status : Option String) (hvalue : value ≠ .nan) (htarget : target ≠ some .nan) :
    ∃ (record : MetricRecord) (after : Database),
      saveQuarterlyData db now (optionalInteger fileId) (.string quarter)
          (.number (.finite year)) (.string name) (.number value) (optionalString unit)
          (optionalString category) (optionalNumber target) (optionalString status) =
        .ok (after, record.id) ∧
      after.quarterly_data = db.quarterly_data ++ [record] ∧
      after.files = db.files ∧ after.dashboard_config = db.dashboard_config ∧
      (∀ r ∈ db.quarterly_data, record.id ≠ r.id) ∧
      readColumn record.file_id = optionalInteger fileId ∧
      readColumn record.quarter = .string quarter ∧
      readColumn record.year = .number (.finite year) ∧
      readColumn record.metric_name = .string name ∧
      readColumn record.metric_value = .number value ∧
      readColumn record.metric_unit = optionalString unit ∧
      readColumn record.category = optionalString category ∧
      readColumn record.target_value = optionalNumber target ∧
      readColumn record.status = optionalString status ∧
      record ∈ getQuarterlyData after (.string quarter) (.number (.finite year)) := by
  have hsave := saveQuarterlyData_ok db now (optionalInteger fileId) (.string quarter)
    (.number (.finite year)) (.string name) (.number value) (optionalString unit)
    (optionalString category) (optionalNumber target) (optionalString status)
    (by simp [bindParameter, Affinity.apply]) (stored_integer_ne_null year)
    (by simp [bindParameter, Affinity.apply])
  let record : MetricRecord :=
    ⟨nextRowId db.quarterlyDataSequence (db.quarterly_data.map (·.id)),
    Affinity.integer.apply (bindParameter (optionalInteger fileId)),
    Affinity.text.apply (bindParameter (.string quarter)),
    Affinity.integer.apply (bindParameter (.number (.finite year))),
    Affinity.text.apply (bindParameter (.string name)),
    Affinity.real.apply (bindParameter (.number value)),
    Affinity.text.apply (bindParameter (optionalString unit)),
    Affinity.text.apply (bindParameter (optionalString category)),
    Affinity.real.apply (bindParameter (optionalNumber target)),
    Affinity.text.apply (bindParameter (optionalString status)),
    Affinity.numeric.apply (.text now)⟩
  refine ⟨record, { db with
      quarterly_data := db.quarterly_data ++ [record]
      quarterlyDataSequence := record.id },
    hsave, rfl, rfl, rfl, ?_, read_stored_optionalInteger fileId, rfl,
    read_stored_integer year, rfl, read_stored_real value hvalue,
    read_stored_optionalString unit, read_stored_optionalString category,
    read_stored_optionalNumber target htarget, read_stored_optionalString status, ?_⟩
  · intro r hr
    exact nextRowId_fresh _ _ r.id (List.mem_map_of_mem _ hr)
  · have hqm : columnEquals .text (Affinity.text.apply (bindParameter (.string quarter)))
        (bindParameter (.string quarter)) = true :=
      sqlEquals_self _ (by simp [bindParameter, Affinity.apply])
    have hym : columnEquals .integer
        (Affinity.integer.apply (bindParameter (.number (.finite year))))
        (bindParameter (.number (.finite year))) = true :=
      sqlEquals_self _ (stored_integer_ne_null year)
    unfold getQuarterlyData
    rw [mem_orderBy]
    split_ifs <;> simp [hqm, hym]

/-- Witness for C17: a second NRR record for Q1-2025 saved into a store that already
holds one. -/
theorem saveQuarterlyData_appends_record_witness :
    JSNumber.finite 107 ≠ .nan ∧ (none : Option JSNumber) ≠ some .nan ∧
    ∃ (record : MetricRecord) (after : Database),
      saveQuarterlyData nrrDatabase sampleTime (optionalInteger (some 1)) (.string "Q1")
          (.number (.finite (2025 : Int))) (.string "NRR") (.number (.finite 107))
          (optionalString (some "%")) (optionalString none) (optionalNumber none)
          (optionalString none) =
        .ok (after, record.id) ∧
      after.quarterly_data = nrrDatabase.quarterly_data ++ [record] ∧
      after.files = nrrDatabase.files ∧
      after.dashboard_config = nrrDatabase.dashboard_config ∧
      (∀ r ∈ nrrDatabase.quarterly_data, record.id ≠ r.id) ∧
      readColumn record.file_id = optionalInteger (some 1) ∧
      readColumn record.quarter = .string "Q1" ∧
      readColumn record.year = .number (.finite (2025 : Int)) ∧
      readColumn record.metric_name = .string "NRR" ∧
      readColumn record.metric_value = .number (.finite 107) ∧
      readColumn record.metric_unit = optionalString (some "%") ∧
      readColumn record.category = optionalString none ∧
      readColumn record.target_value = optionalNumber none ∧
      readColumn record.status = optionalString none ∧
      record ∈ getQuarterlyData after (.string "Q1") (.number (.finite (2025 : Int))) :=
  ⟨by simp, by simp,
    saveQuarterlyData_appends_record nrrDatabase sampleTime (some 1) "Q1" 2025 "NRR"
      (.finite 107) (some "%") none none none (by simp) (by simp)⟩

/-! ## C18: what the write paths store -/

/-- C18: the CRM sync route stores records that break the invariant.  Its calls of
`saveQuarterlyData` leave out the file id, so every argument lands one column early:
after `POST /hubspot/sync` for `deals` (3 deals, in 2026) on the empty database the
stored record has the quarter `2026`, the year `Total Deals`, the metric name `3` and
the metric value `Count`.  The upload route stores a record with the empty metric name
for a CSV row whose metric name is blank. -/
theorem sync_stores_misplaced_columns :
    (hubspotSyncRoute Database.empty sampleTime 2026 (.deals 3)).1 = 200 ∧
    (hubspotSyncRoute Database.empty sampleTime 2026 (.deals 3)).2.quarterly_data =
      [{ id := 1, file_id := .text "Q1", quarter := .text "2026",
         year := .text "Total Deals", metric_name := .text "3",
         metric_value := .text "Count", metric_unit := .text "Sales", category := .null,
         target_value := .null, status := .null, created_at := .text sampleTime }] ∧
    (uploadFileRoute Database.empty sampleTime (.string "file-1.csv") (.string "m.csv")
        (.string ".csv") (.number (.finite 64)) (.array [rowWithBlankName])).1 = 200 ∧
    (uploadFileRoute Database.empty sampleTime (.string "file-1.csv") (.string "m.csv")
        (.string ".csv") (.number (.finite 64))
        (.array [rowWithBlankName])).2.quarterly_data.map (fun r => r.metric_name) =
      [.text ""] :=
  ⟨rfl, rfl, rfl, rfl⟩

/-! ## C19: deleting a file -/

/-- C19: `DELETE /upload/file/1` on the database that holds one uploaded file with two
metric records answers 200 and removes the file, but both metric records of the file
stay in the store and `getQuarterlyData()` still returns them. -/
theorem delete_file_keeps_metric_records :
    uploadedDatabase.files.map (fun f => f.id) = [1] ∧
    (deleteFileRoute uploadedDatabase "1").1 = 200 ∧
    (deleteFileRoute uploadedDatabase "1").2.files = [] ∧
    (deleteFileRoute uploadedDatabase "1").2.quarterly_data =
      uploadedDatabase.quarterly_data ∧
    (getQuarterlyData (deleteFileRoute uploadedDatabase "1").2 .null .null).map
        (fun r => (r.file_id, r.metric_name)) =
      [(.integer 1, .text "NRR"), (.integer 1, .text "Total ARR")] :=
  ⟨rfl, rfl, rfl, rfl, rfl⟩

/-! ## C20: dashboard configurations -/

theorem find?_filter_of_imp {α : Type} (p q : α → Bool) (l : List α)
    (h : ∀ x, p x = true → q x = true) : (l.filter q).find? p = l.find? p := by
  induction l with
  | nil => rfl
  | cons a rest ih =>
    by_cases hq : q a = true
    · rw [List.filter_cons_of_pos hq, List.find?_cons, List.find?_cons, ih]
    · have hp : p a = false := by
        cases hpa : p a with
        | false => rfl
        | true => exact absurd (h a hpa) hq
      rw [List.filter_cons_of_neg hq, List.find?_cons, hp, ih]

theorem find?_append_singleton_of_false {α : Type} (p : α → Bool) (l : List α) (a : α)
    (h : p a = false) : (l ++ [a]).find? p = l.find? p := by
  induction l with
  | nil => simp [List.find?_cons, h]
  | cons b rest ih =>
    rw [List.cons_append, List.find?_cons, List.find?_cons, ih]

theorem find?_append_singleton_of_none {α : Type} (p : α → Bool) (l : List α) (a : α)
    (hl : ∀ x ∈ l, p x = false) (h : p a = true) : (l ++ [a]).find? p = some a := by
  induction l with
  | nil => simp [List.find?_cons, h]
  | cons b rest ih =>
    rw [List.cons_append, List.find?_cons, hl b (List.mem_cons_self _ _)]
    exact ih (fun x hx => hl x (List.mem_cons_of_mem _ hx))

/-- The rows of `dashboard_config` after `saveDashboardConfig` with a string name and a
value that `JSON.stringify` turns into a text. -/
theorem saveDashboardConfig_ok {Value : Type} (json : JsonCodec Value) (db : Database)
    (now name text : String) (d : Value) (hd : json.stringify d = .string text) :
    ∃ after id,
      saveDashboardConfig json db now (.string name) d = .ok (after, id) ∧
      after.quarterly_data = db.quarterly_data ∧ after.files = db.files ∧
      ∃ record : ConfigRecord,
        record.config_name = .text name ∧ record.config_data = .text text ∧
        after.dashboard_config =
          db.dashboard_config.filter (fun r => !sqlEquals r.config_name (.text name)) ++
            [record] := by
  let record : ConfigRecord := ⟨nextRowId db.dashboardConfigSequence
    (db.dashboard_config.map (·.id)), .text name, .text text,
    Affinity.numeric.apply (.text now), Affinity.numeric.apply (.text now)⟩
  refine ⟨{ db with
    dashboard_config :=
      db.dashboard_config.filter (fun r => !sqlEquals r.config_name (.text name)) ++
        [record]
    dashboardConfigSequence := record.id }, record.id, ?_, rfl, rfl, record, rfl, rfl, rfl⟩
  simp only [saveDashboardConfig, hd, bindParameter, Affinity.apply, requireNotNull]
  rfl

/-- C20. For every config name and JSON-serializable values `d1`, `d2` (values that
`JSON.stringify` turns into a text, `d2` being what `JSON.parse` reads back from its
text): after `saveDashboardConfig(n, d1)` followed by `saveDashboardConfig(n, d2)`,
`getDashboardConfig(n)` returns `d2`; `getDashboardConfig` of every other name returns
what it returned before; and `getDashboardConfig` of a name under which no row is
stored returns `null`. -/
theorem saveDashboardConfig_replaces {Value : Type} (json : JsonCodec Value)
    (db : Database) (now1 now2 name text1 text2 : String) (d1 d2 : Value)
    (h1 : json.stringify d1 = .string text1) (h2 : json.stringify d2 = .string text2)
    (hparse : json.parse text2 = .ok d2) :
    ∃ db1 id1 db2 id2,
      saveDashboardConfig json db now1 (.string name) d1 = .ok (db1, id1) ∧
      saveDashboardConfig json db1 now2 (.string name) d2 = .ok (db2, id2) ∧
      getDashboardConfig json db2 (.string name) = .ok (some d2) ∧
      (∀ other : String, other ≠ name →
        getDashboardConfig json db2 (.string other) =
          getDashboardConfig json db (.string other)) ∧
      (∀ unused : String, (∀ r ∈ db.dashboard_config, r.config_name ≠ .text unused) →
        getDashboardConfig json db (.string unused) = .ok none) := by
  obtain ⟨db1, id1, hs1, _, _, r1, hn1, _, hrows1⟩ :=
    saveDashboardConfig_ok json db now1 name text1 d1 h1
  obtain ⟨db2, id2, hs2, _, _, r2, hn2, hd2, hrows2⟩ :=
    saveDashboardConfig_ok json db1 now2 name text2 d2 h2
  refine ⟨db1, id1, db2, id2, hs1, hs2, ?_, ?_, ?_⟩
  · unfold getDashboardConfig
    have hfind : db2.dashboard_config.find?
        (fun r => columnEquals .text r.config_name (bindParameter (.string name))) =
        some r2 := by
      rw [hrows2]
      apply find?_append_singleton_of_none
      · intro x hx
        have hx2 := (List.mem_filter.1 hx).2
        simpa [columnEquals, bindParameter, Affinity.apply] using hx2
      · simp [columnEquals, bindParameter, Affinity.apply, hn2, sqlEquals_self]
    rw [hfind]
    simp [hd2, readColumn, toStringJS, hparse]
  · intro other hne
    unfold getDashboardConfig
    have hfind : db2.dashboard_config.find?
        (fun r => columnEquals .text r.config_name (bindParameter (.string other))) =
        db.dashboard_config.find?
          (fun r => columnEquals .text r.config_name (bindParameter (.string other))) := by
      have hother : ∀ r : ConfigRecord, r.config_name = .text name →
          columnEquals .text r.config_name (bindParameter (.string other)) = false := by
        intro r hr
        cases hc : columnEquals .text r.config_name (bindParameter (.string other)) with
        | false => rfl
        | true =>
          have := (sqlEquals_text _ _).1 hc
          rw [hr] at this
          simp at this
          exact absurd this.symm hne
      have himp : ∀ x : ConfigRecord,
          columnEquals .text x.config_name (bindParameter (.string other)) = true →
          (!sqlEquals x.config_name (.text name)) = true := by
        intro x hx
        have hxo := (sqlEquals_text _ _).1 hx
        cases hc : sqlEquals x.config_name (.text name) with
        | false => rfl
        | true =>
          have := (sqlEquals_text _ _).1 hc
          rw [hxo] at this
          simp at this
          exact absurd this hne
      rw [hrows2, find?_append_singleton_of_false
          (fun r : ConfigRecord =>
            columnEquals .text r.config_name (bindParameter (.string other))) _ r2
          (hother r2 hn2),
        find?_filter_of_imp
          (fun r : ConfigRecord =>
            columnEquals .text r.config_name (bindParameter (.string other))) _ _ himp,
        hrows1, find?_append_singleton_of_false
          (fun r : ConfigRecord =>
            columnEquals .text r.config_name (bindParameter (.string other))) _ r1
          (hother r1 hn1),
        find?_filter_of_imp
          (fun r : ConfigRecord =>
            columnEquals .text r.config_name (bindParameter (.string other))) _ _ himp]
    rw [hfind]
  · intro unused hnone
    unfold getDashboardConfig
    have hfind : db.dashboard_config.find?
        (fun r => columnEquals .text r.config_name (bindParameter (.string unused))) =
        none := by
      rw [List.find?_eq_none]
      intro x hx hc
      exact hnone x hx ((sqlEquals_text _ _).1 hc)
    rw [hfind]

/-- Witness for C20: the configuration `main` saved as `false`, then as `true`. -/
theorem saveDashboardConfig_replaces_witness :
    booleanJson.stringify false = .string "false" ∧
    booleanJson.stringify true = .string "true" ∧
    booleanJson.parse "true" = .ok true ∧
    ∃ db1 id1 db2 id2,
      saveDashboardConfig booleanJson Database.empty sampleTime (.string "main") false =
        .ok (db1, id1) ∧
      saveDashboardConfig booleanJson db1 sampleTime (.string "main") true = .ok (db2, id2) ∧
      getDashboardConfig booleanJson db2 (.string "main") = .ok (some true) ∧
      (∀ other : String, other ≠ "main" →
        getDashboardConfig booleanJson db2 (.string other) =
          getDashboardConfig booleanJson Database.empty (.string other)) ∧
      (∀ unused : String,
        (∀ r ∈ Database.empty.dashboard_config, r.config_name ≠ .text unused) →
        getDashboardConfig booleanJson Database.empty (.string unused) = .ok none) :=
  ⟨rfl, rfl, rfl,
    saveDashboardConfig_replaces booleanJson Database.empty sampleTime sampleTime "main"
      "false" "true" false true rfl rfl rfl⟩

/-! ## C16: `getQuarterlyData` -/

theorem sqlCompare_text (s t : String) : sqlCompare (.text s) (.text t) = compare s t := by
  have h1 : compare (4 : ℕ) 4 = .eq := compare_eq_iff_eq.2 rfl
  have h2 : ratCompare 0 0 = .eq := (ratCompare_eq_eq 0 0).2 rfl
  simp only [sqlCompare, compareLex, compareOn, compareNumber, sortRank, sortNumber,
    sortText, h1, h2]
  rfl

theorem sqlCompare_integer (i j : Int) :
    sqlCompare (.integer i) (.integer j) = compare i j := by
  have h1 : compare (2 : ℕ) 2 = .eq := compare_eq_iff_eq.2 rfl
  have h2 : compare "" "" = Ordering.eq := compare_eq_iff_eq.2 rfl
  have h3 : ratCompare (i : ℚ) (j : ℚ) = compare i j := by
    simp [ratCompare]
  simp only [sqlCompare, compareLex, compareOn, compareNumber, sortRank, sortNumber,
    sortText, h1, h2, h3]
  cases compare i j <;> rfl

theorem sqlEquals_real_integer (a : SqlValue) (y : Int) :
    sqlEquals a (.real (.finite y)) = true ↔ a = .integer y ∨ a = .real (.finite y) := by
  cases a with
  | null => simp [sqlEquals]
  | integer i => simp [sqlEquals, sqlCompare_eq_iff, sortRank, sortNumber, sortText]
  | real x =>
    rcases x with _ | ⟨_ | _⟩ | _ <;>
      simp [sqlEquals, sqlCompare_eq_iff, sortRank, sortNumber, sortText]
  | text s => simp [sqlEquals, sqlCompare_eq_iff, sortRank]

/-- The comparison `quarter = ?` (or `metric_name = ?`) with a string parameter holds
exactly for the columns that store that text. -/
theorem columnEquals_text_string (column : SqlValue) (s : String) :
    columnEquals .text column (bindParameter (.string s)) = true ↔ column = .text s :=
  sqlEquals_text column s

/-- The comparison `year = ?` with an integer parameter holds exactly for the columns
that store that number. -/
theorem columnEquals_integer_number (column : SqlValue) (y : Int) :
    columnEquals .integer column (bindParameter (.number (.finite y))) = true ↔
      column = .integer y ∨ column = .real (.finite y) := by
  unfold columnEquals
  rcases stored_integer y with h | h <;> rw [h]
  · exact sqlEquals_integer column y
  · exact sqlEquals_real_integer column y

/-- What `ORDER BY year DESC, quarter DESC, metric_name` says of a row `a` that comes
before a row `b`. -/
theorem compareQuarterly_ne_gt (a b : MetricRecord) (h : compareQuarterly a b ≠ .gt) :
    sqlCompare b.year a.year = .lt ∨
      (sqlCompare b.year a.year = .eq ∧
        (sqlCompare b.quarter a.quarter = .lt ∨
          (sqlCompare b.quarter a.quarter = .eq ∧
            sqlCompare a.metric_name b.metric_name ≠ .gt))) := by
  have hy : compare b.year a.year = sqlCompare b.year a.year := rfl
  have hq : compare b.quarter a.quarter = sqlCompare b.quarter a.quarter := rfl
  have hn : compare a.metric_name b.metric_name = sqlCompare a.metric_name b.metric_name :=
    rfl
  simp only [compareQuarterly, compareLex, compareOn, flip, hy, hq, hn] at h
  cases h1 : sqlCompare b.year a.year <;> rw [h1] at h <;> simp [Ordering.then] at h ⊢
  cases h2 : sqlCompare b.quarter a.quarter <;> rw [h2] at h <;>
    simp [Ordering.then] at h ⊢
  exact h

/-- The `WHERE` clause of `getQuarterlyData` as one condition. -/
theorem getQuarterlyData_eq (db : Database) (quarter year : JSValue) :
    getQuarterlyData db quarter year =
      orderBy compareQuarterly (db.quarterly_data.filter (fun r =>
        (!truthy quarter || columnEquals .text r.quarter (bindParameter quarter)) &&
          (!truthy year || columnEquals .integer r.year (bindParameter year)))) := by
  unfold getQuarterlyData
  cases truthy quarter <;> cases truthy year <;> simp

/-- C16. For every store and every optional quarter and year filter,
`getQuarterlyData` returns exactly the stored records (each as often as it is stored)
that match each filter that is given: the records whose quarter is the given text and
whose year is the given number, all records when neither is given.  A filter counts as
given when the argument is truthy: an empty quarter string and the year 0 filter
nothing, like `null`.  The result is ordered by year descending, then quarter label
descending, then metric name ascending, in SQLite's order of values. -/
theorem getQuarterlyData_filters_and_orders (db : Database) (quarter : Option String)
    (year : Option Int) :
    (getQuarterlyData db (optionalString quarter) (optionalInteger year)).Perm
        (db.quarterly_data.filter (fun r =>
          decide ((∀ q, quarter = some q → q ≠ "" → r.quarter = .text q) ∧
            (∀ y, year = some y → y ≠ 0 →
              r.year = .integer y ∨ r.year = .real (.finite y))))) ∧
      (getQuarterlyData db (optionalString quarter) (optionalInteger year)).Pairwise
        (fun a b =>
          sqlCompare b.year a.year = .lt ∨
            (sqlCompare b.year a.year = .eq ∧
              (sqlCompare b.quarter a.quarter = .lt ∨
                (sqlCompare b.quarter a.quarter = .eq ∧
                  sqlCompare a.metric_name b.metric_name ≠ .gt)))) := by
  constructor
  · rw [getQuarterlyData_eq]
    refine (orderBy_perm _ _).trans (List.Perm.of_eq (List.filter_congr ?_))
    intro r _
    rw [Bool.eq_iff_iff]
    rcases quarter with _ | q <;> rcases year with _ | y <;>
      simp [optionalString, optionalInteger, truthy, columnEquals_text_string,
        columnEquals_integer_number, or_iff_not_imp_left]
  · exact (orderBy_sorted compareQuarterly transCmp_compareQuarterly _).imp
      (fun {a b} h => compareQuarterly_ne_gt a b h)

/-! ## C11, C12: quarter-over-quarter comparison -/

theorem strictEquals_string (v : SqlValue) (s : String) :
    strictEquals (readColumn v) (.string s) = true ↔ v = .text s := by
  cases v with
  | null => simp [readColumn, strictEquals]
  | integer i => simp [readColumn, strictEquals]
  | real x => cases x <;> simp [readColumn, strictEquals]
  | text t => simp [readColumn, strictEquals]

theorem strictEquals_integer (v : SqlValue) (y : Int) :
    strictEquals (readColumn v) (.number (.finite y)) = true ↔
      v = .integer y ∨ v = .real (.finite y) := by
  cases v with
  | null => simp [readColumn, strictEquals]
  | integer i => simp [readColumn, strictEquals]
  | real x => cases x <;> simp [readColumn, strictEquals]
  | text t => simp [readColumn, strictEquals]

theorem prevYearOf_first (y : Int) :
    prevYearOf (.string "Q1") (.number (.finite y)) = .number (.finite ((y - 1 : Int) : ℚ)) := by
  simp [prevYearOf, strictEquals, toNumber, exactSub, ratSub_eq]

theorem prevYearOf_later (q : String) (hq : q ≠ "Q1") (v : JSValue) :
    prevYearOf (.string q) v = v := by
  simp [prevYearOf, strictEquals, hq]

theorem previousPeriod_eq (q : String) (y : Int) :
    prevQuarterOf (.string q) = .string (previousPeriod q y).1 ∧
      prevYearOf (.string q) (.number (.finite y)) =
        .number (.finite ((previousPeriod q y).2 : ℚ)) := by
  by_cases h1 : q = "Q1"
  · subst h1
    exact ⟨rfl, prevYearOf_first y⟩
  · rw [prevYearOf_later q h1]
    by_cases h2 : q = "Q2"
    · subst h2
      exact ⟨rfl, rfl⟩
    · by_cases h3 : q = "Q3"
      · subst h3
        exact ⟨rfl, rfl⟩
      · simp [prevQuarterOf, previousPeriod, strictEquals, h1, h2, h3]

/-- What `rows.find(r => r.quarter === q && r.year === y)` finds among the rows of a
query that selects records of metric `m`, the records of quarter `q` of year `y`
among them. -/
theorem find_period_row (cmp : MetricRecord → MetricRecord → Ordering)
    (data : List MetricRecord) (selected : MetricRecord → Bool) (m q : String) (y : Int)
    (hname : ∀ r, selected r = true → r.metric_name = .text m)
    (hselected : ∀ r, IsRecordOf m q y r → selected r = true) :
    (((orderBy cmp (data.filter selected)).map MetricRecord.toQoqRow).find? (fun r =>
        strictEquals r.quarter (.string q) && strictEquals r.year (.number (.finite y))) =
          none ∧ ∀ r ∈ data, ¬ IsRecordOf m q y r) ∨
      ∃ r ∈ data, IsRecordOf m q y r ∧
        ((orderBy cmp (data.filter selected)).map MetricRecord.toQoqRow).find? (fun r =>
          strictEquals r.quarter (.string q) && strictEquals r.year (.number (.finite y))) =
            some r.toQoqRow := by
  cases hfind : ((orderBy cmp (data.filter selected)).map MetricRecord.toQoqRow).find?
      (fun r => strictEquals r.quarter (.string q) &&
        strictEquals r.year (.number (.finite y))) with
  | none =>
    left
    refine ⟨rfl, ?_⟩
    intro r hr hrec
    rw [List.find?_eq_none] at hfind
    have hmem : r.toQoqRow ∈ (orderBy cmp (data.filter selected)).map MetricRecord.toQoqRow :=
      List.mem_map_of_mem _ ((mem_orderBy _ _ _).2
        (List.mem_filter.2 ⟨hr, hselected r hrec⟩))
    apply hfind _ hmem
    simp only [MetricRecord.toQoqRow, Bool.and_eq_true]
    exact ⟨(strictEquals_string _ _).2 hrec.2.1, (strictEquals_integer _ _).2 hrec.2.2⟩
  | some row =>
    right
    have hpred := List.find?_some hfind
    have hmem := List.mem_of_find?_eq_some hfind
    obtain ⟨r, hr, hrow⟩ := List.mem_map.1 hmem
    have hr2 := List.mem_filter.1 ((mem_orderBy _ _ _).1 hr)
    subst hrow
    simp only [MetricRecord.toQoqRow, Bool.and_eq_true] at hpred
    exact ⟨r, hr2.1, ⟨hname r hr2.2, (strictEquals_string _ _).1 hpred.1,
      (strictEquals_integer _ _).1 hpred.2⟩, rfl⟩

/-- C11. For every current quarter `q` in Q1..Q4, every year `y` and every metric
name, `getQuarterOverQuarterComparison` looks up as `previous` the quarter before:
Q4 of `y - 1` for Q1 and the quarter numbered one less of `y` for Q2, Q3, Q4.  The
returned `previous` is a stored record of the metric with exactly that quarter and
year, or `null` when no such record is stored; `current` is likewise a stored record
of the metric for quarter `q` of year `y`, or `null`. -/
theorem getQuarterOverQuarterComparison_lookup (db : Database) (m q : String) (y : Int)
    (hq : q ∈ ["Q1", "Q2", "Q3", "Q4"]) :
    previousPeriod q y =
        (if q = "Q1" then ("Q4", y - 1) else if q = "Q2" then ("Q1", y)
          else if q = "Q3" then ("Q2", y) else ("Q3", y)) ∧
      (((getQuarterOverQuarterComparison db (.string m) (.string q)
            (.number (.finite y))).previous = none ∧
          ∀ r ∈ db.quarterly_data,
            ¬ IsRecordOf m (previousPeriod q y).1 (previousPeriod q y).2 r) ∨
        ∃ r ∈ db.quarterly_data,
          IsRecordOf m (previousPeriod q y).1 (previousPeriod q y).2 r ∧
            (getQuarterOverQuarterComparison db (.string m) (.string q)
              (.number (.finite y))).previous = some r.toQoqRow) ∧
      (((getQuarterOverQuarterComparison db (.string m) (.string q)
            (.number (.finite y))).current = none ∧
          ∀ r ∈ db.quarterly_data, ¬ IsRecordOf m q y r) ∨
        ∃ r ∈ db.quarterly_data, IsRecordOf m q y r ∧
          (getQuarterOverQuarterComparison db (.string m) (.string q)
            (.number (.finite y))).current = some r.toQoqRow) := by
  have _ := hq
  obtain ⟨hpq, hpy⟩ := previousPeriod_eq q y
  have hname : ∀ r : MetricRecord,
      (columnEquals .text r.metric_name (bindParameter (.string m)) &&
        ((columnEquals .text r.quarter (bindParameter (.string q)) &&
            columnEquals .integer r.year (bindParameter (.number (.finite y)))) ||
          (columnEquals .text r.quarter (bindParameter (prevQuarterOf (.string q))) &&
            columnEquals .integer r.year
              (bindParameter (prevYearOf (.string q) (.number (.finite y))))))) = true →
      r.metric_name = .text m := by
    intro r hr
    rw [Bool.and_eq_true] at hr
    exact (columnEquals_text_string _ _).1 hr.1
  refine ⟨rfl, ?_, ?_⟩
  · simp only [getQuarterOverQuarterComparison, qoqRecords]
    rw [hpq, hpy]
    apply find_period_row _ _ _ m _ _
    · rw [← hpq, ← hpy]
      exact hname
    · intro r hrec
      simp only [Bool.and_eq_true, Bool.or_eq_true]
      exact ⟨(columnEquals_text_string _ _).2 hrec.1,
        Or.inr ⟨(columnEquals_text_string _ _).2 hrec.2.1,
          (columnEquals_integer_number _ _).2 hrec.2.2⟩⟩
  · simp only [getQuarterOverQuarterComparison, qoqRecords]
    apply find_period_row _ _ _ m _ _ hname
    intro r hrec
    simp only [Bool.and_eq_true, Bool.or_eq_true]
    exact ⟨(columnEquals_text_string _ _).2 hrec.1,
      Or.inl ⟨(columnEquals_text_string _ _).2 hrec.2.1,
        (columnEquals_integer_number _ _).2 hrec.2.2⟩⟩

/-- Witness for C11: the query (NRR, Q1, 2025) on the store with NRR records for
Q4-2024 and Q1-2025. -/
theorem getQuarterOverQuarterComparison_lookup_witness :
    "Q1" ∈ ["Q1", "Q2", "Q3", "Q4"] ∧
    previousPeriod "Q1" 2025 = ("Q4", 2024) ∧
    (getQuarterOverQuarterComparison nrrDatabase (.string "NRR") (.string "Q1")
      (.number (.finite 2025))).previous =
        some (sampleRecord 1 "Q4" 2024 "NRR" 102).toQoqRow ∧
    (getQuarterOverQuarterComparison nrrDatabase (.string "NRR") (.string "Q1")
      (.number (.finite 2025))).current =
        some (sampleRecord 2 "Q1" 2025 "NRR" 105).toQoqRow ∧
    (getQuarterOverQuarterComparison nrrDatabase (.string "NRR") (.string "Q4")
      (.number (.finite 2024))).previous = none :=
  ⟨by decide,
    (getQuarterOverQuarterComparison_lookup nrrDatabase "NRR" "Q1" 2025 (by decide)).1,
    rfl, rfl, rfl⟩

theorem numberSub_finite (a b : ℚ) :
    numberSub (.finite a) (.finite b) = roundToDouble (a - b) := by
  simp [numberSub, exactSub, roundNumber, ratSub_eq]

theorem numberDiv_finite (a b : ℚ) (hb : b ≠ 0) :
    numberDiv (.finite a) (.finite b) = roundToDouble (a / b) := by
  have hnum : b.num ≠ 0 := fun h => hb (Rat.zero_of_num_zero h)
  simp [numberDiv, exactDiv, roundNumber, hnum, ratDiv_eq]

theorem numberMul_finite (a b : ℚ) :
    numberMul (.finite a) (.finite b) = roundToDouble (a * b) := by
  simp [numberMul, exactMul, roundNumber, ratMul_eq]

/-- C12, as stated, fails.  On a store whose previous record has the metric value
`NULL`, the guard `previous.metric_value !== 0` lets the value through (it is not 0),
the division converts it to 0, and `changePercent` is `Infinity`: a division by zero
occurs.  And on the store of the claim's witness (NRR 102 for Q4-2024, 105 for Q1-2025)
`changePercent` is the double 6622940628486023 / 2 ^ 51, printed `2.941176470588235`,
which is not the number `300 / 102`. -/
theorem null_previous_value_divides_by_zero :
    ((getQuarterOverQuarterComparison nullValueDatabase (.string "NRR") (.string "Q1")
        (.number (.finite 2025))).previous.map (fun p => p.metric_value) = some .null ∧
      (getQuarterOverQuarterComparison nullValueDatabase (.string "NRR") (.string "Q1")
        (.number (.finite 2025))).current.map (fun c => c.metric_value) =
          some (.number (.finite 105)) ∧
      strictEquals .null (.number (.finite 0)) = false ∧
      toNumber .null = .finite 0 ∧
      (getQuarterOverQuarterComparison nullValueDatabase (.string "NRR") (.string "Q1")
        (.number (.finite 2025))).change = some (.finite 105) ∧
      (getQuarterOverQuarterComparison nullValueDatabase (.string "NRR") (.string "Q1")
        (.number (.finite 2025))).changePercent = some (.infinity false)) ∧
    ((getQuarterOverQuarterComparison nrrDatabase (.string "NRR") (.string "Q1")
        (.number (.finite 2025))).changePercent =
          some (.finite (mkRat 6622940628486023 2251799813685248)) ∧
      numberToString (.finite (mkRat 6622940628486023 2251799813685248)) =
        "2.941176470588235" ∧
      JSNumber.finite (mkRat 6622940628486023 2251799813685248) ≠
        .finite (mkRat 300 102)) :=
  ⟨⟨rfl, rfl, rfl, rfl, rfl, rfl⟩, rfl, rfl, by decide⟩

/-- C12 (amended). For every store and every (metric, quarter, year), the result of
`getQuarterOverQuarterComparison` has `change = null` and `changePercent = null` when
the current or the previous record is missing.  When both records exist,
`change = current.metric_value - previous.metric_value` and `changePercent` is `null`
when `previous.metric_value` is the number 0 and
`change / previous.metric_value * 100` otherwise, as JavaScript computes them: values
that are not numbers are converted (`NULL` to 0), and every operation gives the double
nearest to the exact result.  For numbers `a` (current) and `b` (previous):
`change` is the double nearest to `a - b`; for `b = 0` `changePercent` is `null`; for
`b ≠ 0` the divisor is `b`, so that no division by zero occurs, and with finite
intermediate results `d` (the change) and `r` (the double nearest to `d / b`)
`changePercent` is the double nearest to `r * 100`.  Nearest means: a double, and no
double is nearer to the exact result. -/
theorem getQuarterOverQuarterComparison_change (db : Database)
    (metricName currentQuarter currentYear : JSValue) :
    ((getQuarterOverQuarterComparison db metricName currentQuarter currentYear).current =
          none ∨
        (getQuarterOverQuarterComparison db metricName currentQuarter currentYear).previous =
          none →
      (getQuarterOverQuarterComparison db metricName currentQuarter currentYear).change =
          none ∧
        (getQuarterOverQuarterComparison db metricName currentQuarter
          currentYear).changePercent = none) ∧
    ∀ c p : QoqRow,
      (getQuarterOverQuarterComparison db metricName currentQuarter currentYear).current =
        some c →
      (getQuarterOverQuarterComparison db metricName currentQuarter currentYear).previous =
        some p →
      (getQuarterOverQuarterComparison db metricName currentQuarter currentYear).change =
          some (numberSub (toNumber c.metric_value) (toNumber p.metric_value)) ∧
        (p.metric_value = .number (.finite 0) →
          (getQuarterOverQuarterComparison db metricName currentQuarter
            currentYear).changePercent = none) ∧
        (strictEquals p.metric_value (.number (.finite 0)) = false →
          (getQuarterOverQuarterComparison db metricName currentQuarter
            currentYear).changePercent =
              some (numberMul
                (numberDiv (numberSub (toNumber c.metric_value) (toNumber p.metric_value))
                  (toNumber p.metric_value))
                (.finite 100))) ∧
        ∀ a b : ℚ, c.metric_value = .number (.finite a) →
          p.metric_value = .number (.finite b) →
          (getQuarterOverQuarterComparison db metricName currentQuarter currentYear).change =
              some (roundToDouble (a - b)) ∧
            (∀ d : ℚ, roundToDouble (a - b) = .finite d →
              IsDouble d ∧ ∀ y, IsDouble y → |d - (a - b)| ≤ |y - (a - b)|) ∧
            (b = 0 →
              (getQuarterOverQuarterComparison db metricName currentQuarter
                currentYear).changePercent = none) ∧
            (b ≠ 0 →
              (getQuarterOverQuarterComparison db metricName currentQuarter
                  currentYear).changePercent =
                some (numberMul (numberDiv (roundToDouble (a - b)) (.finite b))
                  (.finite 100)) ∧
              ∀ d r : ℚ, roundToDouble (a - b) = .finite d →
                roundToDouble (d / b) = .finite r →
                (IsDouble r ∧ ∀ y, IsDouble y → |r - d / b| ≤ |y - d / b|) ∧
                (getQuarterOverQuarterComparison db metricName currentQuarter
                  currentYear).changePercent = some (roundToDouble (r * 100)) ∧
                ∀ x : ℚ, roundToDouble (r * 100) = .finite x →
                  IsDouble x ∧ ∀ y, IsDouble y → |x - r * 100| ≤ |y - r * 100|) := by
  simp only [getQuarterOverQuarterComparison]
  generalize ((qoqRecords db metricName currentQuarter currentYear).map
    MetricRecord.toQoqRow).find? (fun r =>
      strictEquals r.quarter currentQuarter && strictEquals r.year currentYear) = current
  generalize ((qoqRecords db metricName currentQuarter currentYear).map
    MetricRecord.toQoqRow).find? (fun r =>
      strictEquals r.quarter (prevQuarterOf currentQuarter) &&
        strictEquals r.year (prevYearOf currentQuarter currentYear)) = previous
  constructor
  · rintro (h | h) <;> subst h
    · exact ⟨rfl, rfl⟩
    · cases current <;> exact ⟨rfl, rfl⟩
  · intro c p hc hp
    subst hc hp
    refine ⟨rfl, ?_, ?_, ?_⟩
    · intro hzero
      simp [hzero, strictEquals]
    · intro hguard
      simp [hguard, jsSubtract]
    · intro a b ha hb
      simp only [ha, hb, jsSubtract, toNumber, numberSub_finite]
      refine ⟨trivial, fun d hd => roundToDouble_nearest _ d hd, ?_, ?_⟩
      · intro hzero
        simp [strictEquals, hzero]
      · intro hne
        have hguard : strictEquals (.number (.finite b)) (.number (.finite 0)) = false := by
          simp [strictEquals, hne]
        simp only [hguard, Bool.not_false, if_true, true_and]
        intro d r hd hr
        refine ⟨roundToDouble_nearest _ r hr, ?_, fun x hx => roundToDouble_nearest _ x hx⟩
        rw [hd, numberDiv_finite d b hne, hr, numberMul_finite]

/-- Witness for C12 (amended): with only an NRR record of 102 for Q4-2024 and one of
105 for Q1-2025, the query (NRR, Q1, 2025) gives `change = 3` and `changePercent` the
double printed `2.941176470588235`, which is `300 / 102` to within `10 ^ (-15)`. -/
theorem getQuarterOverQuarterComparison_change_witness :
    (getQuarterOverQuarterComparison nrrDatabase (.string "NRR") (.string "Q1")
      (.number (.finite 2025))).change = some (.finite 3) ∧
    (getQuarterOverQuarterComparison nrrDatabase (.string "NRR") (.string "Q1")
      (.number (.finite 2025))).changePercent =
        some (.finite (mkRat 6622940628486023 2251799813685248)) ∧
    toStringJS (.number (.finite (mkRat 6622940628486023 2251799813685248))) =
      "2.941176470588235" ∧
    |mkRat 6622940628486023 2251799813685248 - (300 / 102 : ℚ)| < 1 / 10 ^ 15 := by
  have h := ((getQuarterOverQuarterComparison_change nrrDatabase (.string "NRR")
    (.string "Q1") (.number (.finite 2025))).2
    (sampleRecord 2 "Q1" 2025 "NRR" 105).toQoqRow
    (sampleRecord 1 "Q4" 2024 "NRR" 102).toQoqRow rfl rfl).2.2.2 105 102
    (by simp [MetricRecord.toQoqRow, sampleRecord, readColumn])
    (by simp [MetricRecord.toQoqRow, sampleRecord, readColumn])
  have h3 : roundToDouble ((105 : ℚ) - 102) = .finite 3 := by
    have : (105 : ℚ) - 102 = ((3 : Int) : ℚ) := by norm_num
    rw [this]
    exact roundToDouble_intCast 3 (by decide)
  have hq : roundToDouble ((3 : ℚ) / 102) =
      .finite (mkRat 4238682002231055 144115188075855872) := by
    have : (3 : ℚ) / 102 = mkRat 3 102 := by rw [Rat.mkRat_eq_div]; norm_num
    rw [this]
    rfl
  have hm : roundToDouble (mkRat 4238682002231055 144115188075855872 * 100) =
      .finite (mkRat 6622940628486023 2251799813685248) := by
    have : mkRat 4238682002231055 144115188075855872 * (100 : ℚ) =
        mkRat 423868200223105500 144115188075855872 := by
      rw [Rat.mkRat_eq_div, Rat.mkRat_eq_div]
      norm_num
    rw [this]
    rfl
  refine ⟨?_, ?_, rfl, ?_⟩
  · rw [h.1, h3]
  · rw [((h.2.2.2 (by norm_num)).2 3 _ h3 hq).2.1, hm]
  · rw [Rat.mkRat_eq_div, abs_lt]
    constructor <;> norm_num

/-! ## C13: trend data -/

theorem compareFiscal_ne_gt (a b : MetricRecord) :
    compareFiscal b a ≠ .gt ↔ NoLaterThan a b := by
  have hy : compare a.year b.year = sqlCompare a.year b.year := rfl
  have hq : compare (quarterRank a.quarter) (quarterRank b.quarter) =
      sqlCompare (quarterRank a.quarter) (quarterRank b.quarter) := rfl
  simp only [compareFiscal, compareLex, compareOn, flip, hy, hq, NoLaterThan]
  cases sqlCompare a.year b.year <;> simp [Ordering.then]

theorem quarterRank_label (q : String) (hq : q ∈ ["Q1", "Q2", "Q3", "Q4"]) :
    quarterRank (.text q) = .integer (fiscalIndex q) := by
  simp only [List.mem_cons, List.mem_singleton, List.not_mem_nil, or_false] at hq
  rcases hq with rfl | rfl | rfl | rfl <;> rfl

/-- For records with integer years and quarter labels Q1..Q4, `NoLaterThan` is the
order by year, then by the number of the quarter. -/
theorem noLaterThan_iff (a b : MetricRecord) (ya yb : Int) (qa qb : String)
    (hya : a.year = .integer ya) (hyb : b.year = .integer yb)
    (hqa : a.quarter = .text qa) (hqb : b.quarter = .text qb)
    (ha : qa ∈ ["Q1", "Q2", "Q3", "Q4"]) (hb : qb ∈ ["Q1", "Q2", "Q3", "Q4"]) :
    NoLaterThan a b ↔ ya < yb ∨ (ya = yb ∧ fiscalIndex qa ≤ fiscalIndex qb) := by
  unfold NoLaterThan
  rw [hya, hyb, hqa, hqb, quarterRank_label qa ha, quarterRank_label qb hb,
    sqlCompare_integer, sqlCompare_integer, compare_lt_iff_lt, compare_eq_iff_eq,
    Ne, compare_gt_iff_gt, not_lt]

/-- C13. For every store, metric name and count `n >= 1`, `getTrendData` returns
`min(n, number of stored records with that metric name)` records, all of them stored
records with that metric name, in chronological order (ascending by year, then by
fiscal quarter Q1 < Q2 < Q3 < Q4); every stored record of the metric that is not
returned is no later than every returned one.  A returned row holds the quarter, the
year, the metric value, the target value and the creation time of its record, as they
are read from the columns. -/
theorem getTrendData_latest_chronological (db : Database) (m : String) (n : Int)
    (hn : 1 ≤ n) :
    ∃ returned rest : List MetricRecord,
      getTrendData db (.string m) n = returned.map (fun r =>
        ({ quarter := readColumn r.quarter, year := readColumn r.year,
           metric_value := readColumn r.metric_value,
           target_value := readColumn r.target_value,
           created_at := readColumn r.created_at } : TrendRow)) ∧
      (returned ++ rest).Perm (db.quarterly_data.filter (fun r => r.metric_name = .text m)) ∧
      returned.length =
        min n.toNat (db.quarterly_data.filter (fun r => r.metric_name = .text m)).length ∧
      (∀ r ∈ returned, r ∈ db.quarterly_data ∧ r.metric_name = .text m) ∧
      returned.Pairwise NoLaterThan ∧
      ∀ x ∈ rest, ∀ r ∈ returned, NoLaterThan x r := by
  have hfilter : db.quarterly_data.filter (fun r =>
      columnEquals .text r.metric_name (bindParameter (.string m))) =
      db.quarterly_data.filter (fun r => r.metric_name = .text m) := by
    apply List.filter_congr
    intro r _
    rw [Bool.eq_iff_iff]
    simp [columnEquals_text_string]
  have hperm := orderBy_perm compareFiscal
    (db.quarterly_data.filter (fun r => r.metric_name = .text m))
  have hsorted := orderBy_sorted compareFiscal transCmp_compareFiscal
    (db.quarterly_data.filter (fun r => r.metric_name = .text m))
  have hlimit : ¬ n < 0 := by omega
  refine ⟨((orderBy compareFiscal
      (db.quarterly_data.filter (fun r => r.metric_name = .text m))).take n.toNat).reverse,
    (orderBy compareFiscal
      (db.quarterly_data.filter (fun r => r.metric_name = .text m))).drop n.toNat,
    ?_, ?_, ?_, ?_, ?_, ?_⟩
  · show getTrendData db (.string m) n = List.map MetricRecord.toTrendRow _
    simp only [getTrendData, trendRecords, limitRows, hfilter, if_neg hlimit,
      List.map_reverse]
  · exact ((List.reverse_perm _).append_right _).trans
      ((List.Perm.of_eq (List.take_append_drop _ _)).trans hperm)
  · rw [List.length_reverse, List.length_take, hperm.length_eq]
  · intro r hr
    have h1 := List.mem_of_mem_take (List.mem_reverse.1 hr)
    have h2 := List.mem_filter.1 (hperm.mem_iff.1 h1)
    exact ⟨h2.1, by simpa using h2.2⟩
  · rw [List.pairwise_reverse]
    exact (hsorted.sublist (List.take_sublist _ _)).imp
      (fun {a b} h => (compareFiscal_ne_gt b a).1 h)
  · intro x hx r hr
    rw [← List.take_append_drop n.toNat (orderBy compareFiscal
      (db.quarterly_data.filter (fun r => r.metric_name = .text m))),
      List.pairwise_append] at hsorted
    exact (compareFiscal_ne_gt x r).1 (hsorted.2.2 r (List.mem_reverse.1 hr) x hx)

/-- Witness for C13: with one Total ARR record for each of Q1..Q4 2024 (values 10, 11,
12, 13) and `n = 2` the result is [Q3-2024 with value 12, Q4-2024 with value 13]. -/
theorem getTrendData_latest_chronological_witness :
    (1 : Int) ≤ 2 ∧
    getTrendData arrDatabase (.string "Total ARR") 2 =
      [{ quarter := .string "Q3", year := .number (.finite 2024),
         metric_value := .number (.finite 12), target_value := .null,
         created_at := .string "2026-11-05 10:00:00" },
       { quarter := .string "Q4", year := .number (.finite 2024),
         metric_value := .number (.finite 13), target_value := .null,
         created_at := .string "2026-11-05 10:00:00" }] ∧
    ∃ returned rest : List MetricRecord,
      getTrendData arrDatabase (.string "Total ARR") 2 = returned.map (fun r =>
        ({ quarter := readColumn r.quarter, year := readColumn r.year,
           metric_value := readColumn r.metric_value,
           target_value := readColumn r.target_value,
           created_at := readColumn r.created_at } : TrendRow)) ∧
      (returned ++ rest).Perm
        (arrDatabase.quarterly_data.filter (fun r => r.metric_name = .text "Total ARR")) ∧
      returned.length = min (2 : Int).toNat
        (arrDatabase.quarterly_data.filter
          (fun r => r.metric_name = .text "Total ARR")).length ∧
      (∀ r ∈ returned, r ∈ arrDatabase.quarterly_data ∧ r.metric_name = .text "Total ARR") ∧
      returned.Pairwise NoLaterThan ∧
      ∀ x ∈ rest, ∀ r ∈ returned, NoLaterThan x r :=
  ⟨by decide, rfl,
    getTrendData_latest_chronological arrDatabase "Total ARR" 2 (by decide)⟩

/-! ## C14: comparison across quarters -/

theorem distinctRows_sublist {α : Type} (same : α → α → Bool) (l : List α) :
    (distinctRows same l).Sublist l := by
  induction l with
  | nil => exact List.Sublist.slnil
  | cons a rest ih =>
    exact List.Sublist.cons₂ a ((List.filter_sublist _).trans ih)

theorem mem_distinctRows {α : Type} (same : α → α → Bool) (l : List α)
    (hsame : ∀ a ∈ l, ∀ b ∈ l, (same a b = true ↔ a = b)) (x : α) :
    x ∈ distinctRows same l ↔ x ∈ l := by
  refine ⟨fun h => (distinctRows_sublist same l).subset h, ?_⟩
  induction l with
  | nil => exact fun h => h
  | cons a rest ih =>
    intro hx
    by_cases hxa : x = a
    · rw [hxa]
      exact List.mem_cons_self _ _
    · have hrest : x ∈ rest := (List.mem_cons.1 hx).resolve_left hxa
      have hih := ih (fun a ha b hb =>
        hsame a (List.mem_cons_of_mem _ ha) b (List.mem_cons_of_mem _ hb)) hrest
      refine List.mem_cons_of_mem _ (List.mem_filter.2 ⟨hih, ?_⟩)
      have hne : ¬ same a x = true := fun h =>
        hxa ((hsame a (List.mem_cons_self _ _) x hx).1 h).symm
      simpa using hne

theorem nodup_distinctRows {α : Type} (same : α → α → Bool) (l : List α)
    (hsame : ∀ a ∈ l, ∀ b ∈ l, (same a b = true ↔ a = b)) :
    (distinctRows same l).Nodup := by
  induction l with
  | nil => exact List.nodup_nil
  | cons a rest ih =>
    have hih := ih (fun a ha b hb =>
      hsame a (List.mem_cons_of_mem _ ha) b (List.mem_cons_of_mem _ hb))
    refine List.nodup_cons.2 ⟨?_, hih.filter _⟩
    intro ha
    have h1 := (List.mem_filter.1 ha).2
    have h2 := (hsame a (List.mem_cons_self _ _) a (List.mem_cons_self _ _)).2 rfl
    simp [h2] at h1

theorem validPeriod_iff (p : SqlValue × SqlValue) :
    validPeriod p = true ↔
      ∃ q y, p = (.text q, .integer y) ∧ q ∈ ["Q1", "Q2", "Q3", "Q4"] ∧
        2020 ≤ y ∧ y ≤ 2030 := by
  constructor
  · intro h
    rcases p with ⟨a, b⟩
    cases a with
    | text q =>
      cases b with
      | integer y =>
        simp only [validPeriod, Bool.and_eq_true, decide_eq_true_eq] at h
        exact ⟨q, y, rfl, h.1.1, h.1.2, h.2⟩
      | _ => simp [validPeriod] at h
    | _ => cases b <;> simp [validPeriod] at h
  · rintro ⟨q, y, rfl, hq, h1, h2⟩
    simp only [validPeriod, Bool.and_eq_true, decide_eq_true_eq]
    exact ⟨⟨hq, h1⟩, h2⟩

/-- On the labels Q1..Q4 the order of the texts is the fiscal order. -/
theorem label_order (a b : String) (ha : a ∈ ["Q1", "Q2", "Q3", "Q4"])
    (hb : b ∈ ["Q1", "Q2", "Q3", "Q4"]) :
    sqlCompare (.text a) (.text b) =
      sqlCompare (quarterRank (.text a)) (quarterRank (.text b)) := by
  simp only [List.mem_cons, List.mem_singleton, List.not_mem_nil, or_false] at ha hb
  rcases ha with rfl | rfl | rfl | rfl <;> rcases hb with rfl | rfl | rfl | rfl <;> rfl

theorem samePeriod_iff (a b : SqlValue × SqlValue) (ha : validPeriod a = true)
    (hb : validPeriod b = true) : samePeriod a b = true ↔ a = b := by
  obtain ⟨qa, ya, rfl, _, _, _⟩ := (validPeriod_iff a).1 ha
  obtain ⟨qb, yb, rfl, _, _, _⟩ := (validPeriod_iff b).1 hb
  simp [samePeriod, sqlCompare_text, sqlCompare_integer, compare_eq_iff_eq]

theorem comparePeriod_strict (a b : SqlValue × SqlValue) (ha : validPeriod a = true)
    (hb : validPeriod b = true) (hcmp : comparePeriod a b ≠ .gt) (hne : a ≠ b) :
    MoreRecent a b := by
  obtain ⟨qa, ya, rfl, hqa, _, _⟩ := (validPeriod_iff a).1 ha
  obtain ⟨qb, yb, rfl, hqb, _, _⟩ := (validPeriod_iff b).1 hb
  have hy : compare (SqlValue.integer yb) (SqlValue.integer ya) = compare yb ya :=
    sqlCompare_integer yb ya
  have hq : compare (SqlValue.text qb) (SqlValue.text qa) = compare qb qa :=
    sqlCompare_text qb qa
  simp only [comparePeriod, compareLex, compareOn, flip, hy, hq] at hcmp
  unfold MoreRecent
  simp only [← label_order qb qa hqb hqa, sqlCompare_integer, sqlCompare_text]
  cases h1 : compare yb ya with
  | lt => exact Or.inl rfl
  | gt => simp [h1, Ordering.then] at hcmp
  | eq =>
    right
    refine ⟨rfl, ?_⟩
    cases h2 : compare qb qa with
    | lt => rfl
    | gt => simp [h1, h2, Ordering.then] at hcmp
    | eq =>
      rw [compare_eq_iff_eq] at h1 h2
      exact absurd (by rw [h1, h2]) hne

/-- For a valid period the key JavaScript builds and the key SQL builds are the same
text. -/
theorem sqlPeriodKey_eq (r : MetricRecord) (h : validPeriod r.period = true) :
    sqlPeriodKey r = .text (periodKey r.period) := by
  obtain ⟨q, y, hp, _, h1, h2⟩ := (validPeriod_iff r.period).1 h
  have hq : r.quarter = .text q := congrArg Prod.fst hp
  have hy : r.year = .integer y := congrArg Prod.snd hp
  simp only [sqlPeriodKey, periodKey, MetricRecord.period, hq, hy]
  interval_cases y <;> rfl

theorem periodKeyIn_iff (quarters : List String) (r : MetricRecord)
    (h : validPeriod r.period = true) :
    periodKeyIn quarters r = true ↔ periodKey r.period ∈ quarters := by
  simp only [periodKeyIn, sqlPeriodKey_eq r h, List.any_eq_true, sqlEquals_text,
    SqlValue.text.injEq]
  constructor
  · rintro ⟨key, hkey, heq⟩
    rw [heq]
    exact hkey
  · intro hmem
    exact ⟨_, hmem, rfl⟩

/-- The latest periods of a store of valid records: at most four, most recent first,
all stored, and more recent than every stored period that is left out. -/
theorem latestPeriods_spec (db : Database)
    (hvalid : ∀ r ∈ db.quarterly_data, validPeriod r.period = true) :
    (latestPeriods db).length ≤ 4 ∧
      (latestPeriods db).Pairwise MoreRecent ∧
      (∀ p ∈ latestPeriods db, ∃ r ∈ db.quarterly_data, r.period = p) ∧
      ∀ r ∈ db.quarterly_data,
        r.period ∈ latestPeriods db ∨
          ((latestPeriods db).length = 4 ∧ ∀ p ∈ latestPeriods db, MoreRecent p r.period) := by
  have hl : ∀ p ∈ db.quarterly_data.map (fun r => (r.quarter, r.year)),
      validPeriod p = true := by
    intro p hp
    obtain ⟨r, hr, rfl⟩ := List.mem_map.1 hp
    exact hvalid r hr
  have hsame : ∀ a ∈ db.quarterly_data.map (fun r => (r.quarter, r.year)),
      ∀ b ∈ db.quarterly_data.map (fun r => (r.quarter, r.year)),
        (samePeriod a b = true ↔ a = b) :=
    fun a ha b hb => samePeriod_iff a b (hl a ha) (hl b hb)
  have hmem : ∀ p, p ∈ orderBy comparePeriod (distinctRows samePeriod
      (db.quarterly_data.map (fun r => (r.quarter, r.year)))) ↔
      p ∈ db.quarterly_data.map (fun r => (r.quarter, r.year)) := by
    intro p
    rw [mem_orderBy, mem_distinctRows _ _ hsame]
  have hnodup : (orderBy comparePeriod (distinctRows samePeriod
      (db.quarterly_data.map (fun r => (r.quarter, r.year))))).Nodup :=
    (orderBy_perm _ _).nodup_iff.2 (nodup_distinctRows _ _ hsame)
  have hsorted : (orderBy comparePeriod (distinctRows samePeriod
      (db.quarterly_data.map (fun r => (r.quarter, r.year))))).Pairwise MoreRecent := by
    refine List.Pairwise.imp_of_mem ?_
      ((orderBy_sorted comparePeriod transCmp_comparePeriod _).and hnodup)
    intro a b ha hb hab
    exact comparePeriod_strict a b (hl a ((hmem a).1 ha)) (hl b ((hmem b).1 hb)) hab.1 hab.2
  have hlatest : latestPeriods db = (orderBy comparePeriod (distinctRows samePeriod
      (db.quarterly_data.map (fun r => (r.quarter, r.year))))).take 4 := by
    simp [latestPeriods, limitRows]
  rw [hlatest]
  refine ⟨List.length_take_le _ _, hsorted.sublist (List.take_sublist _ _), ?_, ?_⟩
  · intro p hp
    obtain ⟨r, hr, hrp⟩ := List.mem_map.1 ((hmem p).1 (List.mem_of_mem_take hp))
    exact ⟨r, hr, hrp⟩
  · intro r hr
    have hin : r.period ∈ orderBy comparePeriod (distinctRows samePeriod
        (db.quarterly_data.map (fun r => (r.quarter, r.year)))) :=
      (hmem _).2 (List.mem_map_of_mem _ hr)
    rw [← List.take_append_drop 4 (orderBy comparePeriod (distinctRows samePeriod
      (db.quarterly_data.map (fun r => (r.quarter, r.year))))), List.mem_append] at hin
    rcases hin with hin | hin
    · exact Or.inl hin
    · right
      constructor
      · have hlen := List.length_pos_of_mem hin
        rw [List.length_drop] at hlen
        rw [List.length_take]
        omega
      · intro p hp
        rw [← List.take_append_drop 4 (orderBy comparePeriod (distinctRows samePeriod
          (db.quarterly_data.map (fun r => (r.quarter, r.year))))),
          List.pairwise_append] at hsorted
        exact hsorted.2.2 p hp _ hin

/-! ### The stores the program writes hold valid periods -/

/-- Every record that `validateData` returns has a quarter label Q1..Q4 and a year from
2020 to 2030. -/
theorem validateData_periods (data : RawData) (out : List ValidatedRow)
    (h : validateData data = .ok out) :
    ∀ r ∈ out, r.quarter ∈ ["Q1", "Q2", "Q3", "Q4"] ∧ 2020 ≤ r.year ∧ r.year ≤ 2030 := by
  cases data with
  | nonArray v => cases h
  | array rows =>
    by_cases hne : rows = []
    · subst hne
      cases h
    · rw [validateData_array rows hne] at h
      split_ifs at h
      cases h
      intro r hr
      obtain ⟨row, _, hrow⟩ := List.mem_filterMap.1 hr
      have hv : validateRow row 0 = .ok r := by
        unfold acceptedRecord at hrow
        cases hres : validateRow row 0 with
        | ok v =>
          rw [hres] at hrow
          simp only [Option.some.injEq] at hrow
          rw [hrow]
        | error e =>
          rw [hres] at hrow
          cases hrow
      obtain ⟨_, h1, h2, _⟩ := (validateRow_ok_iff row 0 r).1 hv
      obtain ⟨_, _, _, hq⟩ := (checkQuarter_ok_iff row _).1 h1
      obtain ⟨_, hlo, hhi⟩ := (checkYear_ok_iff row _).1 h2
      exact ⟨hq, hlo, hhi⟩

/-- The record that the upload route stores for a validated row has the period of the
row: the quarter as a text and the year as an integer. -/
theorem saveValidatedRow_period (db : Database) (now : String) (fileId : Int)
    (row : ValidatedRow) (hq : row.quarter ∈ ["Q1", "Q2", "Q3", "Q4"])
    (hlo : 2020 ≤ row.year) (hhi : row.year ≤ 2030) :
    ∃ next id record, saveValidatedRow db now fileId row = .ok (next, id) ∧
      next.quarterly_data = db.quarterly_data ++ [record] ∧
      validPeriod record.period = true := by
  have hyear : Affinity.integer.apply (bindParameter (.number (.finite row.year))) =
      .integer row.year := by
    generalize row.year = y at hlo hhi
    interval_cases y <;> rfl
  have hok := saveQuarterlyData_ok db now (.number (.finite fileId)) (.string row.quarter)
    (.number (.finite row.year)) (.string row.metric_name) (.number row.metric_value)
    (optionalString row.metric_unit) (optionalString row.category)
    (optionalNumber row.target_value) (optionalString row.status)
    (by simp [bindParameter, Affinity.apply]) (stored_integer_ne_null row.year)
    (by simp [bindParameter, Affinity.apply])
  refine ⟨_, _, _, hok, rfl, ?_⟩
  show validPeriod (Affinity.text.apply (bindParameter (.string row.quarter)),
    Affinity.integer.apply (bindParameter (.number (.finite row.year)))) = true
  rw [hyear]
  exact (validPeriod_iff _).2 ⟨row.quarter, row.year, rfl, hq, hlo, hhi⟩

/-- The inserts of the upload route keep a store of valid periods one. -/
theorem saveProcessedData_periods (now : String) (fileId : Int) (rows : List ValidatedRow)
    (hrows : ∀ r ∈ rows, r.quarter ∈ ["Q1", "Q2", "Q3", "Q4"] ∧ 2020 ≤ r.year ∧
      r.year ≤ 2030)
    (db : Database) (hdb : ∀ r ∈ db.quarterly_data, validPeriod r.period = true) :
    ∀ r ∈ (saveProcessedData now fileId db rows).1.quarterly_data,
      validPeriod r.period = true := by
  induction rows generalizing db with
  | nil => exact hdb
  | cons row rest ih =>
    obtain ⟨hq, hlo, hhi⟩ := hrows row (List.mem_cons_self _ _)
    obtain ⟨next, id, record, hsave, hdata, hvalid⟩ :=
      saveValidatedRow_period db now fileId row hq hlo hhi
    simp only [saveProcessedData, hsave]
    apply ih (fun r hr => hrows r (List.mem_cons_of_mem _ hr))
    intro r hr
    rw [hdata, List.mem_append, List.mem_singleton] at hr
    rcases hr with hr | hr
    · exact hdb r hr
    · rw [hr]
      exact hvalid

/-- Every record of a store the program writes has a valid period: a quarter label
Q1..Q4 and an integer year from 2020 to 2030. -/
theorem reachable_periods (db : Database) (h : Reachable db) :
    ∀ r ∈ db.quarterly_data, validPeriod r.period = true := by
  induction h with
  | empty =>
    intro r hr
    cases hr
  | upload db now filename originalName fileType fileSize data _ ih =>
    unfold uploadFileRoute
    cases hv : validateData data with
    | error e => exact ih
    | ok processedData =>
      cases hf : saveFileMetadata db now filename originalName fileType fileSize with
      | error e => exact ih
      | ok res =>
        obtain ⟨withFile, fileId⟩ := res
        have hsame : withFile.quarterly_data = db.quarterly_data := by
          unfold saveFileMetadata at hf
          simp only [bind, Except.bind, pure, Except.pure] at hf
          split at hf
          · cases hf
          · split at hf
            · cases hf
            · split at hf
              · cases hf
              · cases hf
                rfl
        have hrows := validateData_periods data processedData hv
        have hall := saveProcessedData_periods now fileId processedData hrows withFile
          (by rw [hsame]; exact ih)
        simp only
        cases hs : saveProcessedData now fileId withFile processedData with
        | mk saved outcome =>
          rw [hs] at hall
          cases outcome <;> exact hall
  | deleteFile db fileIdParam _ ih =>
    unfold deleteFileRoute
    cases parseIntText fileIdParam with
    | none => exact ih
    | some fileId =>
      simp only
      cases (getFiles db).find? (fun f =>
          strictEquals (readColumn (.integer f.id)) (.number (.finite fileId))) with
      | none => exact ih
      | some f => exact ih
  | saveConfig json db now configName configData next id _ hsave ih =>
    have hsame : next.quarterly_data = db.quarterly_data := by
      unfold saveDashboardConfig at hsave
      simp only [bind, Except.bind, pure, Except.pure] at hsave
      split at hsave
      · cases hsave
      · split at hsave
        · cases hsave
        · cases hsave
          rfl
    rw [hsame]
    exact ih

theorem distinctRows_ne_nil {α : Type} (same : α → α → Bool) (l : List α) (h : l ≠ []) :
    distinctRows same l ≠ [] := by
  cases l with
  | nil => exact absurd rfl h
  | cons a rest => simp [distinctRows]

/-- A store with a record has a latest period. -/
theorem latestPeriods_ne_nil (db : Database) (h : db.quarterly_data ≠ []) :
    latestPeriods db ≠ [] := by
  have hd : distinctRows samePeriod (db.quarterly_data.map (fun r => (r.quarter, r.year))) ≠
      [] := distinctRows_ne_nil _ _ (by simpa using h)
  have hs : orderBy comparePeriod
      (distinctRows samePeriod (db.quarterly_data.map (fun r => (r.quarter, r.year)))) ≠
      [] := by
    intro hnil
    have := (orderBy_perm comparePeriod (distinctRows samePeriod
      (db.quarterly_data.map (fun r => (r.quarter, r.year))))).length_eq
    rw [hnil] at this
    exact hd (List.length_eq_zero.1 this.symm)
  intro hnil
  have hlatest : latestPeriods db = (orderBy comparePeriod (distinctRows samePeriod
      (db.quarterly_data.map (fun r => (r.quarter, r.year))))).take 4 := by
    simp [latestPeriods, limitRows]
  rw [hlatest, List.take_eq_nil_iff] at hnil
  rcases hnil with h4 | h0
  · cases h4
  · exact hs h0

/-- C14. For every store: for a non-empty list `L`, `getMetricsComparison(L)` returns
exactly the stored records whose key `year || '-' || quarter` is an element of `L`, each
as the row of its columns quarter, year, metric_name, metric_value, metric_unit and
category; and when the store contains at least one record, `getMetricsComparison([])`
returns exactly the rows of `getMetricsComparison(L)` for the list `L` of the
`year-quarter` keys of the latest periods, which is not empty and has at most 4 keys.
For every store the program writes (the records of uploaded files), the key of a record
is the text `year-quarter` that JavaScript builds for its period, and the latest periods
are at most 4 distinct (year, quarter) pairs present in storage, most recent first, such
that every stored pair that is left out is less recent than each of the 4 (most recent:
greatest year and, within a year, latest fiscal quarter). -/
theorem getMetricsComparison_latest_periods (db : Database) (fuel : Nat) :
    (∀ L : List String, L ≠ [] →
      ∃ records : List MetricRecord,
        getMetricsComparison (fuel + 1) db L = some (records.map (fun r =>
          ({ quarter := readColumn r.quarter, year := readColumn r.year,
             metric_name := readColumn r.metric_name,
             metric_value := readColumn r.metric_value,
             metric_unit := readColumn r.metric_unit,
             category := readColumn r.category } : ComparisonRow))) ∧
        records.Perm (db.quarterly_data.filter (periodKeyIn L)) ∧
        (∀ r, periodKeyIn L r = true ↔ ∃ key ∈ L, sqlPeriodKey r = .text key) ∧
        (Reachable db →
          records.Perm
            (db.quarterly_data.filter (fun r => decide (periodKey r.period ∈ L))))) ∧
    (db.quarterly_data ≠ [] →
      (latestPeriods db).map periodKey ≠ [] ∧
      getMetricsComparison (fuel + 2) db [] =
        getMetricsComparison (fuel + 1) db ((latestPeriods db).map periodKey) ∧
      ∃ rows, getMetricsComparison (fuel + 2) db [] = some rows) ∧
    (latestPeriods db).length ≤ 4 ∧
    (Reachable db →
      (∀ r ∈ db.quarterly_data,
        validPeriod r.period = true ∧ sqlPeriodKey r = .text (periodKey r.period)) ∧
      (latestPeriods db).Pairwise MoreRecent ∧
      (∀ p ∈ latestPeriods db, ∃ r ∈ db.quarterly_data, r.period = p) ∧
      ∀ r ∈ db.quarterly_data,
        r.period ∈ latestPeriods db ∨
          ((latestPeriods db).length = 4 ∧
            ∀ p ∈ latestPeriods db, MoreRecent p r.period)) := by
  have hlist : ∀ L : List String, L ≠ [] →
      ∃ records : List MetricRecord,
        getMetricsComparison (fuel + 1) db L = some (records.map (fun r =>
          ({ quarter := readColumn r.quarter, year := readColumn r.year,
             metric_name := readColumn r.metric_name,
             metric_value := readColumn r.metric_value,
             metric_unit := readColumn r.metric_unit,
             category := readColumn r.category } : ComparisonRow))) ∧
        records.Perm (db.quarterly_data.filter (periodKeyIn L)) ∧
        (∀ r, periodKeyIn L r = true ↔ ∃ key ∈ L, sqlPeriodKey r = .text key) ∧
        (Reachable db →
          records.Perm
            (db.quarterly_data.filter (fun r => decide (periodKey r.period ∈ L)))) := by
    intro L hL
    refine ⟨orderBy compareQuarterly (db.quarterly_data.filter (periodKeyIn L)), ?_,
      orderBy_perm _ _, ?_, ?_⟩
    · have hlen : ¬ L.length = 0 := fun h => hL (List.length_eq_zero.1 h)
      show getMetricsComparison (fuel + 1) db L =
        some (List.map MetricRecord.toComparisonRow _)
      simp only [getMetricsComparison, if_neg hlen]
    · intro r
      simp only [periodKeyIn, List.any_eq_true, sqlEquals_text]
    · intro hreach
      refine (orderBy_perm _ _).trans (List.Perm.of_eq (List.filter_congr ?_))
      intro r hr
      rw [Bool.eq_iff_iff, periodKeyIn_iff L r (reachable_periods db hreach r hr),
        decide_eq_true_eq]
  have hlatest : latestPeriods db = (orderBy comparePeriod (distinctRows samePeriod
      (db.quarterly_data.map (fun r => (r.quarter, r.year))))).take 4 := by
    simp [latestPeriods, limitRows]
  refine ⟨hlist, ?_, ?_, ?_⟩
  · intro hstore
    have hkeys : (latestPeriods db).map periodKey ≠ [] := by
      intro hnil
      exact latestPeriods_ne_nil db hstore (List.map_eq_nil_iff.1 hnil)
    have hstep : getMetricsComparison (fuel + 2) db [] =
        getMetricsComparison (fuel + 1) db ((latestPeriods db).map periodKey) := by
      rw [getMetricsComparison]
      simp
    refine ⟨hkeys, hstep, ?_⟩
    rw [hstep]
    obtain ⟨records, hrec, _⟩ := hlist _ hkeys
    exact ⟨_, hrec⟩
  · rw [hlatest]
    exact List.length_take_le _ _
  · intro hreach
    have hvalid := reachable_periods db hreach
    obtain ⟨_, hsorted, hstored, hcover⟩ := latestPeriods_spec db hvalid
    exact ⟨fun r hr => ⟨hvalid r hr, sqlPeriodKey_eq r (hvalid r hr)⟩, hsorted, hstored,
      hcover⟩

/-- The store `sixPeriodDatabase` is one the program writes. -/
theorem reachable_sixPeriodDatabase : Reachable sixPeriodDatabase :=
  Reachable.upload _ _ _ _ _ _ _ Reachable.empty

/-- Witness for C14: the store with NRR records for the six quarters Q4-2023 to Q1-2025,
uploaded in one file.  The latest periods are Q1-2025, Q4-2024, Q3-2024 and Q2-2024,
and the empty list gives the four rows of these periods. -/
theorem getMetricsComparison_latest_periods_witness :
    Reachable sixPeriodDatabase ∧
    sixPeriodDatabase.quarterly_data ≠ [] ∧
    (latestPeriods sixPeriodDatabase).map periodKey =
      ["2025-Q1", "2024-Q4", "2024-Q3", "2024-Q2"] ∧
    getMetricsComparison 2 sixPeriodDatabase [] =
      getMetricsComparison 1 sixPeriodDatabase ["2025-Q1", "2024-Q4", "2024-Q3", "2024-Q2"] ∧
    getMetricsComparison 2 sixPeriodDatabase [] =
      some [{ quarter := .string "Q1", year := .number (.finite 2025),
              metric_name := .string "NRR", metric_value := .number (.finite 105),
              metric_unit := .null, category := .null },
            { quarter := .string "Q4", year := .number (.finite 2024),
              metric_name := .string "NRR", metric_value := .number (.finite 102),
              metric_unit := .null, category := .null },
            { quarter := .string "Q3", year := .number (.finite 2024),
              metric_name := .string "NRR", metric_value := .number (.finite 101),
              metric_unit := .null, category := .null },
            { quarter := .string "Q2", year := .number (.finite 2024),
              metric_name := .string "NRR", metric_value := .number (.finite 100),
              metric_unit := .null, category := .null }] ∧
    getMetricsComparison 1 sixPeriodDatabase ["2024-Q1"] =
      some [{ quarter := .string "Q1", year := .number (.finite 2024),
              metric_name := .string "NRR", metric_value := .number (.finite 99),
              metric_unit := .null, category := .null }] ∧
    (latestPeriods sixPeriodDatabase).Pairwise MoreRecent :=
  ⟨reachable_sixPeriodDatabase, by decide, rfl,
    ((getMetricsComparison_latest_periods sixPeriodDatabase 0).2.1 (by decide)).2.1,
    rfl, rfl,
    ((getMetricsComparison_latest_periods sixPeriodDatabase 0).2.2.2
      reachable_sixPeriodDatabase).2.1⟩

/-! ## C15: grouping of the comparison rows -/

/-- C15: a metric whose name is a property of `Object.prototype` gets no group.  After
the upload of a row with the metric name `constructor`, `getMetricsComparison` returns
that row, and the grouping of `GET /data/comparison` throws on it (the route answers
500) instead of yielding one group for the name; rows with ordinary names are grouped,
one group per name. -/
theorem comparison_grouping_fails_for_prototype_name :
    getMetricsComparison 1 constructorDatabase ["2024-Q1"] =
      some [comparisonRowNamed "constructor"] ∧
    comparisonGroups [comparisonRowNamed "constructor"] =
      .error "Cannot set properties of undefined (setting \x272024-Q1\x27)" ∧
    comparisonGroups [comparisonRowNamed "Total ARR"] =
      .ok [⟨.string "Total ARR", .null, .null,
        [("2024-Q1", ⟨.number (.finite 3), .string "Q1", .number (.finite 2024)⟩)]⟩] :=
  ⟨rfl, rfl, rfl⟩

end DatabaseService

namespace FileProcessor

/-! ## C22: file types -/

theorem scanFrom_cons (n : Nat) (c : Char) (cs : List Char) :
    scanFrom n (c :: cs) = extnameStep (scanFrom (n + 1) cs) (n, c) :=
  rfl

/-- The loop of `path.extname` on characters that are neither `/` nor `.`. -/
theorem scanFrom_plain (n : Nat) (cs : List Char) (hne : cs ≠ [])
    (hplain : ∀ c ∈ cs, c ≠ '/' ∧ c ≠ '.') :
    scanFrom n cs =
      { startDot := none, startPart := 0, endIndex := some (n + cs.length),
        matchedSlash := false, preDotState := 0, stopped := false } := by
  induction cs generalizing n with
  | nil => exact absurd rfl hne
  | cons c rest ih =>
    obtain ⟨hslash, hdot⟩ := hplain c (List.mem_cons_self _ _)
    rw [scanFrom_cons]
    cases rest with
    | nil => simp [scanFrom, extnameStep, hslash, hdot]
    | cons d rest2 =>
      rw [ih (n + 1) (List.cons_ne_nil _ _)
        (fun x hx => hplain x (List.mem_cons_of_mem _ hx))]
      simp [extnameStep, hslash, hdot]
      omega

/-- The loop of `path.extname` on a `.` followed by an extension. -/
theorem scanFrom_dot (n : Nat) (ext : List Char) (hne : ext ≠ [])
    (hplain : ∀ c ∈ ext, c ≠ '/' ∧ c ≠ '.') :
    scanFrom n ('.' :: ext) =
      { startDot := some n, startPart := 0, endIndex := some (n + 1 + ext.length),
        matchedSlash := false, preDotState := 0, stopped := false } := by
  rw [scanFrom_cons, scanFrom_plain (n + 1) ext hne hplain]
  simp [extnameStep]

/-- The loop of `path.extname` on a name `stem.ext`. -/
theorem scanFrom_name (n : Nat) (stem ext : List Char) (hstem : stem ≠ [])
    (hslash : '/' ∉ stem) (hne : ext ≠ []) (hplain : ∀ c ∈ ext, c ≠ '/' ∧ c ≠ '.') :
    ∃ p : Int, (p = 1 ∨ p = -1) ∧
      scanFrom n (stem ++ '.' :: ext) =
        { startDot := some (n + stem.length), startPart := 0,
          endIndex := some (n + stem.length + 1 + ext.length), matchedSlash := false,
          preDotState := p, stopped := false } := by
  induction stem generalizing n with
  | nil => exact absurd rfl hstem
  | cons c rest ih =>
    have hc : c ≠ '/' := fun h => hslash (h ▸ List.mem_cons_self _ _)
    rw [List.cons_append, scanFrom_cons]
    cases rest with
    | nil =>
      rw [List.nil_append, scanFrom_dot (n + 1) ext hne hplain]
      by_cases hdot : c = '.'
      · exact ⟨1, Or.inl rfl, by simp [extnameStep, hdot]⟩
      · exact ⟨-1, Or.inr rfl, by simp [extnameStep, hc, hdot]⟩
    | cons d rest2 =>
      obtain ⟨p, hp, hscan⟩ := ih (n + 1) (List.cons_ne_nil _ _)
        (fun h => hslash (List.mem_cons_of_mem _ h))
      rw [hscan]
      by_cases hdot : c = '.'
      · refine ⟨1, Or.inl rfl, ?_⟩
        rcases hp with hp | hp <;> subst hp <;> simp [extnameStep, hdot] <;> omega
      · exact ⟨-1, Or.inr rfl, by simp [extnameStep, hc, hdot]; omega⟩

/-- The loop of `path.extname` stops at the `/` that ends the directory part. -/
theorem scanFrom_directory (n : Nat) (directory name : List Char)
    (hlast : directory.getLast? = some '/')
    (hopen : (scanFrom (n + directory.length) name).matchedSlash = false)
    (hrun : (scanFrom (n + directory.length) name).stopped = false) :
    ∃ startPart : Nat,
      scanFrom n (directory ++ name) =
        { scanFrom (n + directory.length) name with
          startPart := startPart, stopped := true } := by
  induction directory generalizing n with
  | nil => simp at hlast
  | cons c rest ih =>
    rw [List.cons_append, scanFrom_cons]
    cases rest with
    | nil =>
      have hc : c = '/' := by simpa using hlast
      subst hc
      refine ⟨n + 1, ?_⟩
      simp only [List.nil_append, List.length_singleton] at hopen hrun ⊢
      simp [extnameStep, hopen, hrun]
    | cons d rest2 =>
      have hlast2 : (d :: rest2).getLast? = some '/' := by
        simpa [List.getLast?_cons_cons] using hlast
      have hlen : n + (c :: d :: rest2).length = n + 1 + (d :: rest2).length := by
        simp only [List.length_cons]
        omega
      rw [hlen] at hopen hrun
      obtain ⟨startPart, hscan⟩ := ih (n + 1) hlast2 hopen hrun
      refine ⟨startPart, ?_⟩
      rw [hscan, hlen]
      simp [extnameStep]

/-- The extension of a path `directory/stem.ext` (the directory part may be empty, the
stem is not empty, the extension is not empty and has no `.`) is `.ext`. -/
theorem extname_of_name (directory stem ext : List Char)
    (hdirectory : directory = [] ∨ directory.getLast? = some '/')
    (hstem : stem ≠ []) (hslash : '/' ∉ stem) (hne : ext ≠ [])
    (hplain : ∀ c ∈ ext, c ≠ '/' ∧ c ≠ '.') :
    extname (String.mk (directory ++ (stem ++ '.' :: ext))) = String.mk ('.' :: ext) := by
  obtain ⟨p, hp, hname⟩ :=
    scanFrom_name (0 + directory.length) stem ext hstem hslash hne hplain
  have hpos : 0 < ext.length := List.length_pos.2 hne
  have hscan : ∃ startPart : Nat,
      scanFrom 0 (directory ++ (stem ++ '.' :: ext)) =
        { startDot := some (directory.length + stem.length), startPart := startPart,
          endIndex := some (directory.length + stem.length + 1 + ext.length),
          matchedSlash := false, preDotState := p,
          stopped := decide (directory ≠ []) } := by
    rcases hdirectory with hd | hd
    · subst hd
      refine ⟨0, ?_⟩
      simpa using hname
    · obtain ⟨startPart, h⟩ := scanFrom_directory 0 directory (stem ++ '.' :: ext) hd
        (by rw [hname]) (by rw [hname])
      refine ⟨startPart, ?_⟩
      have hd2 : directory ≠ [] := by
        intro h0
        simp [h0] at hd
      rw [h, hname]
      simp [hd2]
  obtain ⟨startPart, hscan⟩ := hscan
  have htake : ((directory ++ (stem ++ '.' :: ext)).take
      (directory.length + stem.length + 1 + ext.length)).drop
      (directory.length + stem.length) = '.' :: ext := by
    rw [List.take_of_length_le (by simp; omega), ← List.append_assoc,
      List.drop_left' (by simp)]
  have hcond : ¬ (p = 0 ∨ (p = 1 ∧
      directory.length + stem.length = directory.length + stem.length + 1 + ext.length - 1 ∧
      directory.length + stem.length = startPart + 1)) := by
    rintro (h | ⟨_, h, _⟩)
    · rcases hp with hp | hp <;> omega
    · omega
  simp only [extname, hscan, if_neg hcond, htake]


/-- C22. For every file name, the upload filter accepts the file if and only if its
extension (`path.extname`), lower-cased, is one of `.csv`, `.xlsx`, `.xls`, and rejects
it with its error otherwise, before the file is stored or parsed: `report.pdf` is
rejected.  For every path, `parseFile` fails with the unsupported-format error when the
lower-cased extension is outside that set, calls the CSV parser for `.csv` and the
spreadsheet parser for `.xlsx` and `.xls`.  The extension of a path
`directory/stem.ext` is `.ext`. -/
theorem fileFilter_parseFile_by_extension
    (parseCSV parseExcel : String → Except String RawData) (name : String) :
    (fileFilter name = .ok true ↔
      toLowerCase (extname name) ∈ [".csv", ".xlsx", ".xls"]) ∧
    (toLowerCase (extname name) ∉ [".csv", ".xlsx", ".xls"] →
      fileFilter name =
          .error ("File type " ++ toLowerCase (extname name) ++
            " is not allowed. Supported types: " ++ ".csv, .xlsx, .xls") ∧
        parseFile parseCSV parseExcel name =
          .error ("Unsupported file format: " ++ toLowerCase (extname name))) ∧
    (toLowerCase (extname name) = ".csv" →
      parseFile parseCSV parseExcel name = parseCSV name) ∧
    (toLowerCase (extname name) = ".xlsx" ∨ toLowerCase (extname name) = ".xls" →
      parseFile parseCSV parseExcel name = parseExcel name) ∧
    (∀ directory stem ext : List Char,
      (directory = [] ∨ directory.getLast? = some '/') → stem ≠ [] → '/' ∉ stem →
      ext ≠ [] → (∀ c ∈ ext, c ≠ '/' ∧ c ≠ '.') →
      extname (String.mk (directory ++ (stem ++ '.' :: ext))) = String.mk ('.' :: ext)) ∧
    extname "report.pdf" = ".pdf" ∧
    fileFilter "report.pdf" =
      .error "File type .pdf is not allowed. Supported types: .csv, .xlsx, .xls" ∧
    fileFilter "Metrics.XLSX" = .ok true := by
  refine ⟨?_, ?_, ?_, ?_, extname_of_name, rfl, rfl, rfl⟩
  · unfold fileFilter allowedTypes
    by_cases h : toLowerCase (extname name) ∈ [".csv", ".xlsx", ".xls"]
    · simp only [h, if_true]
    · simp only [h, if_false, iff_false]
      intro hcontra
      cases hcontra
  · intro h
    constructor
    · have hjoin : ", ".intercalate [".csv", ".xlsx", ".xls"] = ".csv, .xlsx, .xls" := by
        decide
      unfold fileFilter allowedTypes
      simp only [h, if_false, hjoin]
    · simp only [List.mem_cons, List.mem_singleton, List.not_mem_nil, or_false,
        not_or] at h
      unfold parseFile
      simp only [h.1, h.2.1, h.2.2, if_false, or_self]
  · intro h
    unfold parseFile
    simp only [h, if_true]
  · intro h
    have hcsv : toLowerCase (extname name) ≠ ".csv" := by
      rcases h with h | h <;> rw [h] <;> decide
    unfold parseFile
    simp only [hcsv, h, if_false, if_true]

/-! ## C29: the sample rows of the template -/

/-- C29. The sample dataset of `generateTemplate` is valid input: it has 24 rows and
`validateData` returns 24 records for it, one for every row; every record keeps the
status of its row and the target value parsed from its row, none of them `null`; the
records cover the 8 metric names for each of Q1 2024, Q4 2023 and Q3 2023. -/
theorem sampleData_is_valid :
    sampleData.length = 24 ∧
    ∃ records : List ValidatedRow,
      validateData (.array sampleData) = .ok records ∧
      records = sampleData.filterMap acceptedRecord ∧
      (∀ row ∈ sampleData, ∃ r, validateRow row 0 = .ok r) ∧
      records.length = 24 ∧
      records.map (fun r => r.status.map JSValue.string) =
        sampleData.map (fun row => some (row.get "status")) ∧
      records.map (fun r => r.target_value) =
        sampleData.map (fun row => some (parseFloat (row.get "target_value"))) ∧
      (∀ r ∈ records, r.status ≠ none ∧ r.target_value ≠ none ∧
        r.target_value ≠ some .nan) ∧
      records.map (fun r => (r.quarter, r.year, r.metric_name)) =
        [("Q1", 2024), ("Q4", 2023), ("Q3", 2023)].flatMap (fun period =>
          ["Total ARR", "Net New ARR Added", "Churn", "NRR", "Burn Multiple", "CAC",
            "Deployment Frequency", "eNPS (Employee Engagement)"].map
            (fun name => (period.1, period.2, name))) := by
  refine ⟨rfl, sampleData.filterMap acceptedRecord, rfl, rfl, ?_, rfl, rfl, rfl, ?_, rfl⟩
  · intro row hrow
    have haccepted : ∀ row ∈ sampleData, (acceptedRecord row).isSome = true := by decide
    have h := haccepted row hrow
    unfold acceptedRecord at h
    cases hv : validateRow row 0 with
    | ok r => exact ⟨r, rfl⟩
    | error e => simp [hv] at h
  · decide

/-! ## C26: file statistics -/

theorem uniqueValues_sublist {α : Type} [DecidableEq α] (l : List α) :
    (uniqueValues l).Sublist l := by
  induction l with
  | nil => exact List.Sublist.slnil
  | cons a rest ih => exact List.Sublist.cons₂ a ((List.filter_sublist _).trans ih)

theorem mem_uniqueValues {α : Type} [DecidableEq α] (l : List α) (x : α) :
    x ∈ uniqueValues l ↔ x ∈ l := by
  induction l with
  | nil => exact Iff.rfl
  | cons a rest ih =>
    simp only [uniqueValues, List.mem_cons, List.mem_filter, ih, decide_eq_true_eq]
    by_cases h : x = a
    · simp [h]
    · simp [h]

theorem uniqueValues_nodup {α : Type} [DecidableEq α] (l : List α) :
    (uniqueValues l).Nodup := by
  induction l with
  | nil => exact List.nodup_nil
  | cons a rest ih =>
    refine List.nodup_cons.2 ⟨?_, ih.filter _⟩
    intro h
    have := (List.mem_filter.1 h).2
    simp at this

theorem numberLess_finite (a b : ℚ) :
    numberLess (.finite a) (.finite b) = decide (a < b) := by
  simp only [numberLess, Rat.lt_def]

theorem numberLe_refl (a : JSNumber) : NumberLe a a := by
  unfold NumberLe
  rcases a with _ | ⟨_ | _⟩ | q
  · rfl
  · rfl
  · rfl
  · rw [numberLess_finite]
    simp

theorem numberLe_trans (a b c : JSNumber) (ha : a ≠ .nan) (hb : b ≠ .nan) (hc : c ≠ .nan)
    (hab : NumberLe a b) (hbc : NumberLe b c) : NumberLe a c := by
  unfold NumberLe at *
  rcases a with _ | ⟨_ | _⟩ | x <;> rcases b with _ | ⟨_ | _⟩ | y <;>
    rcases c with _ | ⟨_ | _⟩ | z <;>
    first
      | exact absurd rfl ha
      | exact absurd rfl hb
      | exact absurd rfl hc
      | rfl
      | (simp [numberLess] at hab; done)
      | (simp [numberLess] at hbc; done)
      | skip
  rw [numberLess_finite, decide_eq_false_iff_not, not_lt] at *
  exact le_trans hab hbc

theorem numberLe_of_less (a b : JSNumber) (h : numberLess a b = true) : NumberLe a b := by
  unfold NumberLe
  rcases a with _ | ⟨_ | _⟩ | x <;> rcases b with _ | ⟨_ | _⟩ | y <;>
    first
      | rfl
      | (simp [numberLess] at h; done)
      | skip
  rw [numberLess_finite, decide_eq_true_eq] at h
  rw [numberLess_finite, decide_eq_false_iff_not, not_lt]
  exact le_of_lt h

/-- The least of a list of Numbers, none of them `NaN`, as the fold of `Math.min`
computes it from a start value. -/
theorem foldl_min_spec (vs : List JSNumber) (start : JSNumber) (hstart : start ≠ .nan)
    (hvs : ∀ v ∈ vs, v ≠ .nan) :
    vs.foldl minStep start ≠ .nan ∧
      (vs.foldl minStep start = start ∨
        vs.foldl minStep start ∈ vs) ∧
      NumberLe (vs.foldl minStep start) start ∧
      ∀ v ∈ vs, NumberLe (vs.foldl minStep start) v := by
  induction vs generalizing start with
  | nil => exact ⟨hstart, Or.inl rfl, numberLe_refl start, fun v hv => absurd hv (List.not_mem_nil v)⟩
  | cons v rest ih =>
    have hv : v ≠ .nan := hvs v (List.mem_cons_self _ _)
    have hstep : minStep start v = if numberLess v start then v else start := by
      rcases start with _ | ⟨_ | _⟩ | x <;> rcases v with _ | ⟨_ | _⟩ | y <;>
        first
          | exact absurd rfl hstart
          | exact absurd rfl hv
          | rfl
    rw [List.foldl_cons, hstep]
    have hnext : (if numberLess v start then v else start) ≠ .nan := by
      split_ifs
      · exact hv
      · exact hstart
    obtain ⟨h1, h2, h3, h4⟩ := ih (if numberLess v start then v else start) hnext
      (fun w hw => hvs w (List.mem_cons_of_mem _ hw))
    have hle_start : NumberLe (if numberLess v start then v else start) start := by
      split_ifs with h
      · exact numberLe_of_less v start h
      · exact numberLe_refl start
    have hle_v : NumberLe (if numberLess v start then v else start) v := by
      split_ifs with h
      · exact numberLe_refl v
      · unfold NumberLe
        simpa using h
    refine ⟨h1, ?_, numberLe_trans _ _ _ h1 hnext hstart h3 hle_start, ?_⟩
    · rcases h2 with h2 | h2
      · by_cases h : numberLess v start = true
        · right
          rw [h2, if_pos h]
          exact List.mem_cons_self _ _
        · left
          rw [h2, if_neg h]
      · exact Or.inr (List.mem_cons_of_mem _ h2)
    · intro w hw
      rcases List.mem_cons.1 hw with hw | hw
      · rw [hw]
        exact numberLe_trans _ _ _ h1 hnext hv h3 hle_v
      · exact h4 w hw

/-- The greatest of a list of Numbers, none of them `NaN`, as the fold of `Math.max`
computes it from a start value. -/
theorem foldl_max_spec (vs : List JSNumber) (start : JSNumber) (hstart : start ≠ .nan)
    (hvs : ∀ v ∈ vs, v ≠ .nan) :
    vs.foldl maxStep start ≠ .nan ∧
      (vs.foldl maxStep start = start ∨
        vs.foldl maxStep start ∈ vs) ∧
      NumberLe start (vs.foldl maxStep start) ∧
      ∀ v ∈ vs, NumberLe v (vs.foldl maxStep start) := by
  induction vs generalizing start with
  | nil => exact ⟨hstart, Or.inl rfl, numberLe_refl start, fun v hv => absurd hv (List.not_mem_nil v)⟩
  | cons v rest ih =>
    have hv : v ≠ .nan := hvs v (List.mem_cons_self _ _)
    have hstep : maxStep start v = if numberLess start v then v else start := by
      rcases start with _ | ⟨_ | _⟩ | x <;> rcases v with _ | ⟨_ | _⟩ | y <;>
        first
          | exact absurd rfl hstart
          | exact absurd rfl hv
          | rfl
    rw [List.foldl_cons, hstep]
    have hnext : (if numberLess start v then v else start) ≠ .nan := by
      split_ifs
      · exact hv
      · exact hstart
    obtain ⟨h1, h2, h3, h4⟩ := ih (if numberLess start v then v else start) hnext
      (fun w hw => hvs w (List.mem_cons_of_mem _ hw))
    have hle_start : NumberLe start (if numberLess start v then v else start) := by
      split_ifs with h
      · exact numberLe_of_less start v h
      · exact numberLe_refl start
    have hle_v : NumberLe v (if numberLess start v then v else start) := by
      split_ifs with h
      · exact numberLe_refl v
      · unfold NumberLe
        simpa using h
    refine ⟨h1, ?_, numberLe_trans _ _ _ hstart hnext h1 hle_start h3, ?_⟩
    · rcases h2 with h2 | h2
      · by_cases h : numberLess start v = true
        · right
          rw [h2, if_pos h]
          exact List.mem_cons_self _ _
        · left
          rw [h2, if_neg h]
      · exact Or.inr (List.mem_cons_of_mem _ h2)
    · intro w hw
      rcases List.mem_cons.1 hw with hw | hw
      · rw [hw]
        exact numberLe_trans _ _ _ hv hnext h1 hle_v h3
      · exact h4 w hw

theorem mathMin_spec (vs : List JSNumber) (hne : vs ≠ []) (hvs : ∀ v ∈ vs, v ≠ .nan) :
    vs.foldl minStep (.infinity false) ∈ vs ∧
      ∀ v ∈ vs, NumberLe (vs.foldl minStep (.infinity false)) v := by
  obtain ⟨_, h2, _, h4⟩ := foldl_min_spec vs (.infinity false) (by simp) hvs
  refine ⟨?_, h4⟩
  rcases h2 with h2 | h2
  · obtain ⟨v, hv⟩ := List.exists_mem_of_ne_nil vs hne
    have hle := h4 v hv
    have hnan := hvs v hv
    rw [h2] at hle ⊢
    unfold NumberLe at hle
    rcases v with _ | ⟨_ | _⟩ | x
    · exact absurd rfl hnan
    · exact hv
    · simp [numberLess] at hle
    · simp [numberLess] at hle
  · exact h2

theorem mathMax_spec (vs : List JSNumber) (hne : vs ≠ []) (hvs : ∀ v ∈ vs, v ≠ .nan) :
    vs.foldl maxStep (.infinity true) ∈ vs ∧
      ∀ v ∈ vs, NumberLe v (vs.foldl maxStep (.infinity true)) := by
  obtain ⟨_, h2, _, h4⟩ := foldl_max_spec vs (.infinity true) (by simp) hvs
  refine ⟨?_, h4⟩
  rcases h2 with h2 | h2
  · obtain ⟨v, hv⟩ := List.exists_mem_of_ne_nil vs hne
    have hle := h4 v hv
    have hnan := hvs v hv
    rw [h2] at hle ⊢
    unfold NumberLe at hle
    rcases v with _ | ⟨_ | _⟩ | x
    · exact absurd rfl hnan
    · simp [numberLess] at hle
    · exact hv
    · simp [numberLess] at hle
  · exact h2

/-- The statistics of a list that is short enough for the calls of `Math.min` and
`Math.max`. -/
theorem getFileStats_ok (argumentLimit : Nat) (data : List ValidatedRow)
    (hlen : data.length ≤ argumentLimit) :
    getFileStats argumentLimit data =
      .ok { totalRows := data.length
            quarters := uniqueValues (data.map ValidatedRow.periodKey)
            metrics := uniqueValues (data.map (fun row => row.metric_name))
            categories :=
              uniqueValues ((data.map (fun row => row.category)).filterMap keptCategory)
            valueRange :=
              { min := (data.map (fun row => row.metric_value)).foldl minStep
                  (.infinity false)
                max := (data.map (fun row => row.metric_value)).foldl maxStep
                  (.infinity true) } } := by
  have hroom : ¬ argumentLimit < (data.map (fun row => row.metric_value)).length := by
    rw [List.length_map]
    omega
  simp only [getFileStats, mathMin, mathMax, if_neg hroom, bind, Except.bind, pure,
    Except.pure]

/-- The values of `[...new Set(array)]` stand in the order of their first occurrence in
the array. -/
theorem uniqueValues_first_occurrence {α : Type} [DecidableEq α] (l : List α) :
    (uniqueValues l).Pairwise (fun a b => firstIndex a l < firstIndex b l) := by
  induction l with
  | nil => exact List.Pairwise.nil
  | cons a rest ih =>
    have hne : ∀ b ∈ (uniqueValues rest).filter (fun b => b ≠ a), a ≠ b := by
      intro b hb
      have := (List.mem_filter.1 hb).2
      simp only [ne_eq, decide_not, Bool.not_eq_true', decide_eq_false_iff_not] at this
      exact fun h => this h.symm
    simp only [uniqueValues]
    refine List.Pairwise.cons ?_ ?_
    · intro b hb
      simp [firstIndex, hne b hb]
    · refine List.Pairwise.imp_of_mem ?_ (ih.sublist (List.filter_sublist _))
      intro b c hb hc hbc
      simp only [firstIndex, hne b hb, hne c hc, if_false]
      omega

theorem keptCategory_eq_some (o : Option String) (c : String) :
    keptCategory o = some c ↔ o = some c ∧ c ≠ "" := by
  cases o with
  | none => simp [keptCategory]
  | some t =>
    by_cases ht : t = ""
    · subst ht
      simp [keptCategory, truthy]
      intro h
      exact h.symm
    · simp only [keptCategory, truthy, ht, ne_eq, not_false_eq_true, decide_True, if_true,
        Option.some.injEq]
      constructor
      · intro h
        subst h
        exact ⟨rfl, ht⟩
      · intro h
        exact h.1

/-- Dropping the `null` and empty categories keeps the order of first occurrence of the
others. -/
theorem firstIndex_keptCategory (cats : List (Option String)) (a b : String)
    (ha : a ∈ cats.filterMap keptCategory) (hb : b ∈ cats.filterMap keptCategory)
    (h : firstIndex a (cats.filterMap keptCategory) <
      firstIndex b (cats.filterMap keptCategory)) :
    firstIndex (some a) cats < firstIndex (some b) cats := by
  induction cats with
  | nil => simp at ha
  | cons o rest ih =>
    cases hk : keptCategory o with
    | none =>
      have hoa : o ≠ some a := by
        intro hoa
        obtain ⟨o2, _, ho2⟩ := List.mem_filterMap.1 ha
        have := (keptCategory_eq_some o2 a).1 ho2
        rw [hoa, (keptCategory_eq_some (some a) a).2 ⟨rfl, this.2⟩] at hk
        cases hk
      have hob : o ≠ some b := by
        intro hob
        obtain ⟨o2, _, ho2⟩ := List.mem_filterMap.1 hb
        have := (keptCategory_eq_some o2 b).1 ho2
        rw [hob, (keptCategory_eq_some (some b) b).2 ⟨rfl, this.2⟩] at hk
        cases hk
      rw [List.filterMap_cons_none hk] at ha hb h
      simp only [firstIndex, hoa, hob, if_false]
      have := ih ha hb h
      omega
    | some c =>
      obtain ⟨hoc, _⟩ := (keptCategory_eq_some o c).1 hk
      subst hoc
      rw [List.filterMap_cons_some hk] at ha hb h
      by_cases hca : c = a
      · subst hca
        by_cases hcb : c = b
        · subst hcb
          simp [firstIndex] at h
        · simp [firstIndex, hcb]
      · by_cases hcb : c = b
        · subst hcb
          simp [firstIndex, hca] at h
        · simp only [firstIndex, hca, hcb, if_false] at h
          have ha2 : a ∈ rest.filterMap keptCategory := by
            rcases List.mem_cons.1 ha with ha | ha
            · exact absurd ha.symm hca
            · exact ha
          have hb2 : b ∈ rest.filterMap keptCategory := by
            rcases List.mem_cons.1 hb with hb | hb
            · exact absurd hb.symm hcb
            · exact hb
          have := ih ha2 hb2 (by omega)
          simp only [firstIndex, Option.some.injEq, hca, hcb, if_false]
          omega

/-- A record that `validateRow` returns has a metric value that is not `NaN`. -/
theorem validated_metric_value (row : RawRow) (rowNumber : Nat) (r : ValidatedRow)
    (h : validateRow row rowNumber = .ok r) : r.metric_value ≠ .nan :=
  ((checkMetricValue_ok_iff row _).1 ((validateRow_ok_iff row rowNumber r).1 h).2.2.2.1).2

/-- The records of the accepted rows of a dataset are validated records. -/
theorem acceptedRecord_validated (rows : List RawRow) :
    ∀ r ∈ rows.filterMap acceptedRecord, ∃ row rowNumber, validateRow row rowNumber = .ok r := by
  intro r hr
  obtain ⟨row, _, hrow⟩ := List.mem_filterMap.1 hr
  refine ⟨row, 0, ?_⟩
  unfold acceptedRecord at hrow
  cases hres : validateRow row 0 with
  | ok v =>
    rw [hres] at hrow
    simp only [Option.some.injEq] at hrow
    rw [hrow]
  | error e =>
    rw [hres] at hrow
    cases hrow

/-- C26, counterexample: a category that is not `null` can be missing from
`categories`.  A CSV row whose category cell holds only spaces is validated to a
record with the category `""`, and `getFileStats` of that record lists no category. -/
theorem blank_category_not_listed :
    ∃ r : ValidatedRow,
      validateRow rowWithBlankCategory 1 = .ok r ∧ r.category = some "" ∧
      r.category ≠ none ∧
      ∀ argumentLimit, 1 ≤ argumentLimit →
        ∃ stats, getFileStats argumentLimit [r] = .ok stats ∧ stats.categories = [] := by
  refine ⟨_, rfl, rfl, by decide, ?_⟩
  intro argumentLimit hlimit
  exact ⟨_, getFileStats_ok argumentLimit _ hlimit, rfl⟩

/-- C26, amended. On an engine whose calls have room for `argumentLimit` arguments, for
every non-empty list of at most `argumentLimit` validated records `getFileStats`
returns: `totalRows` equal to the length of the list; `quarters` the duplicate-free list
of the `year-quarter` keys that occur, in the order of their first occurrences;
`metrics` likewise for the metric names; `categories` likewise for the categories that
are neither `null` nor empty; `valueRange.min` and `valueRange.max` the least and the
greatest metric value of the list, both attained by a record.  For a longer list
`getFileStats` throws the `RangeError` of `Math.min(...)`. -/
theorem getFileStats_summary (argumentLimit : Nat) (data : List ValidatedRow)
    (hne : data ≠ [])
    (hvalidated : ∀ r ∈ data, ∃ row rowNumber, validateRow row rowNumber = .ok r) :
    (argumentLimit < data.length → getFileStats argumentLimit data = .error rangeError) ∧
    (data.length ≤ argumentLimit →
      ∃ stats, getFileStats argumentLimit data = .ok stats ∧
        stats.totalRows = data.length ∧
        (stats.quarters.Pairwise (fun a b =>
            firstIndex a (data.map ValidatedRow.periodKey) <
              firstIndex b (data.map ValidatedRow.periodKey)) ∧
          ∀ k, k ∈ stats.quarters ↔ ∃ r ∈ data, r.periodKey = k) ∧
        (stats.metrics.Pairwise (fun a b =>
            firstIndex a (data.map (fun r => r.metric_name)) <
              firstIndex b (data.map (fun r => r.metric_name))) ∧
          ∀ m, m ∈ stats.metrics ↔ ∃ r ∈ data, r.metric_name = m) ∧
        (stats.categories.Pairwise (fun a b =>
            firstIndex (some a) (data.map (fun r => r.category)) <
              firstIndex (some b) (data.map (fun r => r.category))) ∧
          ∀ c, c ∈ stats.categories ↔ c ≠ "" ∧ ∃ r ∈ data, r.category = some c) ∧
        (stats.quarters.Nodup ∧ stats.metrics.Nodup ∧ stats.categories.Nodup) ∧
        ((∃ r ∈ data, r.metric_value = stats.valueRange.min) ∧
          ∀ r ∈ data, NumberLe stats.valueRange.min r.metric_value) ∧
        ((∃ r ∈ data, r.metric_value = stats.valueRange.max) ∧
          ∀ r ∈ data, NumberLe r.metric_value stats.valueRange.max)) := by
  constructor
  · intro hlong
    have hlong2 : argumentLimit < (data.map (fun r => r.metric_value)).length := by
      rw [List.length_map]
      exact hlong
    simp only [getFileStats, mathMin, if_pos hlong2, bind, Except.bind]
  intro hlen
  have hvs : ∀ v ∈ data.map (fun r => r.metric_value), v ≠ .nan := by
    intro v hv
    obtain ⟨r, hr, rfl⟩ := List.mem_map.1 hv
    obtain ⟨row, rowNumber, hrow⟩ := hvalidated r hr
    exact validated_metric_value row rowNumber r hrow
  have hvne : data.map (fun r => r.metric_value) ≠ [] := by
    intro h
    exact hne (List.map_eq_nil_iff.1 h)
  obtain ⟨hmin, hminle⟩ := mathMin_spec _ hvne hvs
  obtain ⟨hmax, hmaxle⟩ := mathMax_spec _ hvne hvs
  refine ⟨_, getFileStats_ok argumentLimit data hlen, rfl,
    ⟨uniqueValues_first_occurrence _, ?_⟩, ⟨uniqueValues_first_occurrence _, ?_⟩,
    ⟨?_, ?_⟩, ⟨uniqueValues_nodup _, uniqueValues_nodup _, uniqueValues_nodup _⟩,
    ⟨?_, ?_⟩, ⟨?_, ?_⟩⟩
  · intro k
    simp only [mem_uniqueValues, List.mem_map]
  · intro m
    simp only [mem_uniqueValues, List.mem_map]
  · refine List.Pairwise.imp_of_mem ?_ (uniqueValues_first_occurrence _)
    intro a b ha hb hab
    exact firstIndex_keptCategory _ a b ((mem_uniqueValues _ _).1 ha)
      ((mem_uniqueValues _ _).1 hb) hab
  · intro c
    simp only [mem_uniqueValues, List.mem_filterMap, List.mem_map]
    constructor
    · rintro ⟨o, ⟨r, hr, rfl⟩, hkept⟩
      obtain ⟨hcat, hc⟩ := (keptCategory_eq_some _ c).1 hkept
      exact ⟨hc, r, hr, hcat⟩
    · rintro ⟨hc, r, hr, hcat⟩
      exact ⟨some c, ⟨r, hr, hcat⟩, (keptCategory_eq_some _ c).2 ⟨rfl, hc⟩⟩
  · obtain ⟨r, hr, hrv⟩ := List.mem_map.1 hmin
    exact ⟨r, hr, hrv⟩
  · intro r hr
    exact hminle _ (List.mem_map_of_mem _ hr)
  · obtain ⟨r, hr, hrv⟩ := List.mem_map.1 hmax
    exact ⟨r, hr, hrv⟩
  · intro r hr
    exact hmaxle _ (List.mem_map_of_mem _ hr)

/-- Witness for C26: the statistics of the 24 records of the template, on an engine
whose calls have room for 125000 arguments. -/
theorem getFileStats_summary_witness :
    sampleData.filterMap acceptedRecord ≠ [] ∧
    (∀ r ∈ sampleData.filterMap acceptedRecord,
      ∃ row rowNumber, validateRow row rowNumber = .ok r) ∧
    (sampleData.filterMap acceptedRecord).length ≤ 125000 ∧
    getFileStats 125000 (sampleData.filterMap acceptedRecord) =
      .ok { totalRows := 24
            quarters := ["2024-Q1", "2023-Q4", "2023-Q3"]
            metrics := ["Total ARR", "Net New ARR Added", "Churn", "NRR", "Burn Multiple",
              "CAC", "Deployment Frequency", "eNPS (Employee Engagement)"]
            categories := ["Growth & Retention", "Financial & Sales",
              "Product & Engineering", "People & Culture"]
            valueRange := ⟨.finite (-125000), .finite 6520000⟩ } ∧
    ∃ stats, getFileStats 125000 (sampleData.filterMap acceptedRecord) = .ok stats ∧
      stats.totalRows = (sampleData.filterMap acceptedRecord).length ∧
      stats.quarters.Pairwise (fun a b =>
        firstIndex a ((sampleData.filterMap acceptedRecord).map ValidatedRow.periodKey) <
          firstIndex b ((sampleData.filterMap acceptedRecord).map ValidatedRow.periodKey)) :=
  ⟨by decide, acceptedRecord_validated sampleData, by decide, rfl,
    (by
      obtain ⟨stats, h1, h2, h3, _⟩ :=
        (getFileStats_summary 125000 (sampleData.filterMap acceptedRecord) (by decide)
          (acceptedRecord_validated sampleData)).2 (by decide)
      exact ⟨stats, h1, h2, h3.1⟩)⟩

end FileProcessor

namespace DatabaseService

open FileProcessor Batteries

/-! ## C21: insight snapshots -/

theorem transCmp_compareCreated : TransCmp compareCreated := by
  haveI : TransOrd SqlValue := transCmp_sqlCompare
  exact inferInstanceAs (TransCmp (flip (compareOn InsightRecord.created_at)))

/-- The first row of an `ORDER BY` is the row that sorts strictly before all others. -/
theorem head_orderBy {α : Type} (cmp : α → α → Ordering) (hcmp : TransCmp cmp)
    (rows : List α) (r : α) (hr : r ∈ rows) (hfirst : ∀ x ∈ rows, x ≠ r → cmp r x = .lt) :
    (orderBy cmp rows).head? = some r := by
  have hsorted := orderBy_sorted cmp hcmp rows
  have hmem : r ∈ orderBy cmp rows := (mem_orderBy cmp rows r).2 hr
  cases hl : orderBy cmp rows with
  | nil =>
    rw [hl] at hmem
    exact absurd hmem (List.not_mem_nil r)
  | cons h t =>
    rw [hl] at hsorted hmem
    by_cases hh : h = r
    · rw [hh]
      rfl
    · have hrt : r ∈ t := (List.mem_cons.1 hmem).resolve_left (fun e => hh e.symm)
      have hle := (List.pairwise_cons.1 hsorted).1 r hrt
      have hh_mem : h ∈ rows := (mem_orderBy cmp rows h).1 (by
        rw [hl]
        exact List.mem_cons_self _ _)
      have hlt := hfirst h hh_mem hh
      exact absurd (OrientedCmp.cmp_eq_gt.2 hlt) hle

theorem read_stored_json {Value : Type} (json : JsonCodec Value) (value : Option Value)
    (h : RoundTrips json value) :
    parseOptional json
        (readColumn (Affinity.text.apply (bindParameter (stringifyOptional json value)))) =
      .ok value := by
  cases value with
  | none => rfl
  | some v =>
    obtain ⟨text, hne, hs, hp⟩ := h v rfl
    simp [stringifyOptional, hs, bindParameter, Affinity.apply, readColumn, parseOptional,
      truthy, hne, toStringJS, hp]

/-- In a store where the table `insights` exists, a snapshot saved at a time after
those of all stored snapshots is what `getLatestInsights` returns next, with the text
passed and the values passed for `qoqData` and `currentQuarter` (`null` for `null`). -/
theorem getLatestInsights_after_save {Value : Type} (json : JsonCodec Value)
    (store : InsightStore) (now text : String) (qoqData currentQuarter : Option Value)
    (htable : store.tableExists = true) (hnow : sqlNumericText now = none)
    (hlater : ∀ r ∈ store.insights, sqlCompare r.created_at (.text now) = .lt)
    (hqoq : RoundTrips json qoqData) (hquarter : RoundTrips json currentQuarter) :
    ∃ (after : InsightStore) (record : InsightRecord) (snapshot : InsightSnapshot Value),
      saveInsights json store now (.string text) qoqData currentQuarter =
        .ok (after, record.id) ∧
      after.insights = store.insights ++ [record] ∧
      getLatestInsights json after = .ok (some snapshot) ∧
      snapshot.insights_text = .string text ∧ snapshot.qoq_data = qoqData ∧
      snapshot.current_quarter = currentQuarter := by
  let record : InsightRecord :=
    ⟨nextRowId store.insightsSequence (store.insights.map (·.id)), .text text,
      Affinity.text.apply (bindParameter (stringifyOptional json qoqData)),
      Affinity.text.apply (bindParameter (stringifyOptional json currentQuarter)),
      .text now, .text now⟩
  have hhead : (orderBy compareCreated (store.insights ++ [record])).head? = some record := by
    apply head_orderBy compareCreated transCmp_compareCreated
    · simp
    · intro x hx hne
      have hx2 : x ∈ store.insights := by
        rcases List.mem_append.1 hx with h | h
        · exact h
        · exact absurd (List.mem_singleton.1 h) hne
      exact hlater x hx2
  refine ⟨{ store with
      insights := store.insights ++ [record]
      insightsSequence := record.id }, record,
    ⟨.number (.finite record.id), .string text, qoqData, currentQuarter, .string now,
      .string now⟩, ?_, rfl, ?_, rfl, rfl, rfl⟩
  · simp [saveInsights, htable, hnow, bindParameter, Affinity.apply, record]
  · have hlimit : (limitRows 1 (orderBy compareCreated (store.insights ++ [record]))).head? =
        some record := by
      rw [← hhead]
      simp [limitRows, List.head?_take]
    simp only [getLatestInsights, htable, Bool.not_true, Bool.false_eq_true, if_false, hlimit]
    rw [read_stored_json json qoqData hqoq, read_stored_json json currentQuarter hquarter]
    rfl

/-- C21: on a database file set up by `createTables` the table `insights` does not
exist, because its `CREATE TABLE` is the second statement of a string handed to one
`db.run`.  `saveInsights` rejects instead of adding a row, and `getLatestInsights`
rejects instead of returning `null` or a snapshot.  (In a store where the table exists,
a snapshot saved after another one is the one returned.) -/
theorem insights_table_is_never_created :
    createTables = [.files, .quarterly_data, .dashboard_config] ∧
    InsightStore.initial.tableExists = false ∧
    saveInsights booleanJson InsightStore.initial sampleTime (.string "Summary") none none =
      .error "SQLITE_ERROR: no such table: insights" ∧
    (getLatestInsights booleanJson InsightStore.initial :
        Except String (Option (InsightSnapshot Bool))) =
      .error "SQLITE_ERROR: no such table: insights" ∧
    (∃ first second,
      saveInsights booleanJson insightStoreWithTable sampleTime (.string "Summary")
        none none = .ok first ∧
      saveInsights booleanJson first.1 laterTime (.string "Update") (some true) none =
        .ok second ∧
      (getLatestInsights booleanJson second.1).toOption.map
          (fun latest => latest.map
            (fun s => (s.insights_text, s.qoq_data, s.current_quarter))) =
        some (some (.string "Update", some true, none))) :=
  ⟨rfl, rfl, rfl, rfl, _, _, rfl, rfl, rfl⟩

/-! ## C23: the CRM sync of the pipeline figures -/

/-- No request path leads to the router of `hubspotRoutes.js`: it is not mounted. -/
theorem hubspotRoutes_not_mounted (path rest : String) :
    mountedRouterFor path ≠ some (.hubspotRoutes, rest) := by
  unfold mountedRouterFor mountedRouters
  simp only [List.findSome?]
  cases belowMount "/api/data" path <;> cases belowMount "/api/upload" path <;>
    cases belowMount "/api/analysis" path <;> simp

/-- C23: `POST /api/hubspot/sync` for `pipeline` (pipeline value 500000, 12 active
deals, win rate 25, in 2026) on the empty database stores no record.  `server.js`
mounts the data, upload and analysis routers only, so the path leads to no router and
the request is answered 404 with the store left empty (the same for the path
`/hubspot/sync`).  And the handler of `hubspotRoutes.js`, run on the same input, stores
three records none of which is for quarter Q1 of 2026: its calls of `saveQuarterlyData`
leave out the file id, so the records have the quarter `2026`, the year holds the
metric name, the metric name holds the value, the metric value holds the unit and the
unit holds the category. -/
theorem pipeline_sync_request_stores_nothing :
    (mountedRouters.map (fun m => m.2) = [.dataRoutes, .uploadRoutes, .analysisRoutes] ∧
      mountedRouterFor "/api/hubspot/sync" = none ∧
      (serverPostSync Database.empty sampleTime 2026 "/api/hubspot/sync"
          (.pipeline (.number (.finite 500000)) (.number (.finite 12))
            (.number (.finite 25)))).map (fun answer => (answer.1, answer.2.quarterly_data)) =
        some (404, []) ∧
      (serverPostSync Database.empty sampleTime 2026 "/hubspot/sync"
          (.pipeline (.number (.finite 500000)) (.number (.finite 12))
            (.number (.finite 25)))).map (fun answer => (answer.1, answer.2.quarterly_data)) =
        some (404, []) ∧
      ∀ path rest, mountedRouterFor path ≠ some (.hubspotRoutes, rest)) ∧
    ((hubspotSyncRoute Database.empty sampleTime 2026
        (.pipeline (.number (.finite 500000)) (.number (.finite 12))
          (.number (.finite 25)))).1 = 200 ∧
    (hubspotSyncRoute Database.empty sampleTime 2026
        (.pipeline (.number (.finite 500000)) (.number (.finite 12))
          (.number (.finite 25)))).2.quarterly_data.map
        (fun r => (r.quarter, r.year, r.metric_name, r.metric_value, r.metric_unit,
          r.category)) =
      [(.text "2026", .text "Pipeline Value", .text "500000", .text "USD", .text "Sales",
          .null),
        (.text "2026", .text "Active Deals", .text "12", .text "Count", .text "Sales",
          .null),
        (.text "2026", .text "Win Rate", .text "25", .text "%", .text "Sales", .null)] ∧
    getQuarterlyData (hubspotSyncRoute Database.empty sampleTime 2026
        (.pipeline (.number (.finite 500000)) (.number (.finite 12))
          (.number (.finite 25)))).2 (.string "Q1") (.number (.finite 2026)) = []) :=
  ⟨⟨rfl, rfl, rfl, rfl, hubspotRoutes_not_mounted⟩, rfl, rfl, rfl⟩

/-! ## C25: the paginated listing -/

/-- C25: with one record for each quarter of 2024 stored, the full historical ordering
is Q4, Q3, Q2, Q1, and `GET /data/historical?limit=2&offset=0` returns Q4, Q3; but
`limit=2&offset=2` returns no record instead of Q2, Q1, and `limit=2&offset=1` returns
Q3 only instead of Q3, Q2: the query is cut at `limit` rows before the offset is
applied. -/
theorem historical_second_page_is_empty :
    (getHistoricalData arrDatabase .null none).map (fun r => r.quarter) =
      [.string "Q4", .string "Q3", .string "Q2", .string "Q1"] ∧
    (historicalRoute arrDatabase (some "2") (some "0")).data =
      ((getHistoricalData arrDatabase .null none).drop 0).take 2 ∧
    ((getHistoricalData arrDatabase .null none).drop 2).take 2 ≠ [] ∧
    (historicalRoute arrDatabase (some "2") (some "2")).data = [] ∧
    (historicalRoute arrDatabase (some "2") (some "2")).total = 2 ∧
    (historicalRoute arrDatabase (some "2") (some "1")).data =
      ((getHistoricalData arrDatabase .null none).drop 1).take 1 :=
  ⟨rfl, rfl, by decide, rfl, rfl, rfl⟩

/-! ## C27: the comparison query on an empty store -/

/-- C27: on a store without metric records `getMetricsComparison([])` never completes.
The query for the latest periods gives no row, the method calls itself with the empty
list again, and so on: whatever the number of nested calls allowed, the promise is not
settled. -/
theorem getMetricsComparison_empty_store_never_settles (fuel : Nat) :
    Database.empty.quarterly_data = [] ∧
    (latestPeriods Database.empty).map periodKey = [] ∧
    getMetricsComparison fuel Database.empty [] = none := by
  refine ⟨rfl, rfl, ?_⟩
  induction fuel with
  | zero => rfl
  | succ n ih =>
    have hkeys : (latestPeriods Database.empty).map periodKey = [] := rfl
    rw [getMetricsComparison]
    simp only [List.length_nil, if_true, hkeys]
    exact ih

/-! ## C28: label order and fiscal order -/

theorem orderedInsert_congr {α : Type} (cmp1 cmp2 : α → α → Ordering) (a : α) (l : List α)
    (h : ∀ b ∈ l, cmp1 a b = cmp2 a b) :
    l.orderedInsert (fun x y => cmp1 x y ≠ .gt) a =
      l.orderedInsert (fun x y => cmp2 x y ≠ .gt) a := by
  induction l with
  | nil => rfl
  | cons b rest ih =>
    simp only [List.orderedInsert, h b (List.mem_cons_self _ _),
      ih (fun c hc => h c (List.mem_cons_of_mem _ hc))]

/-- Two comparisons that agree on the rows sort them alike. -/
theorem orderBy_congr {α : Type} (cmp1 cmp2 : α → α → Ordering) (rows : List α)
    (h : ∀ a ∈ rows, ∀ b ∈ rows, cmp1 a b = cmp2 a b) :
    orderBy cmp1 rows = orderBy cmp2 rows := by
  induction rows with
  | nil => rfl
  | cons a rest ih =>
    have hrest := ih (fun x hx y hy =>
      h x (List.mem_cons_of_mem _ hx) y (List.mem_cons_of_mem _ hy))
    unfold orderBy at hrest ⊢
    rw [List.insertionSort, List.insertionSort, hrest]
    apply orderedInsert_congr
    intro b hb
    have hb2 : b ∈ rest := (List.perm_insertionSort _ rest).mem_iff.1 hb
    exact h a (List.mem_cons_self _ _) b (List.mem_cons_of_mem _ hb2)

theorem comparePeriod_eq_fiscal (a b : SqlValue × SqlValue)
    (ha : ∃ q ∈ ["Q1", "Q2", "Q3", "Q4"], a.1 = .text q)
    (hb : ∃ q ∈ ["Q1", "Q2", "Q3", "Q4"], b.1 = .text q) :
    comparePeriod a b = comparePeriodFiscal a b := by
  obtain ⟨qa, hqa, hta⟩ := ha
  obtain ⟨qb, hqb, htb⟩ := hb
  have hlabel : compare b.1 a.1 = compare (quarterRank b.1) (quarterRank a.1) := by
    rw [hta, htb]
    exact label_order qb qa hqb hqa
  simp only [comparePeriod, comparePeriodFiscal, compareLex, compareOn, flip, hlabel]

theorem compareLabel_eq_fiscal (r s : MetricRecord)
    (hr : ∃ q ∈ ["Q1", "Q2", "Q3", "Q4"], r.quarter = .text q)
    (hs : ∃ q ∈ ["Q1", "Q2", "Q3", "Q4"], s.quarter = .text q) :
    compareLabel r s = compareFiscal r s := by
  obtain ⟨qr, hqr, htr⟩ := hr
  obtain ⟨qs, hqs, hts⟩ := hs
  have hlabel : compare s.quarter r.quarter =
      compare (quarterRank s.quarter) (quarterRank r.quarter) := by
    rw [htr, hts]
    exact label_order qs qr hqs hqr
  simp only [compareLabel, compareFiscal, compareLex, compareOn, flip, hlabel]

/-- C28. For every store whose records all have a quarter in Q1..Q4: on the records
and on the (quarter, year) pairs of the store, the order by year descending and
quarter label descending is the order by year descending and fiscal `CASE` rank
descending; so the distinct pairs sorted by label are the rows of
`getAvailableQuarters()`, and the pairs selected by `getMetricsComparison([])` are its
first 4 rows. -/
theorem label_order_is_fiscal_order (db : Database) (hlabels : HasQuarterLabels db) :
    (∀ r ∈ db.quarterly_data, ∀ s ∈ db.quarterly_data,
      compareLabel r s = compareFiscal r s) ∧
    (∀ r ∈ db.quarterly_data, ∀ s ∈ db.quarterly_data,
      comparePeriod (r.quarter, r.year) (s.quarter, s.year) =
        comparePeriodFiscal (r.quarter, r.year) (s.quarter, s.year)) ∧
    orderBy compareLabel db.quarterly_data = orderBy compareFiscal db.quarterly_data ∧
    orderBy comparePeriod
        (distinctRows samePeriod (db.quarterly_data.map (fun r => (r.quarter, r.year)))) =
      availablePeriods db ∧
    latestPeriods db = (availablePeriods db).take 4 ∧
    (latestPeriods db).map (fun p => (readColumn p.1, readColumn p.2)) =
      (getAvailableQuarters db).take 4 := by
  have hrecords : ∀ r ∈ db.quarterly_data, ∀ s ∈ db.quarterly_data,
      compareLabel r s = compareFiscal r s :=
    fun r hr s hs => compareLabel_eq_fiscal r s (hlabels r hr) (hlabels s hs)
  have hpairs : ∀ a ∈ distinctRows samePeriod
      (db.quarterly_data.map (fun r => (r.quarter, r.year))),
      ∃ q ∈ ["Q1", "Q2", "Q3", "Q4"], a.1 = .text q := by
    intro a ha
    obtain ⟨r, hr, rfl⟩ := List.mem_map.1 ((distinctRows_sublist _ _).subset ha)
    exact hlabels r hr
  have hsorted : orderBy comparePeriod
      (distinctRows samePeriod (db.quarterly_data.map (fun r => (r.quarter, r.year)))) =
      availablePeriods db :=
    orderBy_congr _ _ _ (fun a ha b hb =>
      comparePeriod_eq_fiscal a b (hpairs a ha) (hpairs b hb))
  have hlatest : latestPeriods db = (availablePeriods db).take 4 := by
    rw [← hsorted]
    simp [latestPeriods, limitRows]
  refine ⟨hrecords, ?_, orderBy_congr _ _ _ hrecords, hsorted, hlatest, ?_⟩
  · intro r hr s hs
    exact comparePeriod_eq_fiscal _ _ (hlabels r hr) (hlabels s hs)
  · rw [hlatest, getAvailableQuarters, List.map_take]

/-- Witness for C28: the store with the four quarters of 2024. -/
theorem label_order_is_fiscal_order_witness :
    HasQuarterLabels arrDatabase ∧
    latestPeriods arrDatabase = (availablePeriods arrDatabase).take 4 ∧
    getAvailableQuarters arrDatabase =
      [(.string "Q4", .number (.finite 2024)), (.string "Q3", .number (.finite 2024)),
        (.string "Q2", .number (.finite 2024)), (.string "Q1", .number (.finite 2024))] :=
  ⟨by unfold HasQuarterLabels; decide,
    (label_order_is_fiscal_order arrDatabase (by unfold HasQuarterLabels; decide)).2.2.2.2.1,
    rfl⟩

/-! ## C24: key metrics -/

/-- C24: `extractKeyMetrics` reports the record of the oldest quarter, not of the most
recent one.  For the store with an NRR record of 102 for Q4-2024 and one of 105 for
Q1-2025, `getQuarterlyData()` returns the Q1-2025 row first and the Q4-2024 row last;
every row overwrites the entry of its metric, so the reported `nrr` is 102, the value
of Q4-2024.  The target of the record, `null`, is reported as the default 110. -/
theorem extractKeyMetrics_reports_oldest_quarter :
    (getQuarterlyData nrrDatabase .null .null).map
        (fun r => (r.quarter, r.year, r.metric_name, r.metric_value, r.target_value)) =
      [(.text "Q1", .integer 2025, .text "NRR", .real (.finite 105), .null),
        (.text "Q4", .integer 2024, .text "NRR", .real (.finite 102), .null)] ∧
    ∃ reported : DashboardData,
      extractKeyMetrics (getQuarterlyData nrrDatabase .null .null) = .ok reported ∧
      reported.nrr = .number (.finite 102) ∧
      reported.nrr ≠ .number (.finite 105) ∧
      reported.targetNRR = .number (.finite 110) ∧
      reported.nrrStatus = .string "neutral" :=
  ⟨rfl, _, rfl, rfl, by decide, rfl, rfl⟩

/-! ## C30: the analysis prompt -/

/-- C30: `createAnalysisPrompt` throws for a comparison without a previous record.  For
the store with NRR records for Q4-2024 and Q1-2025, the comparison of (NRR, Q4, 2024)
has `previous = null`, and the prompt for it is not built: reading
`comparison.previous.metric_value` throws a `TypeError`.  The comparison of
(NRR, Q1, 2025), which has both records, gives a prompt. -/
theorem createAnalysisPrompt_throws_without_previous :
    (getQuarterOverQuarterComparison nrrDatabase (.string "NRR") (.string "Q4")
      (.number (.finite 2024))).previous = none ∧
    (getQuarterOverQuarterComparison nrrDatabase (.string "NRR") (.string "Q4")
      (.number (.finite 2024))).current ≠ none ∧
    createAnalysisPrompt defaultData
        (some [("NRR", getQuarterOverQuarterComparison nrrDatabase (.string "NRR")
          (.string "Q4") (.number (.finite 2024)))])
        (some (.string "Q4", .number (.finite 2024))) =
      .error "Cannot read properties of null (reading \x27metric_value\x27)" ∧
    ∃ prompt : String,
      createAnalysisPrompt defaultData
          (some [("NRR", getQuarterOverQuarterComparison nrrDatabase (.string "NRR")
            (.string "Q1") (.number (.finite 2025)))])
          (some (.string "Q1", .number (.finite 2025))) =
        .ok prompt :=
  ⟨rfl, by decide, rfl, _, rfl⟩

end DatabaseService
